import Mathlib

/-!
# FileConverter (OpenMS TOPP tool): shallow embedding and verification

Embedding of `src/topp/FileConverter.cpp`:

* `extractCachedMetaFilename` (lines 140-154), over `String`;
* `TOPPFileConverter::main_` (lines 207-732), as a pure function of the
  invocation parameters and of the results of the external collaborators
  (file readers, converters), returning the exit status together with the
  trace of observable effects (log lines, loads, stores, sink creation).

Strings of the source are Lean `String`s; the work on characters is done on
their `data : List Char`.
-/

set_option autoImplicit false

namespace OpenMS

/-! ## Strings -/

/-- Worker of `String::split`: scans the text from the left.  `skip` counts the
characters of an already matched separator that still have to be passed over,
`acc` holds the characters of the piece under construction in reverse. -/
def splitGo (sep : List Char) : List Char → Nat → List Char → List (List Char)
  | [], _, acc => [acc.reverse]
  | _ :: cs, skip + 1, acc => splitGo sep cs skip acc
  | c :: cs, 0, acc =>
    if sep.isPrefixOf (c :: cs) then
      acc.reverse :: splitGo sep cs (sep.length - 1) []
    else
      splitGo sep cs 0 (c :: acc)

/-- Modelled from the spec: `String::split(splitter, substrings)` of
`OpenMS/DATASTRUCTURES/String.h` is not under src/. The text is cut at every
occurrence of the separator, searched from left to right, so a text in which
the separator occurs `n` times yields `n + 1` pieces (the text before the first
occurrence, the texts between occurrences, the text after the last one). -/
def split (sep : List Char) (s : List Char) : List (List Char) :=
  splitGo sep s 0 []

/-- The fixed suffix of the dump half of a cache pair. -/
def cachedSuffix : List Char := ".cachedMzML".data

/-- The extension of the shell half of a cache pair. -/
def metaSuffix : List Char := ".mzML".data

/-- Body of `extractCachedMetaFilename` on character lists
(FileConverter.cpp, lines 140-154). -/
def extractCachedMetaChars (s : List Char) : List Char :=
  match split cachedSuffix s with
  | [stem, _] => stem ++ metaSuffix
  | _ => []

/-- The function `extractCachedMetaFilename` (FileConverter.cpp, lines
140-154): the path is split at ".cachedMzML"; unless exactly two pieces result the empty string is
returned (after logging an error), otherwise the first piece followed by
".mzML". -/
def extractCachedMetaFilename (s : String) : String :=
  ⟨extractCachedMetaChars s.data⟩

/-- Number of positions of `s` at which `sep` occurs. -/
def occurrences (sep : List Char) : List Char → Nat
  | [] => 0
  | c :: cs => (if sep.isPrefixOf (c :: cs) then 1 else 0) + occurrences sep cs

/-! ## Data model -/

/-- Members of `FileTypes::Type` named in the sources (the declaration itself,
`OpenMS/FORMAT/FileTypes.h`, is not under src/); `OTHER` stands for every
remaining member of the enumeration. -/
inductive FileType where
  | UNKNOWN | MZML | MZXML | MGF | RAW | CACHEDMZML | MZDATA | DTA | DTA2D
  | FEATUREXML | CONSENSUSXML | MS2 | XMASS | TSV | PEPLIST | KROENIK | EDTA
  | OMS | CSV | SQMASS | IDXML | OTHER
  deriving DecidableEq, Repr

/-- Exit codes of `TOPPBase` used by the tools, with the code an external
process can report through `runExternalProcess_`. -/
inductive ExitCodes where
  | EXECUTION_OK | ILLEGAL_PARAMETERS | PARSE_ERROR | INCOMPATIBLE_INPUT_DATA
  | INTERNAL_ERROR | EXTERNAL_PROGRAM_ERROR
  deriving DecidableEq, Repr

/-- Exceptions thrown by `main_` itself. -/
inductive Exception where
  | IllegalArgument | NotImplemented
  deriving DecidableEq, Repr

/-- Ion-mobility wire encodings (`IMFormat` of `OpenMS/IONMOBILITY/IMTypes.h`). -/
inductive IMFormat where
  | NONE | CONCATENATED | MULTIPLE_SPECTRA | MIXED
  deriving DecidableEq, Repr

/-- Scan mode of a spectrum, as far as `main_` sets it. -/
inductive ScanMode where
  | UNSET | SRM
  deriving DecidableEq, Repr

/-- Actions recorded in a data-processing entry. -/
inductive ProcessingAction where
  | CONVERSION_MZML | CONVERSION_MZDATA | CONVERSION_MZXML | FORMAT_CONVERSION
  | ALIGNMENT
  deriving DecidableEq, Repr

/-- A data-processing (provenance) entry: its action and the software and
time stamp data, which the tools never inspect. -/
structure DataProcessing where
  action : ProcessingAction
  info : Nat
  deriving DecidableEq, Repr

/-- A peak of a spectrum. Coordinates are only carried around by the tools. -/
structure Peak1D where
  mz : Rat
  intensity : Rat
  deriving DecidableEq, Repr

/-- A peak of a chromatogram. -/
structure ChromatogramPeak where
  rt : Rat
  intensity : Rat
  deriving DecidableEq, Repr

/-- A spectrum: retention time, scan mode, the remaining header data (`info`,
never inspected here) and the peak payload. -/
structure MSSpectrum where
  rt : Rat
  scanMode : ScanMode
  info : Nat
  peaks : List Peak1D
  deriving DecidableEq, Repr

/-- A chromatogram: header data and the peak payload. -/
structure MSChromatogram where
  info : Nat
  peaks : List ChromatogramPeak
  deriving DecidableEq, Repr

/-- An experiment (`MSExperiment`, alias `PeakMap`). -/
structure MSExperiment where
  spectra : List MSSpectrum
  chromatograms : List MSChromatogram
  dataProcessing : List DataProcessing
  info : Nat
  deriving DecidableEq, Repr

/-- A feature. `uniqueId = 0` is the invalid identifier. -/
structure Feature where
  rt : Rat
  mz : Rat
  intensity : Rat
  quality0 : Rat
  quality1 : Rat
  overallQuality : Rat
  uniqueId : Nat
  info : Nat
  deriving DecidableEq, Repr

/-- A feature map. -/
structure FeatureMap where
  features : List Feature
  uniqueId : Nat
  dataProcessing : List DataProcessing
  ranges : Nat
  info : Nat
  deriving DecidableEq, Repr

/-- A consensus feature. -/
structure ConsensusFeature where
  rt : Rat
  mz : Rat
  intensity : Rat
  uniqueId : Nat
  info : Nat
  deriving DecidableEq, Repr

/-- A peptide identification not assigned to a feature; `mapIndex` is its
"map_index" meta value. -/
structure PeptideIdentification where
  mapIndex : Option Nat
  info : Nat
  deriving DecidableEq, Repr

/-- A consensus map. -/
structure ConsensusMap where
  features : List ConsensusFeature
  uniqueId : Nat
  unassignedPeptideIdentifications : List PeptideIdentification
  dataProcessing : List DataProcessing
  info : Nat
  deriving DecidableEq, Repr

/-- A default-constructed experiment. -/
def MSExperiment.empty : MSExperiment := ⟨[], [], [], 0⟩

/-- A default-constructed (or cleared) feature map. -/
def FeatureMap.empty : FeatureMap := ⟨[], 0, [], 0, 0⟩

/-- A default-constructed consensus map. -/
def ConsensusMap.empty : ConsensusMap := ⟨[], 0, [], [], 0⟩

/-- The method `MSSpectrum::push_back`. -/
def MSSpectrum.push_back (s : MSSpectrum) (p : Peak1D) : MSSpectrum :=
  { s with peaks := s.peaks ++ [p] }

/-- The method `MSChromatogram::push_back`. -/
def MSChromatogram.push_back (c : MSChromatogram) (p : ChromatogramPeak) : MSChromatogram :=
  { c with peaks := c.peaks ++ [p] }

/-- The method `MSExperiment::size`: the number of spectra. -/
def MSExperiment.size (e : MSExperiment) : Nat := e.spectra.length

/-- The method `UniqueIdInterface::isValid`. -/
def isValidUniqueId (u : Nat) : Bool := u != 0

/-! ## Parameters, collaborators and observable effects -/

/-- Compression schemes of `MSNumpressCoder`. -/
inductive NumpressCompression where
  | NONE | LINEAR | PIC | SLOF
  deriving DecidableEq, Repr

/-- The fields of `MSNumpressCoder::NumpressConfig` that `main_` sets; `rest`
holds the fields it leaves at their defaults. -/
structure NumpressConfig where
  estimate_fixed_point : Bool
  numpressErrorTolerance : Rat
  np_compression : NumpressCompression
  linear_fp_mass_acc : Rat
  rest : Nat
  deriving DecidableEq, Repr

/-- Values of the command line parameters, as `main_` reads them. `in_type` is
the value of `FileTypes::nameToType(getStringOption_("in_type"))` and
`change_im_format` the value of `toIMFormat(getStringOption_("change_im_format"))`. -/
structure Params where
  in_ : String
  in_type : FileType
  out : String
  out_type : String
  UID_postprocessing : String
  TIC_DTA2D : Bool
  MGF_compact : Bool
  force_MaxQuant_compatibility : Bool
  force_TPP_compatibility : Bool
  convert_to_chromatograms : Bool
  change_im_format : IMFormat
  write_scan_index : String
  lossy_compression : Bool
  lossy_mass_accuracy : Rat
  process_lowmemory : Bool
  NET_executable : String
  ThermoRaw_executable : String
  no_peak_picking : Bool
  deriving DecidableEq, Repr

/-- The external collaborators of `main_` (declared in headers that are not
under src/): what the readers return for a path, the container conversions,
and the platform. Readers replace the content of the container they fill. -/
structure Env where
  /-- whether `OPENMS_WINDOWSPLATFORM` is defined -/
  windowsPlatform : Bool
  /-- a default-constructed `NumpressConfig` -/
  defaultNumpressConfig : NumpressConfig
  /-- Collaborator `FileHandler::getType` -/
  getType : String → FileType
  /-- Collaborator `FileHandler::getConsistentOutputfileType` -/
  getConsistentOutputfileType : String → String → FileType
  /-- Collaborator `TOPPBase::getProcessingInfo_` -/
  getProcessingInfo : ProcessingAction → DataProcessing
  /-- Collaborator `ConsensusXMLFile().load` -/
  loadConsensusXML : String → ConsensusMap
  /-- Collaborator `EDTAFile().load` -/
  loadEDTA : String → ConsensusMap
  /-- Collaborator `FileHandler::loadFeatures` -/
  loadFeatures : String → FileType → FeatureMap
  /-- Collaborator `MzMLFile::load` -/
  loadMzML : String → MSExperiment
  /-- Collaborator `CachedMzMLHandler::readMemdump` -/
  readMemdump : String → MSExperiment
  /-- Collaborator `FileHandler::loadExperiment` -/
  loadExperiment : String → FileType → MSExperiment
  /-- Collaborator `OMSFile().load` -/
  loadOMS : String → FeatureMap
  /-- the meta data `MzMLFile().transform(in, consumer, exp_meta)` leaves in `exp_meta` -/
  transformMeta : String → MSExperiment
  /-- Collaborator `ConsensusMap::sortByPosition` -/
  sortConsensusByPosition : ConsensusMap → ConsensusMap
  /-- Collaborator `FeatureMap::sortByPosition` -/
  sortFeaturesByPosition : FeatureMap → FeatureMap
  /-- Collaborator `MSExperiment::set2DData` from a consensus map -/
  set2DDataConsensus : MSExperiment → ConsensusMap → MSExperiment
  /-- Collaborator `MSExperiment::set2DData<true>` from a feature map -/
  set2DDataFeatures : MSExperiment → FeatureMap → MSExperiment
  /-- Collaborator `IMTypes::determineIMFormat` -/
  determineIMFormat : MSExperiment → IMFormat
  /-- Collaborator `IMDataConverter::splitByIonMobility` -/
  splitByIonMobility : MSExperiment → MSExperiment
  /-- Collaborator `IMDataConverter::collapseFramesToSingle` -/
  collapseFramesToSingle : MSExperiment → MSExperiment
  /-- Collaborator `ChromatogramTools::convertSpectraToChromatograms` -/
  convertSpectraToChromatograms : MSExperiment → Bool → Bool → MSExperiment
  /-- Collaborator `ChromatogramTools::convertChromatogramsToSpectra` -/
  convertChromatogramsToSpectra : MSExperiment → MSExperiment
  /-- Collaborator `MapConversion::convert(cm, keep_uids, fm)` -/
  convertConsensusToFeatures : ConsensusMap → Bool → FeatureMap → FeatureMap
  /-- Collaborator `MapConversion::convert(map_index, fm, cm)` -/
  convertFeaturesToConsensus : Nat → FeatureMap → ConsensusMap → ConsensusMap
  /-- Collaborator `MapConversion::convert(map_index, exp, cm, n)` -/
  convertExperimentToConsensus : Nat → MSExperiment → ConsensusMap → Nat → ConsensusMap
  /-- Collaborator `IdentificationDataConverter::exportFeatureIDs` -/
  exportFeatureIDs : FeatureMap → FeatureMap
  /-- Collaborator `IdentificationDataConverter::importFeatureIDs` -/
  importFeatureIDs : FeatureMap → FeatureMap
  /-- the bounding ranges `updateRanges` computes from the entries -/
  featureRanges : List Feature → Nat
  /-- a default-constructed `Feature` -/
  newFeature : Feature
  /-- the n-th value handed out by `UniqueIdGenerator::getUniqueId` -/
  uniqueId : Nat → Nat
  /-- Collaborator `TOPPBase::runExternalProcess_` -/
  runExternalProcess : String → List String → ExitCodes

/-- Lines written by `writeLog_`, `OPENMS_LOG_ERROR` and `std::cout`. -/
inductive LogLine where
  | couldNotDetermineInputType
  | couldNotDetermineOutputType
  | warnConsensusToPeaks
  | warnFeaturesToPeaks
  | warnPeaksToFeatures
  | rawFileReaderNotice
  | cannotDeduceBasePath (path : String)
  | pairedInputFilesDoNotMatch (in_meta : String) (in_ : String)
  | imLowMemoryNotImplemented
  | cannotDecideOnContainer
  | onlyConsensusXMLToIbspectra
  | onlyFeatureXMLToOms
  | unknownOutputFileType
  deriving DecidableEq, Repr

/-- Lines written by `writeDebug_`. -/
inductive DebugLine where
  | inputFileType (t : FileType)
  | outputFileType (t : FileType)
  | loadingInputFile
  | writingOutputFile
  deriving DecidableEq, Repr

/-- The readers `main_` calls. -/
inductive Reader where
  | ConsensusXMLFile | EDTAFile | loadFeatures (t : FileType) | MzMLFile
  | readMemdump | loadExperiment (t : FileType) | OMSFile
  deriving DecidableEq, Repr

/-- The writers `main_` calls; `DTA2DFileTIC` is `DTA2DFile::storeTIC`, the two
`CachedMzML*` writers are `CachedMzMLHandler::writeMetadata` and `writeMemdump`. -/
inductive Writer where
  | MzMLFile | MzDataFile | MzXMLFile | DTA2DFile | DTA2DFileTIC
  | MascotGenericFile (compact : Bool) | FeatureXMLFile | ConsensusXMLFile
  | EDTAFile | CachedMzMLMetadata | CachedMzMLMemdump | IBSpectraFile
  | SqMassFile | OMSFile
  deriving DecidableEq, Repr

/-- The streaming sinks. -/
inductive Sink where
  | PlainMSDataWritingConsumer | MSDataCachedConsumer
  deriving DecidableEq, Repr

/-- The objects whose options `main_` sets. -/
inductive Handle where
  | consumer | MzMLFile | MzXMLFile
  deriving DecidableEq, Repr

/-- The setters of `PeakFileOptions` that `main_` calls. -/
inductive OptionCall where
  | setWriteIndex (b : Bool)
  | setForceTPPCompatability (b : Bool)
  | setForceMQCompatability (b : Bool)
  | setNumpressConfigurationMassTime (c : NumpressConfig)
  | setNumpressConfigurationIntensity (c : NumpressConfig)
  | setNumpressConfigurationFloatDataArray (c : NumpressConfig)
  | setCompression (b : Bool)
  deriving DecidableEq, Repr

/-- What a writer is handed. -/
inductive Container where
  | experiment (e : MSExperiment)
  | featureMap (f : FeatureMap)
  | consensusMap (c : ConsensusMap)
  deriving DecidableEq, Repr

/-- Observable effects of `main_`, in the order they happen. Calls of
`setLogType` (progress display) and `reserve` (capacity) are not recorded. -/
inductive Event where
  | debug (d : DebugLine)
  | log (l : LogLine)
  | printUsage
  | load (r : Reader) (path : String)
  | setOption (h : Handle) (o : OptionCall)
  | sinkCreated (k : Sink) (path : String)
  | sinkAddDataProcessing (dp : DataProcessing)
  | transform (src : FileType) (path : String) (k : Sink)
  | store (w : Writer) (path : String) (c : Container)
  | externalProcess (exe : String) (args : List String)
  deriving DecidableEq, Repr

/-- How an invocation of `main_` ends: it returns an exit code, throws, or runs
into undefined behaviour (an index past the end of a `std::vector`). -/
inductive Outcome where
  | returned (c : ExitCodes)
  | threw (e : Exception)
  | undefinedBehaviour
  deriving DecidableEq, Repr

/-- A finished invocation: the effects and how it ended. -/
structure Run where
  trace : List Event
  outcome : Outcome
  deriving DecidableEq, Repr

/-- The three containers of `main_` and the number of identifiers drawn from
the generator so far. -/
structure Data where
  exp : MSExperiment
  fm : FeatureMap
  cm : ConsensusMap
  idsDrawn : Nat
  deriving DecidableEq, Repr

/-- Result of the input section of `main_`: either the invocation is over, or
the containers are filled and the output section follows. -/
inductive Stage where
  | done (r : Run)
  | loaded (trace : List Event) (d : Data)
  deriving DecidableEq, Repr

/-- An event that creates or writes an output artifact: a store by a writer,
the creation of a streaming sink, or records flowing into a sink. -/
def Event.isWrite : Event → Bool
  | .store _ _ _ => true
  | .sinkCreated _ _ => true
  | .transform _ _ _ => true
  | _ => false

/-- An information-loss warning (a container converted down to peaks). -/
def Event.isLossWarning : Event → Bool
  | .log .warnConsensusToPeaks => true
  | .log .warnFeaturesToPeaks => true
  | _ => false

/-! ## Helpers of `main_` that are not under src/ -/

/-- Modelled from the spec: `TOPPBase::addDataProcessing_` for an experiment is
not under src/. The provenance entry is appended to the container's log of
data-processing entries; nothing else changes. -/
def addDataProcessingExp (e : MSExperiment) (dp : DataProcessing) : MSExperiment :=
  { e with dataProcessing := e.dataProcessing ++ [dp] }

/-- Modelled from the spec: `TOPPBase::addDataProcessing_` for a feature map is
not under src/. The provenance entry is appended to the map's log. -/
def addDataProcessingFM (f : FeatureMap) (dp : DataProcessing) : FeatureMap :=
  { f with dataProcessing := f.dataProcessing ++ [dp] }

/-- Modelled from the spec: `TOPPBase::addDataProcessing_` for a consensus map
is not under src/. The provenance entry is appended to the map's log. -/
def addDataProcessingCM (c : ConsensusMap) (dp : DataProcessing) : ConsensusMap :=
  { c with dataProcessing := c.dataProcessing ++ [dp] }

/-- Modelled from the spec: `UniqueIdInterface::ensureUniqueId` is not under
src/. A valid identifier is kept; an invalid one is replaced by the next value
of the generator. Returns the identifier and the number of values drawn. -/
def ensureUniqueId (env : Env) (uid : Nat) (drawn : Nat) : Nat × Nat :=
  if isValidUniqueId uid then (uid, drawn) else (env.uniqueId drawn, drawn + 1)

/-- Modelled from the spec: `UniqueIdInterface::setUniqueId()` is not under
src/. The identifier is replaced by the next value of the generator. -/
def setUniqueId (env : Env) (_uid : Nat) (drawn : Nat) : Nat × Nat :=
  (env.uniqueId drawn, drawn + 1)

/-- Applies an identifier update to the features of a map in order, threading
the number of values drawn. -/
def applyToFeatures (f : Nat → Nat → Nat × Nat) : List Feature → Nat → List Feature × Nat
  | [], drawn => ([], drawn)
  | x :: xs, drawn =>
    let r := f x.uniqueId drawn
    let rest := applyToFeatures f xs r.2
    ({ x with uniqueId := r.1 } :: rest.1, rest.2)

/-- Modelled from the spec: `FeatureMap::applyMemberFunction` is not under
src/. The identifier update is applied to the map's own identifier and then to
every entry of the map, in order. -/
def applyMemberFunction (f : Nat → Nat → Nat × Nat) (fm : FeatureMap) (drawn : Nat) :
    FeatureMap × Nat :=
  let own := f fm.uniqueId drawn
  let r := applyToFeatures f fm.features own.2
  ({ fm with uniqueId := own.1, features := r.1 }, r.2)

/-- Modelled from the spec: `FeatureMap::updateRanges` is not under src/. The
cached bounding ranges are recomputed from the entries; the entries stay. -/
def updateRanges (env : Env) (fm : FeatureMap) : FeatureMap :=
  { fm with ranges := env.featureRanges fm.features }

/-! ## The cachedMzML merge (FileConverter.cpp, lines 374-390) -/

/-- The loop `for i < src.size(): for j < src[i].size(): tgt[i].push_back(src[i][j])`
with `i` counting up from the given index. The target is indexed inside the
inner loop only, so a source record without payload touches nothing. `none` is
an access `tgt[i]` past the last element of `tgt` (undefined behaviour in the
source). -/
def appendLoop {R D P : Type} (push : R → P → R) (payload : D → List P) :
    Nat → List D → List R → Option (List R)
  | _, [], tgt => some tgt
  | i, d :: ds, tgt =>
    if (payload d).isEmpty then appendLoop push payload (i + 1) ds tgt
    else
      match tgt[i]? with
      | none => none
      | some r => appendLoop push payload (i + 1) ds (tgt.set i ((payload d).foldl push r))

/-- Lines 374-390: the peaks of every dump spectrum are pushed onto the shell
spectrum of the same index, then the same for the chromatograms on a copy of
the shell chromatograms, which is then set. -/
def mergeCachedMzML (exp tmp_exp : MSExperiment) : Option MSExperiment :=
  match appendLoop MSSpectrum.push_back MSSpectrum.peaks 0 tmp_exp.spectra exp.spectra with
  | none => none
  | some spectra =>
    match appendLoop MSChromatogram.push_back MSChromatogram.peaks 0
        tmp_exp.chromatograms exp.chromatograms with
    | none => none
    | some old_chromatograms =>
      some { exp with spectra := spectra, chromatograms := old_chromatograms }

/-- The error line `extractCachedMetaFilename` logs when it fails. -/
def extractCachedMetaLog (s : String) : List Event :=
  if (split cachedSuffix s.data).length ≠ 2 then [.log (.cannotDeduceBasePath s)] else []

/-! ## `TOPPFileConverter::main_` -/

/-- Lines 225-235: configuration of the mass axis. -/
def npconfig_mz (env : Env) (p : Params) : NumpressConfig :=
  { env.defaultNumpressConfig with
    estimate_fixed_point := true, numpressErrorTolerance := -1,
    np_compression := .LINEAR, linear_fp_mass_acc := p.lossy_mass_accuracy }

/-- Lines 225-235: configuration of the intensity axis. -/
def npconfig_int (env : Env) : NumpressConfig :=
  { env.defaultNumpressConfig with
    estimate_fixed_point := true, numpressErrorTolerance := -1, np_compression := .SLOF }

/-- Lines 225-235: configuration of float data arrays, compressed the same way
as intensities. -/
def npconfig_fda (env : Env) : NumpressConfig :=
  { env.defaultNumpressConfig with
    estimate_fixed_point := true, numpressErrorTolerance := -1, np_compression := .SLOF }

/-- The four option calls made under `lossy_compression` (lines 412-418 on the
consumer, lines 482-488 on the mzML writer). -/
def lossyOptions (env : Env) (p : Params) (h : Handle) : List Event :=
  if p.lossy_compression then
    [.setOption h (.setNumpressConfigurationMassTime (npconfig_mz env p)),
     .setOption h (.setNumpressConfigurationIntensity (npconfig_int env)),
     .setOption h (.setNumpressConfigurationFloatDataArray (npconfig_fda env)),
     .setOption h (.setCompression true)]
  else []

/-- Line 215: `getStringOption_("write_scan_index") == "true"`. -/
def write_scan_index (p : Params) : Bool := p.write_scan_index == "true"

/-- Lines 296-320: the command line of the external raw file converter. -/
def rawProcessCall (env : Env) (p : Params) : String × List String :=
  let net_executable :=
    if env.windowsPlatform then
      (if p.NET_executable = "" then p.ThermoRaw_executable else p.NET_executable)
    else
      (if p.NET_executable = "" then "mono" else p.NET_executable)
  let arguments0 : List String :=
    if env.windowsPlatform then
      (if p.NET_executable = "" then [] else [p.ThermoRaw_executable])
    else [p.ThermoRaw_executable]
  let arguments1 := arguments0 ++ ["-i=" ++ p.in_, "--output_file=" ++ p.out, "-f=2", "-e"]
  (net_executable, if p.no_peak_picking then arguments1 ++ ["--noPeakPicking"] else arguments1)

/-- Lines 276-287 (consensusXML) and 322-333 (edta): the loaded consensus map
is sorted and, unless a feature or consensus format is written, the experiment
is filled from it after a warning. -/
def readConsensus (env : Env) (p : Params) (out_type : FileType) (r : Reader)
    (loaded : ConsensusMap) : Stage :=
  let cm := env.sortConsensusByPosition loaded
  if out_type ≠ .FEATUREXML ∧ out_type ≠ .CONSENSUSXML then
    .loaded [.load r p.in_, .log .warnConsensusToPeaks]
      ⟨env.set2DDataConsensus MSExperiment.empty cm, FeatureMap.empty, cm, 0⟩
  else
    .loaded [.load r p.in_] ⟨MSExperiment.empty, FeatureMap.empty, cm, 0⟩

/-- Lines 288-321: raw input is handed to the external converter. -/
def readRaw (env : Env) (p : Params) (out_type : FileType) : Stage :=
  if out_type ≠ .MZML then
    .done ⟨[], .threw .IllegalArgument⟩
  else
    let call := rawProcessCall env p
    .done ⟨[.log .rawFileReaderNotice, .externalProcess call.1 call.2],
      .returned (env.runExternalProcess call.1 call.2)⟩

/-- Lines 334-349: feature input. -/
def readFeatures (env : Env) (p : Params) (in_type out_type : FileType) : Stage :=
  let fm := env.sortFeaturesByPosition (env.loadFeatures p.in_ in_type)
  if out_type ≠ .FEATUREXML ∧ out_type ≠ .CONSENSUSXML ∧ out_type ≠ .OMS then
    .loaded [.load (.loadFeatures in_type) p.in_, .log .warnFeaturesToPeaks]
      ⟨env.set2DDataFeatures MSExperiment.empty fm, fm, ConsensusMap.empty, 0⟩
  else
    .loaded [.load (.loadFeatures in_type) p.in_]
      ⟨MSExperiment.empty, fm, ConsensusMap.empty, 0⟩

/-- Lines 350-391: cachedMzML input, the shell and the dump are read and
merged. -/
def readCachedMzML (env : Env) (p : Params) : Stage :=
  let in_meta := extractCachedMetaFilename p.in_
  if in_meta = "" then
    .done ⟨extractCachedMetaLog p.in_, .returned .ILLEGAL_PARAMETERS⟩
  else
    let exp := env.loadMzML in_meta
    let tmp_exp := env.readMemdump p.in_
    let t := extractCachedMetaLog p.in_ ++ [.load .MzMLFile in_meta, .load .readMemdump p.in_]
    if exp.size ≠ tmp_exp.size then
      .done ⟨t ++ [.log (.pairedInputFilesDoNotMatch in_meta p.in_)],
        .returned .ILLEGAL_PARAMETERS⟩
    else
      match mergeCachedMzML exp tmp_exp with
      | none => .done ⟨t, .undefinedBehaviour⟩
      | some exp => .loaded t ⟨exp, FeatureMap.empty, ConsensusMap.empty, 0⟩

/-- Lines 405-419: the streaming sink for mzML output is created and
configured. -/
def consumerSetup (env : Env) (p : Params) : List Event :=
  [.sinkCreated .PlainMSDataWritingConsumer p.out,
   .setOption .consumer (.setWriteIndex (write_scan_index p))]
  ++ lossyOptions env p .consumer
  ++ [.sinkAddDataProcessing (env.getProcessingInfo .CONVERSION_MZML)]

/-- Lines 392-460: the low memory (streaming) branch. -/
def readLowMemory (env : Env) (p : Params) (in_type out_type : FileType) : Stage :=
  if p.change_im_format ≠ .NONE then
    .done ⟨[.log .imLowMemoryNotImplemented], .threw .NotImplemented⟩
  else if (in_type = .MZXML ∨ in_type = .MZML) ∧ out_type = .MZML then
    if in_type = .MZML then
      .done ⟨consumerSetup env p ++ [.transform .MZML p.in_ .PlainMSDataWritingConsumer],
        .returned .EXECUTION_OK⟩
    else if in_type = .MZXML then
      .done ⟨consumerSetup env p ++ [.transform .MZXML p.in_ .PlainMSDataWritingConsumer],
        .returned .EXECUTION_OK⟩
    else
      .loaded (consumerSetup env p)
        ⟨MSExperiment.empty, FeatureMap.empty, ConsensusMap.empty, 0⟩
  else if in_type = .MZML ∧ out_type = .CACHEDMZML then
    let out_meta := extractCachedMetaFilename p.out
    if out_meta = "" then
      .done ⟨extractCachedMetaLog p.out, .returned .ILLEGAL_PARAMETERS⟩
    else
      .done ⟨extractCachedMetaLog p.out ++
          [.sinkCreated .MSDataCachedConsumer p.out,
           .transform .MZML p.in_ .MSDataCachedConsumer,
           .store .CachedMzMLMetadata out_meta (.experiment (env.transformMeta p.in_))],
        .returned .EXECUTION_OK⟩
  else
    .done ⟨[], .threw .IllegalArgument⟩

/-- Lines 270-464 of `main_`: reading the input. The three containers start
default-constructed. -/
def readInput (env : Env) (p : Params) (in_type out_type : FileType) : Stage :=
  if in_type = .CONSENSUSXML then
    readConsensus env p out_type .ConsensusXMLFile (env.loadConsensusXML p.in_)
  else if in_type = .RAW then
    readRaw env p out_type
  else if in_type = .EDTA then
    readConsensus env p out_type .EDTAFile (env.loadEDTA p.in_)
  else if in_type = .FEATUREXML ∨ in_type = .TSV ∨ in_type = .PEPLIST ∨ in_type = .KROENIK then
    readFeatures env p in_type out_type
  else if in_type = .CACHEDMZML then
    readCachedMzML env p
  else if p.process_lowmemory then
    readLowMemory env p in_type out_type
  else
    .loaded [.load (.loadExperiment in_type) p.in_]
      ⟨env.loadExperiment p.in_ in_type, FeatureMap.empty, ConsensusMap.empty, 0⟩

/-- Lines 618-624: the loop over the peaks of one spectrum. The running
`feature` takes the peak's m/z and intensity and a new identifier, and a copy
is pushed onto the map. State: running feature, identifiers drawn, features. -/
def peakLoop (env : Env) (st : Feature × Nat × List Feature) (peak : Peak1D) :
    Feature × Nat × List Feature :=
  let feature := { st.1 with mz := peak.mz, intensity := peak.intensity,
                             uniqueId := (setUniqueId env st.1.uniqueId st.2.1).1 }
  (feature, (setUniqueId env st.1.uniqueId st.2.1).2, st.2.2 ++ [feature])

/-- Lines 615-625: the loop over the spectra; the running feature takes the
retention time of the spectrum before its peaks are visited. -/
def spectrumLoop (env : Env) (st : Feature × Nat × List Feature) (spec : MSSpectrum) :
    Feature × Nat × List Feature :=
  spec.peaks.foldl (peakLoop env) ({ st.1 with rt := spec.rt }, st.2)

/-- Lines 605-627: peaks to features. The map is cleared, a feature with the
three quality fields set to 1 is prepared, one copy per peak is appended, and
the ranges are updated. -/
def peaksToFeatures (env : Env) (exp : MSExperiment) (drawn : Nat) : FeatureMap × Nat :=
  let feature := { env.newFeature with quality0 := 1, quality1 := 1, overallQuality := 1 }
  let r := exp.spectra.foldl (spectrumLoop env) (feature, drawn, [])
  (updateRanges env { FeatureMap.empty with features := r.2.2 }, r.2.1)

/-- Lines 587-594 and 638-645: identifier post-processing of the feature map. -/
def uidPostprocess (env : Env) (p : Params) (fm : FeatureMap) (drawn : Nat) : FeatureMap × Nat :=
  if p.UID_postprocessing = "ensure" then
    applyMemberFunction (ensureUniqueId env) fm drawn
  else if p.UID_postprocessing = "reassign" then
    applyMemberFunction (setUniqueId env) fm drawn
  else (fm, drawn)

/-- Lines 498-526: the ion-mobility reshape of the mzML output branch; `none`
is the `IllegalArgument` exception. -/
def changeIMFormat (env : Env) (p : Params) (exp : MSExperiment) : Option MSExperiment :=
  if p.change_im_format ≠ .NONE then
    let itype := env.determineIMFormat exp
    if itype = .NONE then none
    else if p.change_im_format = itype ∧ itype = .MULTIPLE_SPECTRA then none
    else if p.change_im_format = itype ∧ itype = .CONCATENATED then none
    else if p.change_im_format = .MULTIPLE_SPECTRA ∧ itype = .CONCATENATED then
      some (env.splitByIonMobility exp)
    else if p.change_im_format = .CONCATENATED ∧ itype = .MULTIPLE_SPECTRA then
      some (env.collapseFramesToSingle exp)
    else some exp
  else some exp

/-- Lines 490-496: under `convert_to_chromatograms` every spectrum is set to
scan mode SRM. -/
def markSRM (p : Params) (exp : MSExperiment) : MSExperiment :=
  if p.convert_to_chromatograms then
    { exp with spectra := exp.spectra.map (fun s => { s with scanMode := .SRM }) }
  else exp

/-- Lines 656-659: every unassigned peptide identification gets map index 0. -/
def setMapIndexZero (cm : ConsensusMap) : ConsensusMap :=
  { cm with unassignedPeptideIdentifications :=
      cm.unassignedPeptideIdentifications.map (fun pepID => { pepID with mapIndex := some 0 }) }

/-- Lines 472-529: mzML output. -/
def writeMzML (env : Env) (p : Params) (exp : MSExperiment) : Run :=
  let exp := addDataProcessingExp exp (env.getProcessingInfo .CONVERSION_MZML)
  let t : List Event :=
    [.setOption .MzMLFile (.setWriteIndex (write_scan_index p)),
     .setOption .MzMLFile (.setForceTPPCompatability p.force_TPP_compatibility)]
    ++ lossyOptions env p .MzMLFile
  let exp := markSRM p exp
  match changeIMFormat env p exp with
  | none => ⟨t, .threw .IllegalArgument⟩
  | some exp =>
    let exp := env.convertSpectraToChromatograms exp true p.convert_to_chromatograms
    ⟨t ++ [.store .MzMLFile p.out (.experiment exp)], .returned .EXECUTION_OK⟩

/-- Lines 582-632: featureXML output. -/
def writeFeatureXML (env : Env) (p : Params) (in_type : FileType) (d : Data) : Run :=
  let r : List Event × FeatureMap :=
    if in_type = .FEATUREXML ∨ in_type = .TSV ∨ in_type = .PEPLIST ∨ in_type = .KROENIK then
      ([], (uidPostprocess env p d.fm d.idsDrawn).1)
    else if in_type = .CONSENSUSXML ∨ in_type = .EDTA then
      ([], env.convertConsensusToFeatures d.cm true d.fm)
    else if in_type = .OMS then
      ([.load .OMSFile p.in_], env.exportFeatureIDs (env.loadOMS p.in_))
    else
      ([.log .warnPeaksToFeatures], (peaksToFeatures env d.exp d.idsDrawn).1)
  let fm := addDataProcessingFM r.2 (env.getProcessingInfo .FORMAT_CONVERSION)
  ⟨r.1 ++ [.store .FeatureXMLFile p.out (.featureMap fm)], .returned .EXECUTION_OK⟩

/-- Lines 633-664: consensusXML output. -/
def writeConsensusXML (env : Env) (p : Params) (in_type : FileType) (d : Data) : Run :=
  let cm :=
    if in_type = .FEATUREXML ∨ in_type = .TSV ∨ in_type = .PEPLIST ∨ in_type = .KROENIK then
      env.convertFeaturesToConsensus 0 (uidPostprocess env p d.fm d.idsDrawn).1 d.cm
    else if in_type = .CONSENSUSXML ∨ in_type = .EDTA then
      d.cm
    else
      env.convertExperimentToConsensus 0 d.exp d.cm d.exp.size
  let cm := setMapIndexZero cm
  let cm := addDataProcessingCM cm (env.getProcessingInfo .FORMAT_CONVERSION)
  ⟨[.store .ConsensusXMLFile p.out (.consensusMap cm)], .returned .EXECUTION_OK⟩

/-- Lines 665-680: edta output. -/
def writeEDTA (p : Params) (d : Data) : Run :=
  if ¬ d.fm.features.isEmpty ∧ ¬ d.cm.features.isEmpty then
    ⟨[.log .cannotDecideOnContainer], .returned .INTERNAL_ERROR⟩
  else if ¬ d.fm.features.isEmpty then
    ⟨[.store .EDTAFile p.out (.featureMap d.fm)], .returned .EXECUTION_OK⟩
  else if ¬ d.cm.features.isEmpty then
    ⟨[.store .EDTAFile p.out (.consensusMap d.cm)], .returned .EXECUTION_OK⟩
  else
    ⟨[], .returned .EXECUTION_OK⟩

/-- Lines 681-691: cachedMzML output, the shell and the dump are written from
the same experiment. -/
def writeCachedMzML (p : Params) (exp : MSExperiment) : Run :=
  let out_meta := extractCachedMetaFilename p.out
  if out_meta = "" then
    ⟨extractCachedMetaLog p.out, .returned .ILLEGAL_PARAMETERS⟩
  else
    ⟨extractCachedMetaLog p.out ++
      [.store .CachedMzMLMetadata out_meta (.experiment exp),
       .store .CachedMzMLMemdump p.out (.experiment exp)], .returned .EXECUTION_OK⟩

/-- Lines 692-708: csv (ibspectra) output. -/
def writeCSV (p : Params) (in_type : FileType) (cm : ConsensusMap) : Run :=
  if in_type ≠ .CONSENSUSXML then
    ⟨[.log .onlyConsensusXMLToIbspectra], .returned .INCOMPATIBLE_INPUT_DATA⟩
  else
    ⟨[.store .IBSpectraFile p.out (.consensusMap cm)], .returned .EXECUTION_OK⟩

/-- Lines 714-723: oms output. -/
def writeOMS (env : Env) (p : Params) (in_type : FileType) (fm : FeatureMap) : Run :=
  if in_type ≠ .FEATUREXML then
    ⟨[.log .onlyFeatureXMLToOms], .returned .INCOMPATIBLE_INPUT_DATA⟩
  else
    ⟨[.store .OMSFile p.out (.featureMap (env.importFeatureIDs fm))], .returned .EXECUTION_OK⟩

/-- Lines 472-729: the branch of the output section chosen by the output
type. -/
def writeBranch (env : Env) (p : Params) (in_type out_type : FileType) (d : Data) : Run :=
  if out_type = .MZML then
    writeMzML env p d.exp
  else if out_type = .MZDATA then
    let exp := addDataProcessingExp d.exp (env.getProcessingInfo .CONVERSION_MZDATA)
    let exp := env.convertChromatogramsToSpectra exp
    ⟨[.store .MzDataFile p.out (.experiment exp)], .returned .EXECUTION_OK⟩
  else if out_type = .MZXML then
    let exp := addDataProcessingExp d.exp (env.getProcessingInfo .CONVERSION_MZXML)
    ⟨[.setOption .MzXMLFile (.setForceMQCompatability p.force_MaxQuant_compatibility),
      .setOption .MzXMLFile (.setWriteIndex (write_scan_index p)),
      .store .MzXMLFile p.out (.experiment exp)], .returned .EXECUTION_OK⟩
  else if out_type = .DTA2D then
    let exp := addDataProcessingExp d.exp (env.getProcessingInfo .FORMAT_CONVERSION)
    let exp := env.convertChromatogramsToSpectra exp
    if p.TIC_DTA2D then
      ⟨[.store .DTA2DFileTIC p.out (.experiment exp)], .returned .EXECUTION_OK⟩
    else
      ⟨[.store .DTA2DFile p.out (.experiment exp)], .returned .EXECUTION_OK⟩
  else if out_type = .MGF then
    let exp := addDataProcessingExp d.exp (env.getProcessingInfo .FORMAT_CONVERSION)
    ⟨[.store (.MascotGenericFile p.MGF_compact) p.out (.experiment exp)],
      .returned .EXECUTION_OK⟩
  else if out_type = .FEATUREXML then
    writeFeatureXML env p in_type d
  else if out_type = .CONSENSUSXML then
    writeConsensusXML env p in_type d
  else if out_type = .EDTA then
    writeEDTA p d
  else if out_type = .CACHEDMZML then
    writeCachedMzML p d.exp
  else if out_type = .CSV then
    writeCSV p in_type d.cm
  else if out_type = .SQMASS then
    ⟨[.store .SqMassFile p.out (.experiment d.exp)], .returned .EXECUTION_OK⟩
  else if out_type = .OMS then
    writeOMS env p in_type d.fm
  else
    ⟨[.log .unknownOutputFileType, .printUsage], .returned .ILLEGAL_PARAMETERS⟩

/-- Lines 466-732 of `main_`: writing the output. The trace holds the effects
of this section only. -/
def writeOutput (env : Env) (p : Params) (in_type out_type : FileType) (d : Data) : Run :=
  let r := writeBranch env p in_type out_type d
  ⟨.debug .writingOutputFile :: r.trace, r.outcome⟩

/-- Lines 237-249: the input file type, from the parameter or else from the
file. -/
def resolveInType (env : Env) (p : Params) : FileType :=
  if p.in_type = .UNKNOWN then env.getType p.in_ else p.in_type

/-- Line 253: the output file type. -/
def resolveOutType (env : Env) (p : Params) : FileType :=
  env.getConsistentOutputfileType p.out p.out_type

/-- Line 243: the debug line written when the input type is read off the
file. -/
def inputTypeDebug (env : Env) (p : Params) : List Event :=
  if p.in_type = .UNKNOWN then [.debug (.inputFileType (resolveInType env p))] else []

/-- Lines 237-274: the effects of `main_` before the input is read, when both
file types are known. -/
def preamble (env : Env) (p : Params) : List Event :=
  inputTypeDebug env p ++
    [.debug (.outputFileType (resolveOutType env p)), .debug .loadingInputFile]

/-- The method `TOPPFileConverter::main_` (FileConverter.cpp, lines 207-732). -/
def main_ (env : Env) (p : Params) : Run :=
  let in_type := resolveInType env p
  if in_type = .UNKNOWN then
    ⟨inputTypeDebug env p ++ [.log .couldNotDetermineInputType], .returned .PARSE_ERROR⟩
  else
    let out_type := resolveOutType env p
    if out_type = .UNKNOWN then
      ⟨inputTypeDebug env p ++ [.log .couldNotDetermineOutputType], .returned .PARSE_ERROR⟩
    else
      match readInput env p in_type out_type with
      | .done r => ⟨preamble env p ++ r.trace, r.outcome⟩
      | .loaded t d =>
        let r := writeOutput env p in_type out_type d
        ⟨preamble env p ++ t ++ r.trace, r.outcome⟩

/-! ## The cache pair as written (`CachedMzMLHandler`, not under src/) -/

/-- Modelled from the spec: `CachedMzMLHandler::writeMetadata` is not under
src/. The shell carries the full logical structure and header information
with every spectrum and chromatogram payload emptied. The value is the
experiment that loading the written shell gives back. -/
def writeMetadata (e : MSExperiment) : MSExperiment :=
  { e with
    spectra := e.spectra.map (fun s => { s with peaks := [] }),
    chromatograms := e.chromatograms.map (fun c => { c with peaks := [] }) }

/-- Modelled from the spec: `CachedMzMLHandler::writeMemdump` followed by
`readMemdump` is not under src/. The dump carries only the numeric payload, in
the same ordered sequence, with no header data. The value is the experiment
that reading the written dump gives back. -/
def writeMemdump (e : MSExperiment) : MSExperiment :=
  { spectra := e.spectra.map (fun s => ⟨0, .UNSET, 0, s.peaks⟩),
    chromatograms := e.chromatograms.map (fun c => ⟨0, c.peaks⟩),
    dataProcessing := [],
    info := 0 }

/-! ## Classification of the file types (section 4.2 of the specification) -/

/-- Inputs loaded into the consensus map (lines 276 and 322). -/
def isConsensusKind (t : FileType) : Bool :=
  t = .CONSENSUSXML || t = .EDTA

/-- Inputs loaded into the feature map (lines 334-337). -/
def isFeatureKind (t : FileType) : Bool :=
  t = .FEATUREXML || t = .TSV || t = .PEPLIST || t = .KROENIK

/-- Output formats that store the experiment. -/
def isExperimentFormat (t : FileType) : Bool :=
  t = .MZML || t = .MZXML || t = .MZDATA || t = .DTA2D || t = .MGF ||
  t = .CACHEDMZML || t = .SQMASS

/-- A store of an experiment by one of the writers. -/
def Event.isExperimentStore : Event → Bool
  | .store _ _ (.experiment _) => true
  | _ => false

/-! ## A concrete environment and concrete invocations -/

/-- Type names as the tools spell them on the command line. -/
def nameToType (s : String) : FileType :=
  if s = "mzML" then .MZML else if s = "mzXML" then .MZXML
  else if s = "mzData" then .MZDATA else if s = "dta2d" then .DTA2D
  else if s = "mgf" then .MGF else if s = "cachedMzML" then .CACHEDMZML
  else if s = "featureXML" then .FEATUREXML else if s = "consensusXML" then .CONSENSUSXML
  else if s = "edta" then .EDTA else if s = "csv" then .CSV
  else if s = "sqmass" then .SQMASS else if s = "oms" then .OMS
  else .UNKNOWN

/-- A spectrum with two peaks. -/
def sampleSpectrum : MSSpectrum := ⟨10, .UNSET, 7, [⟨100, 5⟩, ⟨200, 6⟩]⟩

/-- A chromatogram with one peak. -/
def sampleChromatogram : MSChromatogram := ⟨3, [⟨10, 50⟩]⟩

/-- An experiment with one spectrum and two chromatograms. -/
def sampleExperiment : MSExperiment :=
  ⟨[sampleSpectrum], [sampleChromatogram, ⟨4, [⟨11, 60⟩, ⟨12, 70⟩]⟩], [], 1⟩

/-- A consensus map with one entry. -/
def sampleConsensusMap : ConsensusMap := ⟨[⟨10, 100, 5, 42, 0⟩], 9, [], [], 0⟩

/-- A feature map with one entry. -/
def sampleFeatureMap : FeatureMap := ⟨[⟨10, 100, 5, 0, 0, 0, 43, 0⟩], 8, [], 0, 0⟩

/-- An environment in which every reader returns a fixed sample container, the
file type is never found from the file itself, the output type is the declared
one, and the converters leave the experiment unchanged. -/
def sampleEnv : Env where
  windowsPlatform := false
  defaultNumpressConfig := ⟨false, 0, .NONE, -1, 0⟩
  getType := fun _ => .UNKNOWN
  getConsistentOutputfileType := fun _ t => nameToType t
  getProcessingInfo := fun a => ⟨a, 0⟩
  loadConsensusXML := fun _ => sampleConsensusMap
  loadEDTA := fun _ => sampleConsensusMap
  loadFeatures := fun _ _ => sampleFeatureMap
  loadMzML := fun _ => writeMetadata sampleExperiment
  readMemdump := fun _ => writeMemdump sampleExperiment
  loadExperiment := fun _ _ => sampleExperiment
  loadOMS := fun _ => sampleFeatureMap
  transformMeta := fun _ => writeMetadata sampleExperiment
  sortConsensusByPosition := fun c => c
  sortFeaturesByPosition := fun f => f
  set2DDataConsensus := fun e c => { e with spectra := c.features.map (fun f => ⟨f.rt, .UNSET, 0, [⟨f.mz, f.intensity⟩]⟩) }
  set2DDataFeatures := fun e c => { e with spectra := c.features.map (fun f => ⟨f.rt, .UNSET, 0, [⟨f.mz, f.intensity⟩]⟩) }
  determineIMFormat := fun _ => .NONE
  splitByIonMobility := fun e => e
  collapseFramesToSingle := fun e => e
  convertSpectraToChromatograms := fun e _ _ => e
  convertChromatogramsToSpectra := fun e => e
  convertConsensusToFeatures := fun _ _ f => f
  convertFeaturesToConsensus := fun _ _ c => c
  convertExperimentToConsensus := fun _ _ c _ => c
  exportFeatureIDs := fun f => f
  importFeatureIDs := fun f => f
  featureRanges := fun l => l.length
  newFeature := ⟨0, 0, 0, 0, 0, 0, 0, 0⟩
  uniqueId := fun n => n + 1
  runExternalProcess := fun _ _ => .EXECUTION_OK

/-- An invocation with the given paths and declared types; every flag is off
and every option has its default. -/
def sampleParams (in_ : String) (in_type : FileType) (out out_type : String) : Params where
  in_ := in_
  in_type := in_type
  out := out
  out_type := out_type
  UID_postprocessing := "ensure"
  TIC_DTA2D := false
  MGF_compact := false
  force_MaxQuant_compatibility := false
  force_TPP_compatibility := false
  convert_to_chromatograms := false
  change_im_format := .NONE
  write_scan_index := "true"
  lossy_compression := false
  lossy_mass_accuracy := -1
  process_lowmemory := false
  NET_executable := ""
  ThermoRaw_executable := "ThermoRawFileParser.exe"
  no_peak_picking := false

/-- A shell with one spectrum and two chromatograms whose dump holds one
spectrum but only one chromatogram. -/
def truncatedDumpEnv : Env :=
  { sampleEnv with
    readMemdump := fun _ =>
      writeMemdump { sampleExperiment with chromatograms := [sampleChromatogram] } }

/-- A shell with one spectrum and two chromatograms whose dump holds one
spectrum and three chromatograms. -/
def extendedDumpEnv : Env :=
  { sampleEnv with
    readMemdump := fun _ =>
      writeMemdump { sampleExperiment with
        chromatograms := sampleExperiment.chromatograms ++ [sampleChromatogram] } }

/-- A shell with one spectrum whose dump holds two spectra. -/
def mismatchedDumpEnv : Env :=
  { sampleEnv with
    readMemdump := fun _ =>
      writeMemdump { sampleExperiment with spectra := [sampleSpectrum, sampleSpectrum] } }

/-- A feature map whose first entry has the invalid identifier 0 and whose
second entry has a valid one. -/
def mixedIdFeatureMap : FeatureMap :=
  ⟨[⟨10, 100, 5, 0, 0, 0, 0, 0⟩, ⟨20, 200, 6, 0, 0, 0, 43, 0⟩], 8, [], 0, 0⟩

/-- A consensus map whose only entry has the invalid identifier 0. -/
def invalidIdConsensusMap : ConsensusMap := ⟨[⟨10, 100, 5, 0, 0⟩], 9, [], [], 0⟩

/-- An environment whose readers return maps with invalid identifiers. -/
def invalidIdEnv : Env :=
  { sampleEnv with
    loadFeatures := fun _ _ => mixedIdFeatureMap
    loadConsensusXML := fun _ => invalidIdConsensusMap
    loadEDTA := fun _ => invalidIdConsensusMap }

/-! ## Peaks to features, as the specification words it (section 4.2) -/

/-- The feature synthesized for one peak: a default feature with the quality
in both dimensions and the overall quality set to 1, the retention time of the
spectrum, the m/z and intensity of the peak, and the given identifier. -/
def featureOfPeak (env : Env) (rt : Rat) (peak : Peak1D) (uid : Nat) : Feature :=
  { env.newFeature with
    quality0 := 1, quality1 := 1, overallQuality := 1,
    rt := rt, mz := peak.mz, intensity := peak.intensity, uniqueId := uid }

/-- The peaks of a list of spectra in spectrum order and, within a spectrum,
in peak order, each with the retention time of its spectrum. -/
def peakSequence (spectra : List MSSpectrum) : List (Rat × Peak1D) :=
  spectra.flatMap (fun s => s.peaks.map (fun pk => (s.rt, pk)))

/-- One feature per peak, in the order of `peakSequence`; the feature of the
peak at position `k` carries the identifier drawn at position `drawn + k`. -/
def featuresOfPeaks (env : Env) (spectra : List MSSpectrum) (drawn : Nat) : List Feature :=
  (List.enumFrom drawn (peakSequence spectra)).map
    (fun x => featureOfPeak env x.2.1 x.2.2 (env.uniqueId x.1))

/-- A running feature of the conversion loop: the quality fields are 1 and the
remaining data are those of a default feature. -/
def Feature.defaulted (env : Env) (f : Feature) : Prop :=
  f.quality0 = 1 ∧ f.quality1 = 1 ∧ f.overallQuality = 1 ∧ f.info = env.newFeature.info

/-! ## The ion-mobility checks of the mzML branch in detail -/

/-- The three messages with which the mzML branch rejects a requested
ion-mobility reshape (lines 504-515): no ion mobility data is present, the data
is already in the multiple-spectra format, the data is already in the
concatenated format. -/
inductive IMRejection where
  | noIonMobilityData | alreadyMultipleSpectra | alreadyConcatenated
  deriving DecidableEq, Repr

/-- Lines 498-516: the rejection thrown by the mzML branch, if any, in the
order in which the source tests for them. -/
def changeIMFormatError (env : Env) (p : Params) (exp : MSExperiment) : Option IMRejection :=
  if p.change_im_format ≠ .NONE then
    let itype := env.determineIMFormat exp
    if itype = .NONE then some .noIonMobilityData
    else if p.change_im_format = itype ∧ itype = .MULTIPLE_SPECTRA then
      some .alreadyMultipleSpectra
    else if p.change_im_format = itype ∧ itype = .CONCATENATED then
      some .alreadyConcatenated
    else none
  else none

/-- Lines 472-496: the experiment as it stands in the mzML branch when the
ion-mobility format is looked at, with the provenance entry added and the scan
modes set if requested. -/
def mzMLPrepared (env : Env) (p : Params) (exp : MSExperiment) : MSExperiment :=
  markSRM p (addDataProcessingExp exp (env.getProcessingInfo .CONVERSION_MZML))

/-- The option calls of the mzML branch before the store (lines 479-488). -/
def mzMLOptions (env : Env) (p : Params) : List Event :=
  [.setOption .MzMLFile (.setWriteIndex (write_scan_index p)),
   .setOption .MzMLFile (.setForceTPPCompatability p.force_TPP_compatibility)]
  ++ lossyOptions env p .MzMLFile

/-- An environment whose data is detected as concatenated ion-mobility frames;
splitting and collapsing leave their mark on the experiment. -/
def concatenatedEnv : Env :=
  { sampleEnv with
    determineIMFormat := fun _ => .CONCATENATED
    splitByIonMobility := fun e => { e with info := e.info + 100 }
    collapseFramesToSingle := fun e => { e with info := e.info + 200 } }

/-! ## Kinds of events in the streaming branch -/

/-- A reader filling a whole container in memory. -/
def Event.isLoad : Event → Bool
  | .load _ _ => true
  | _ => false

/-- The provenance entry being attached to the streaming sink. -/
def Event.isSinkProvenance : Event → Bool
  | .sinkAddDataProcessing _ => true
  | _ => false

/-- A change of the configuration of the streaming sink: an option call on the
consumer or the attachment of a provenance entry. -/
def Event.isSinkConfiguration : Event → Bool
  | .setOption .consumer _ => true
  | .sinkAddDataProcessing _ => true
  | _ => false

/-- Records flowing from the source into the sink. -/
def Event.isTransform : Event → Bool
  | .transform _ _ _ => true
  | _ => false

/-- The input types with a branch of their own in the input section, tested
before the streaming flag is looked at (lines 276-391). -/
def hasOwnInputBranch (t : FileType) : Bool :=
  isConsensusKind t || t = .RAW || isFeatureKind t || t = .CACHEDMZML

/-- Modelled from the spec: `FeatureMap::sortByPosition` is not under src/.
The entries are positionally sorted, by retention time and then by m/z;
nothing else of the map changes. -/
def sortByPosition (fm : FeatureMap) : FeatureMap :=
  { fm with
    features :=
      List.insertionSort (fun a b => a.rt < b.rt ∨ (a.rt = b.rt ∧ a.mz ≤ b.mz)) fm.features }

/-- A feature map that is not in positional order: the first entry has the
later retention time and a valid identifier, the second entry has the invalid
identifier 0. -/
def unsortedFeatureMap : FeatureMap :=
  ⟨[⟨20, 200, 6, 0, 0, 0, 43, 0⟩, ⟨10, 100, 5, 0, 0, 0, 0, 0⟩], 8, [], 0, 0⟩

/-- An environment whose feature reader returns the unsorted map and whose
positional sort of a feature map is the sort by retention time and m/z. -/
def sortingEnv : Env :=
  { sampleEnv with
    loadFeatures := fun _ _ => unsortedFeatureMap
    sortFeaturesByPosition := sortByPosition }

/-- A store by one of the writers to the given path. -/
def Event.isStoreAt (path : String) : Event → Bool
  | .store _ q _ => q == path
  | _ => false

/-- An environment whose feature reader returns a feature map without
entries. -/
def emptyFeatureMapEnv : Env :=
  { sampleEnv with loadFeatures := fun _ _ => FeatureMap.empty }

namespace MapRTTransformer

/-- A retention time transformation; its content is only handled by the
collaborators. -/
structure TransformationDescription where
  info : Nat
  deriving DecidableEq, Repr

/-- A protein identification of an idXML file; never inspected by the tool. -/
structure ProteinIdentification where
  info : Nat
  deriving DecidableEq, Repr

/-- Values of the command line parameters of MapRTTransformer, as `main_` reads
them: `model_type` is the value of "model:type", `model_params` the parameters
of that model (lines 153-155). -/
structure Params where
  in_ : String
  out : String
  trafo_in : String
  trafo_out : String
  model_type : String
  model_params : Nat
  invert : Bool
  store_original_rt : Bool
  deriving DecidableEq, Repr

/-- The external collaborators of MapRTTransformer (declared in headers that
are not under src/). -/
structure Env where
  /-- Collaborator `TransformationXMLFile::load` -/
  loadTrafo : String → TransformationDescription
  /-- Collaborator `TransformationDescription::fitModel` -/
  fitModel : TransformationDescription → String → Nat → TransformationDescription
  /-- Collaborator `TransformationDescription::invert` -/
  invert : TransformationDescription → TransformationDescription
  /-- Collaborator `FileHandler::getType` -/
  getType : String → FileType
  /-- Collaborator `MzMLFile::load` -/
  loadMzML : String → MSExperiment
  /-- Collaborator `FeatureXMLFile::load` -/
  loadFeatureXML : String → FeatureMap
  /-- Collaborator `ConsensusXMLFile::load` -/
  loadConsensusXML : String → ConsensusMap
  /-- Collaborator `IdXMLFile::load` -/
  loadIdXML : String → List ProteinIdentification × List PeptideIdentification
  /-- Collaborator `MapAlignmentTransformer::transformRetentionTimes` on a peak map -/
  transformExperiment : MSExperiment → TransformationDescription → Bool → MSExperiment
  /-- Collaborator `MapAlignmentTransformer::transformRetentionTimes` on a feature map -/
  transformFeatures : FeatureMap → TransformationDescription → Bool → FeatureMap
  /-- Collaborator `MapAlignmentTransformer::transformRetentionTimes` on a consensus map -/
  transformConsensus : ConsensusMap → TransformationDescription → Bool → ConsensusMap
  /-- Collaborator `MapAlignmentTransformer::transformRetentionTimes` on peptide identifications -/
  transformPeptides : List PeptideIdentification → TransformationDescription → Bool →
    List PeptideIdentification
  /-- Collaborator `TOPPBase::getProcessingInfo_` -/
  getProcessingInfo : ProcessingAction → DataProcessing

/-- The two error lines of the parameter check (lines 165 and 170). -/
inductive LogLine where
  | outputRequired
  | inputOutputTogether
  deriving DecidableEq, Repr

/-- The file classes whose `load` and `store` the tool calls. -/
inductive FileFormat where
  | TransformationXMLFile | MzMLFile | FeatureXMLFile | ConsensusXMLFile | IdXMLFile
  deriving DecidableEq, Repr

/-- What a `store` is handed. -/
inductive Payload where
  | transformation (t : TransformationDescription)
  | experiment (e : MSExperiment)
  | featureMap (f : FeatureMap)
  | consensusMap (c : ConsensusMap)
  | identifications (proteins : List ProteinIdentification)
      (peptides : List PeptideIdentification)
  deriving DecidableEq, Repr

/-- Observable effects of MapRTTransformer, in the order they happen. -/
inductive Event where
  | log (l : LogLine)
  | load (f : FileFormat) (path : String)
  | store (f : FileFormat) (path : String) (c : Payload)
  deriving DecidableEq, Repr

/-- A finished invocation: the effects and the exit code. -/
structure Run where
  trace : List Event
  exitCode : ExitCodes
  deriving DecidableEq, Repr

/-- A file being read or written. -/
def Event.isFileAccess : Event → Bool
  | .load _ _ => true
  | .store _ _ _ => true
  | .log _ => false

/-- A store to the given path. -/
def Event.isStoreTo (path : String) : Event → Bool
  | .store _ q _ => q == path
  | _ => false

/-- The template `applyTransformation_` (lines 131-142): the map is loaded from
`in`, its retention times are transformed, the provenance entry is added, and
the map is stored to `out`. -/
def applyTransformation_ {α : Type} (env : Env) (p : Params) (in_ out : String)
    (trafo : TransformationDescription) (file : FileFormat) (load : String → α)
    (transform : α → TransformationDescription → Bool → α)
    (addDataProcessing : α → DataProcessing → α) (wrap : α → Payload) : List Event :=
  let map := load in_
  let map := transform map trafo p.store_original_rt
  let map := addDataProcessing map (env.getProcessingInfo .ALIGNMENT)
  [.load file in_, .store file out (wrap map)]

/-- Lines 177-187: the transformation is loaded, refitted unless the model type
is "none", and inverted on request. -/
def prepareTrafo (env : Env) (p : Params) : TransformationDescription :=
  let trafo := env.loadTrafo p.trafo_in
  let trafo := if p.model_type ≠ "none" then env.fitModel trafo p.model_type p.model_params
    else trafo
  if p.invert then env.invert trafo else trafo

/-- Lines 194-225: the input file is transformed according to its detected
type; for a type other than the four handled ones nothing is done. -/
def transformInput (env : Env) (p : Params) (trafo : TransformationDescription) : List Event :=
  let in_type := env.getType p.in_
  if in_type = .MZML then
    applyTransformation_ env p p.in_ p.out trafo .MzMLFile env.loadMzML
      env.transformExperiment addDataProcessingExp .experiment
  else if in_type = .FEATUREXML then
    applyTransformation_ env p p.in_ p.out trafo .FeatureXMLFile env.loadFeatureXML
      env.transformFeatures addDataProcessingFM .featureMap
  else if in_type = .CONSENSUSXML then
    applyTransformation_ env p p.in_ p.out trafo .ConsensusXMLFile env.loadConsensusXML
      env.transformConsensus addDataProcessingCM .consensusMap
  else if in_type = .IDXML then
    let loaded := env.loadIdXML p.in_
    let peptides := env.transformPeptides loaded.2 trafo p.store_original_rt
    [.load .IdXMLFile p.in_, .store .IdXMLFile p.out (.identifications loaded.1 peptides)]
  else []

/-- The method `TOPPMapRTTransformer::main_` (MapRTTransformer.cpp, lines
144-228). -/
def main_ (env : Env) (p : Params) : Run :=
  if p.out = "" ∧ p.trafo_out = "" then
    ⟨[.log .outputRequired], .ILLEGAL_PARAMETERS⟩
  else if decide (p.in_ = "") ≠ decide (p.out = "") then
    ⟨[.log .inputOutputTogether], .ILLEGAL_PARAMETERS⟩
  else
    let trafo := prepareTrafo env p
    let t1 : List Event := [.load .TransformationXMLFile p.trafo_in]
    let t2 : List Event :=
      if p.trafo_out ≠ "" then [.store .TransformationXMLFile p.trafo_out (.transformation trafo)]
      else []
    let t3 : List Event := if p.in_ ≠ "" then transformInput env p trafo else []
    ⟨t1 ++ t2 ++ t3, .EXECUTION_OK⟩

/-- A concrete environment for MapRTTransformer: files are typed by their
name, readers return fixed sample containers, the transformations leave a mark
in the header data. -/
def sampleEnv : Env where
  loadTrafo := fun _ => ⟨1⟩
  fitModel := fun t _ _ => ⟨t.info + 10⟩
  invert := fun t => ⟨t.info + 100⟩
  getType := fun s => if s = "in.mzML" then .MZML else if s = "in.featureXML" then .FEATUREXML
    else if s = "in.consensusXML" then .CONSENSUSXML else if s = "in.idXML" then .IDXML
    else .UNKNOWN
  loadMzML := fun _ => sampleExperiment
  loadFeatureXML := fun _ => sampleFeatureMap
  loadConsensusXML := fun _ => sampleConsensusMap
  loadIdXML := fun _ => ([⟨5⟩], [⟨none, 6⟩])
  transformExperiment := fun e _ _ => { e with info := e.info + 1 }
  transformFeatures := fun f _ _ => { f with info := f.info + 1 }
  transformConsensus := fun c _ _ => { c with info := c.info + 1 }
  transformPeptides := fun l _ _ => l
  getProcessingInfo := fun a => ⟨a, 0⟩

/-- An invocation of MapRTTransformer with the given paths, model type "none"
and both flags off. -/
def sampleParams (in_ out trafo_in trafo_out : String) : Params :=
  ⟨in_, out, trafo_in, trafo_out, "none", 0, false, false⟩

end MapRTTransformer

end OpenMS

/-! ## Theorems -/

namespace OpenMS

/-! ### Splitting at the cache suffix -/

theorem cachedSuffix_eq :
    cachedSuffix = ['.', 'c', 'a', 'c', 'h', 'e', 'd', 'M', 'z', 'M', 'L'] := rfl

theorem cachedSuffix_length : cachedSuffix.length = 11 := rfl

theorem cachedSuffix_isPrefixOf_append (b : List Char) :
    cachedSuffix.isPrefixOf (cachedSuffix ++ b) = true := by
  rw [List.isPrefixOf_iff_prefix]; exact List.prefix_append _ _

/-- The suffix cannot overlap a shifted copy of itself: its first character
occurs nowhere else in it. -/
theorem noOcc_after_match (l : List Char) (h : cachedSuffix.isPrefixOf l = true)
    (k : Nat) (hk0 : 0 < k) (hk : k < 11) : ¬ cachedSuffix.isPrefixOf (l.drop k) = true := by
  rw [List.isPrefixOf_iff_prefix] at h
  obtain ⟨t, rfl⟩ := h
  rw [cachedSuffix_eq]
  interval_cases k <;> simp [List.isPrefixOf]

theorem occurrences_cons_pos (c : Char) (cs : List Char)
    (h : cachedSuffix.isPrefixOf (c :: cs) = true) :
    occurrences cachedSuffix (c :: cs) = occurrences cachedSuffix cs + 1 := by
  rw [occurrences, if_pos h, Nat.add_comm]

theorem occurrences_cons_neg (c : Char) (cs : List Char)
    (h : ¬ cachedSuffix.isPrefixOf (c :: cs) = true) :
    occurrences cachedSuffix (c :: cs) = occurrences cachedSuffix cs := by
  rw [occurrences, if_neg h, Nat.zero_add]

theorem splitGo_cons_pos (c : Char) (cs acc : List Char)
    (h : cachedSuffix.isPrefixOf (c :: cs) = true) :
    splitGo cachedSuffix (c :: cs) 0 acc = acc.reverse :: splitGo cachedSuffix cs 10 [] := by
  rw [splitGo, if_pos h]; rfl

theorem splitGo_cons_neg (c : Char) (cs acc : List Char)
    (h : ¬ cachedSuffix.isPrefixOf (c :: cs) = true) :
    splitGo cachedSuffix (c :: cs) 0 acc = splitGo cachedSuffix cs 0 (c :: acc) := by
  rw [splitGo, if_neg h]

theorem splitGo_length (l : List Char) : ∀ (skip : Nat) (acc : List Char),
    (∀ k, k < skip → ¬ cachedSuffix.isPrefixOf (l.drop k) = true) →
    (splitGo cachedSuffix l skip acc).length = occurrences cachedSuffix l + 1 := by
  induction l with
  | nil => intro skip acc _; simp [splitGo, occurrences]
  | cons c cs ih =>
    intro skip acc h
    cases skip with
    | succ n =>
      have h0 := h 0 (Nat.succ_pos n)
      rw [List.drop_zero] at h0
      rw [occurrences_cons_neg c cs h0, splitGo]
      exact ih n acc (fun k hk => by simpa using h (k + 1) (Nat.succ_lt_succ hk))
    | zero =>
      by_cases hp : cachedSuffix.isPrefixOf (c :: cs) = true
      · rw [splitGo_cons_pos c cs acc hp, occurrences_cons_pos c cs hp, List.length_cons]
        rw [ih 10 [] (fun k hk => by
          have := noOcc_after_match (c :: cs) hp (k + 1) (Nat.succ_pos k) (by omega)
          simpa using this)]
      · rw [splitGo_cons_neg c cs acc hp, occurrences_cons_neg c cs hp]
        exact ih 0 (c :: acc) (fun k hk => absurd hk (Nat.not_lt_zero k))

theorem split_length (l : List Char) :
    (split cachedSuffix l).length = occurrences cachedSuffix l + 1 :=
  splitGo_length l 0 [] (fun k hk => absurd hk (Nat.not_lt_zero k))

theorem occurrences_eq_zero_cons (c : Char) (cs : List Char)
    (h : occurrences cachedSuffix (c :: cs) = 0) :
    ¬ cachedSuffix.isPrefixOf (c :: cs) = true ∧ occurrences cachedSuffix cs = 0 := by
  by_cases hp : cachedSuffix.isPrefixOf (c :: cs) = true
  · rw [occurrences_cons_pos c cs hp] at h; omega
  · rw [occurrences_cons_neg c cs hp] at h; exact ⟨hp, h⟩

theorem splitGo_noOcc (l : List Char) : ∀ (skip : Nat) (acc : List Char),
    occurrences cachedSuffix l = 0 →
    splitGo cachedSuffix l skip acc = [acc.reverse ++ l.drop skip] := by
  induction l with
  | nil => intro skip acc _; simp [splitGo]
  | cons c cs ih =>
    intro skip acc h
    obtain ⟨hp, h0⟩ := occurrences_eq_zero_cons c cs h
    cases skip with
    | succ n => simp [splitGo, ih n acc h0]
    | zero => rw [splitGo_cons_neg c cs acc hp, ih 0 (c :: acc) h0]; simp

theorem occurrences_append_suffix_pos (a b : List Char) :
    0 < occurrences cachedSuffix (a ++ cachedSuffix ++ b) := by
  induction a with
  | nil =>
    have hp := cachedSuffix_isPrefixOf_append b
    rw [List.nil_append]
    generalize hl : cachedSuffix ++ b = l at hp
    cases l with
    | nil => rw [cachedSuffix_eq] at hl; simp at hl
    | cons c cs => rw [occurrences_cons_pos c cs hp]; omega
  | cons x a ih =>
    rw [List.cons_append, List.cons_append, occurrences]
    omega

/-- With exactly one occurrence, the text is cut into the part before and the
part after that occurrence. -/
theorem splitGo_one (a b : List Char) : ∀ (acc : List Char),
    occurrences cachedSuffix (a ++ cachedSuffix ++ b) = 1 →
    splitGo cachedSuffix (a ++ cachedSuffix ++ b) 0 acc = [acc.reverse ++ a, b] := by
  induction a with
  | nil =>
    intro acc h
    have hp := cachedSuffix_isPrefixOf_append b
    have hd : (cachedSuffix ++ b).drop 11 = b := by
      rw [← cachedSuffix_length, List.drop_left]
    rw [List.nil_append] at h ⊢
    generalize hl : cachedSuffix ++ b = l at hp h hd
    cases l with
    | nil => rw [cachedSuffix_eq] at hl; simp at hl
    | cons c cs =>
      rw [occurrences_cons_pos c cs hp] at h
      rw [splitGo_cons_pos c cs acc hp, splitGo_noOcc cs 10 [] (by omega)]
      simp only [List.drop_succ_cons] at hd
      simp [hd]
  | cons x a ih =>
    intro acc h
    have hpos := occurrences_append_suffix_pos a b
    rw [List.cons_append, List.cons_append] at h ⊢
    have hp : ¬ cachedSuffix.isPrefixOf (x :: (a ++ cachedSuffix ++ b)) = true := by
      intro hc; rw [occurrences_cons_pos _ _ hc] at h; omega
    rw [occurrences_cons_neg _ _ hp] at h
    rw [splitGo_cons_neg _ _ _ hp, ih (x :: acc) h]
    simp

theorem occurrences_pos_decompose (l : List Char) (h : 0 < occurrences cachedSuffix l) :
    ∃ a b, l = a ++ cachedSuffix ++ b := by
  induction l with
  | nil => simp [occurrences] at h
  | cons c cs ih =>
    by_cases hp : cachedSuffix.isPrefixOf (c :: cs) = true
    · rw [List.isPrefixOf_iff_prefix] at hp
      obtain ⟨t, ht⟩ := hp
      exact ⟨[], t, by simp [ht]⟩
    · rw [occurrences_cons_neg c cs hp] at h
      obtain ⟨a, b, hab⟩ := ih h
      exact ⟨c :: a, b, by simp [hab]⟩

theorem extractChars_of_one (a b : List Char)
    (h : occurrences cachedSuffix (a ++ cachedSuffix ++ b) = 1) :
    extractCachedMetaChars (a ++ cachedSuffix ++ b) = a ++ metaSuffix := by
  unfold extractCachedMetaChars split
  rw [splitGo_one a b [] h]
  simp

theorem extractChars_of_ne_one (l : List Char) (h : occurrences cachedSuffix l ≠ 1) :
    extractCachedMetaChars l = [] := by
  have hl := split_length l
  unfold extractCachedMetaChars
  split
  · next stem rest heq => rw [heq] at hl; simp at hl; omega
  · rfl

/-- No occurrence straddles the end of a stem and an appended suffix. -/
theorem occurrences_stem (s : List Char) (h : occurrences cachedSuffix s = 0) :
    occurrences cachedSuffix (s ++ cachedSuffix) = 1 := by
  induction s with
  | nil => decide
  | cons x s ih =>
    obtain ⟨hp, h0⟩ := occurrences_eq_zero_cons x s h
    have hq : ¬ cachedSuffix.isPrefixOf (x :: (s ++ cachedSuffix)) = true := by
      intro hc
      by_cases hlen : 11 ≤ (x :: s).length
      · apply hp
        rw [List.isPrefixOf_iff_prefix] at hc ⊢
        exact List.prefix_of_prefix_length_le hc (List.prefix_append (x :: s) cachedSuffix)
          (by rw [cachedSuffix_length]; exact hlen)
      · have hk := noOcc_after_match _ hc (x :: s).length (by simp) (by omega)
        rw [← List.cons_append, List.drop_left] at hk
        exact hk (by decide)
    rw [List.cons_append, occurrences_cons_neg _ _ hq]
    exact ih h0

theorem string_mk_ne_empty (l : List Char) (h : l ≠ []) : (⟨l⟩ : String) ≠ "" := by
  intro hc
  exact h (congrArg String.data hc)

theorem metaSuffix_append_ne_nil (a : List Char) : a ++ metaSuffix ≠ [] := by
  intro hc
  have := congrArg List.length hc
  simp [metaSuffix] at this

/-- C5: `extractCachedMetaFilename p` is the empty string if and only if
".cachedMzML" does not occur exactly once in `p`; with exactly one occurrence
the path has the form `a ++ ".cachedMzML" ++ b`, the result is `a ++ ".mzML"`
for the text `a` before the occurrence, and the result is not empty. -/
theorem extractCachedMetaFilename_empty_iff (p : String) :
    (extractCachedMetaFilename p = "" ↔ occurrences cachedSuffix p.data ≠ 1) ∧
    (occurrences cachedSuffix p.data = 1 →
      (∃ a b, p.data = a ++ cachedSuffix ++ b) ∧
      (∀ a b, p.data = a ++ cachedSuffix ++ b →
        extractCachedMetaFilename p = ⟨a ++ metaSuffix⟩) ∧
      extractCachedMetaFilename p ≠ "") := by
  have key : occurrences cachedSuffix p.data = 1 →
      (∃ a b, p.data = a ++ cachedSuffix ++ b) ∧
      (∀ a b, p.data = a ++ cachedSuffix ++ b →
        extractCachedMetaFilename p = ⟨a ++ metaSuffix⟩) ∧
      extractCachedMetaFilename p ≠ "" := by
    intro h1
    have hex := occurrences_pos_decompose p.data (by omega)
    have hall : ∀ a b, p.data = a ++ cachedSuffix ++ b →
        extractCachedMetaFilename p = ⟨a ++ metaSuffix⟩ := by
      intro a b hab
      unfold extractCachedMetaFilename
      rw [hab] at h1
      rw [hab, extractChars_of_one a b h1]
    refine ⟨hex, hall, ?_⟩
    obtain ⟨a, b, hab⟩ := hex
    rw [hall a b hab]
    exact string_mk_ne_empty _ (metaSuffix_append_ne_nil a)
  refine ⟨⟨?_, ?_⟩, key⟩
  · intro he h1
    exact (key h1).2.2 he
  · intro hne
    unfold extractCachedMetaFilename
    rw [extractChars_of_ne_one p.data hne]

theorem extractCachedMetaFilename_empty_iff_witness :
    occurrences cachedSuffix "run.cachedMzML".data = 1 ∧
    extractCachedMetaFilename "run.cachedMzML" = "run.mzML" :=
  ⟨by decide,
   ((extractCachedMetaFilename_empty_iff "run.cachedMzML").2 (by decide)).2.1
     "run".data [] (by decide)⟩

/-- C6: for a stem `s` without ".cachedMzML", the dump path
`s ++ ".cachedMzML"` contains the suffix exactly once,
`extractCachedMetaFilename` maps it to the shell path `s ++ ".mzML"`, and two
such stems with the same shell path are equal. -/
theorem cache_pair_of_stem (s : String) (h : occurrences cachedSuffix s.data = 0) :
    occurrences cachedSuffix (s ++ ".cachedMzML").data = 1 ∧
    extractCachedMetaFilename (s ++ ".cachedMzML") = s ++ ".mzML" ∧
    ∀ s2 : String, occurrences cachedSuffix s2.data = 0 →
      extractCachedMetaFilename (s ++ ".cachedMzML") =
        extractCachedMetaFilename (s2 ++ ".cachedMzML") → s = s2 := by
  have hx : ∀ t : String, occurrences cachedSuffix t.data = 0 →
      occurrences cachedSuffix (t ++ ".cachedMzML").data = 1 ∧
      extractCachedMetaFilename (t ++ ".cachedMzML") = t ++ ".mzML" := by
    intro t ht
    have h1 : occurrences cachedSuffix (t.data ++ cachedSuffix ++ []) = 1 := by
      rw [List.append_nil]; exact occurrences_stem t.data ht
    have hd : (t ++ ".cachedMzML").data = t.data ++ cachedSuffix ++ [] := by
      rw [String.data_append, List.append_nil]; rfl
    refine ⟨by rw [hd]; exact h1, ?_⟩
    unfold extractCachedMetaFilename
    rw [hd, extractChars_of_one t.data [] h1]
    apply String.ext
    rw [String.data_append]; rfl
  refine ⟨(hx s h).1, (hx s h).2, ?_⟩
  intro s2 h2 heq
  rw [(hx s h).2, (hx s2 h2).2] at heq
  have := congrArg String.data heq
  rw [String.data_append, String.data_append] at this
  exact String.ext (List.append_cancel_right this)

theorem cache_pair_of_stem_witness :
    occurrences cachedSuffix "run".data = 0 ∧
    occurrences cachedSuffix ("run" ++ ".cachedMzML" : String).data = 1 ∧
    extractCachedMetaFilename ("run" ++ ".cachedMzML") = "run" ++ ".mzML" :=
  ⟨by decide, (cache_pair_of_stem "run" (by decide)).1, (cache_pair_of_stem "run" (by decide)).2.1⟩

/-- C7: on the path "run.cachedMzML.bak", where ".cachedMzML" is followed by
further characters, `extractCachedMetaFilename` does not fail: it returns
"run.mzML". -/
theorem extractCachedMetaFilename_trailing_text :
    extractCachedMetaFilename "run.cachedMzML.bak" = "run.mzML" ∧
    extractCachedMetaFilename "run.cachedMzML.bak" ≠ "" := by
  decide

/-! ### The cachedMzML merge -/

theorem foldl_spectrum_push_back (ps : List Peak1D) : ∀ s : MSSpectrum,
    ps.foldl MSSpectrum.push_back s = { s with peaks := s.peaks ++ ps } := by
  induction ps with
  | nil => intro s; simp
  | cons q qs ih => intro s; simp [List.foldl, ih, MSSpectrum.push_back]

theorem foldl_chromatogram_push_back (ps : List ChromatogramPeak) : ∀ c : MSChromatogram,
    ps.foldl MSChromatogram.push_back c = { c with peaks := c.peaks ++ ps } := by
  induction ps with
  | nil => intro c; simp
  | cons q qs ih => intro c; simp [List.foldl, ih, MSChromatogram.push_back]

/-- Past the end of the target the loop succeeds exactly when no remaining
source record has a payload. -/
theorem appendLoop_beyond {R D P : Type} (push : R → P → R) (payload : D → List P) :
    ∀ (ds : List D) (i : Nat) (tgt : List R), tgt.length ≤ i →
    appendLoop push payload i ds tgt =
      if ds.all (fun d => (payload d).isEmpty) then some tgt else none := by
  intro ds
  induction ds with
  | nil => intro i tgt _; simp [appendLoop]
  | cons d ds ih =>
    intro i tgt hi
    have hget : tgt[i]? = none := List.getElem?_eq_none hi
    by_cases hd : (payload d).isEmpty = true
    · simp only [appendLoop, hd, if_true, List.all_cons, Bool.true_and]
      exact ih (i + 1) tgt (by omega)
    · simp [appendLoop, hd, hget]

/-- Closed form of the merge loop: started at the end of `pre`, it succeeds
exactly when no source record beyond the rest of the target has a payload;
then the records paired with a source record receive its payload and the
others stay. -/
theorem appendLoop_eq {R D P : Type} (push : R → P → R) (payload : D → List P) :
    ∀ (ds : List D) (pre mid : List R),
    appendLoop push payload pre.length ds (pre ++ mid) =
      if (ds.drop mid.length).all (fun d => (payload d).isEmpty) then
        some (pre ++ List.zipWith (fun r d => (payload d).foldl push r) mid ds
          ++ mid.drop ds.length)
      else none := by
  intro ds
  induction ds with
  | nil => intro pre mid; simp [appendLoop]
  | cons d ds ih =>
    intro pre mid
    cases mid with
    | nil =>
      have h := appendLoop_beyond push payload (d :: ds) pre.length (pre ++ []) (by simp)
      rw [h]
      simp
    | cons r mid =>
      have hget : (pre ++ r :: mid)[pre.length]? = some r := by
        rw [List.getElem?_append_right (Nat.le_refl _)]; simp
      have hset : (pre ++ r :: mid).set pre.length ((payload d).foldl push r) =
          (pre ++ [(payload d).foldl push r]) ++ mid := by simp
      have hlen : pre.length + 1 = (pre ++ [(payload d).foldl push r]).length := by simp
      by_cases hd : (payload d).isEmpty = true
      · have hnil : payload d = [] := List.isEmpty_iff.mp hd
        have hl : pre.length + 1 = (pre ++ [r]).length := by simp
        have hp : pre ++ r :: mid = (pre ++ [r]) ++ mid := by simp
        simp only [appendLoop, hd, if_true]
        rw [hl, hp, ih]
        simp [hnil]
      · simp only [appendLoop, hd, hget, hset]
        rw [hlen, ih]
        simp

theorem appendLoop_zero {R D P : Type} (push : R → P → R) (payload : D → List P)
    (ds : List D) (tgt : List R) (h : ds.length = tgt.length) :
    appendLoop push payload 0 ds tgt =
      some (List.zipWith (fun r d => (payload d).foldl push r) tgt ds) := by
  have := appendLoop_eq push payload ds [] tgt
  simp only [List.length_nil, List.nil_append] at this
  rw [this, ← h, List.drop_length, h, List.drop_length, List.append_nil]
  simp

theorem mergeCachedMzML_eq (exp tmp_exp : MSExperiment)
    (hs : exp.spectra.length = tmp_exp.spectra.length)
    (hc : exp.chromatograms.length = tmp_exp.chromatograms.length) :
    mergeCachedMzML exp tmp_exp = some
      { exp with
        spectra := List.zipWith (fun s d => { s with peaks := s.peaks ++ d.peaks })
          exp.spectra tmp_exp.spectra,
        chromatograms := List.zipWith (fun c d => { c with peaks := c.peaks ++ d.peaks })
          exp.chromatograms tmp_exp.chromatograms } := by
  unfold mergeCachedMzML
  rw [appendLoop_zero _ _ _ _ hs.symm, appendLoop_zero _ _ _ _ hc.symm]
  simp only [foldl_spectrum_push_back, foldl_chromatogram_push_back]

theorem mergeCachedMzML_split (e : MSExperiment) :
    mergeCachedMzML (writeMetadata e) (writeMemdump e) = some e := by
  rw [mergeCachedMzML_eq _ _ (by simp [writeMetadata, writeMemdump])
    (by simp [writeMetadata, writeMemdump])]
  have h1 : ∀ l : List MSSpectrum,
      List.zipWith (fun (s d : MSSpectrum) => { s with peaks := s.peaks ++ d.peaks })
        (l.map (fun s => { s with peaks := [] }))
        (l.map (fun s => (⟨0, .UNSET, 0, s.peaks⟩ : MSSpectrum))) = l := by
    intro l; induction l with
    | nil => rfl
    | cons x xs ih => simp only [List.map_cons, List.zipWith_cons_cons, ih]; simp
  have h2 : ∀ l : List MSChromatogram,
      List.zipWith (fun (c d : MSChromatogram) => { c with peaks := c.peaks ++ d.peaks })
        (l.map (fun c => { c with peaks := [] }))
        (l.map (fun c => (⟨0, c.peaks⟩ : MSChromatogram))) = l := by
    intro l; induction l with
    | nil => rfl
    | cons x xs ih => simp only [List.map_cons, List.zipWith_cons_cons, ih]; simp
  simp only [writeMetadata, writeMemdump, h1, h2]

/-! ### Facts about `extractCachedMetaFilename` used by `main_` -/

theorem extractChars_eq_nil_iff (l : List Char) :
    extractCachedMetaChars l = [] ↔ (split cachedSuffix l).length ≠ 2 := by
  unfold extractCachedMetaChars
  split
  · next stem rest heq =>
      rw [heq]
      constructor
      · intro h; exact absurd h (metaSuffix_append_ne_nil stem)
      · intro h; simp at h
  · next hne =>
      constructor
      · intro _ hlen
        match hs : split cachedSuffix l, hlen with
        | [a, b], _ => exact hne a b hs
      · intro _; rfl

theorem extractCachedMetaLog_eq (s : String) :
    extractCachedMetaLog s =
      if extractCachedMetaFilename s = "" then [.log (.cannotDeduceBasePath s)] else [] := by
  have h : extractCachedMetaFilename s = "" ↔ (split cachedSuffix s.data).length ≠ 2 := by
    rw [← extractChars_eq_nil_iff]
    unfold extractCachedMetaFilename
    constructor
    · intro h; exact congrArg String.data h
    · intro h; rw [h]
  unfold extractCachedMetaLog
  by_cases hc : extractCachedMetaFilename s = ""
  · rw [if_pos hc, if_pos (h.mp hc)]
  · rw [if_neg hc, if_neg (fun hh => hc (h.mpr hh))]

/-! ### Structure of `main_` -/

theorem main_of_types (env : Env) (p : Params)
    (hi : resolveInType env p ≠ .UNKNOWN) (ho : resolveOutType env p ≠ .UNKNOWN) :
    main_ env p =
      match readInput env p (resolveInType env p) (resolveOutType env p) with
      | .done r => ⟨preamble env p ++ r.trace, r.outcome⟩
      | .loaded t d =>
        ⟨preamble env p ++ t ++
            (writeOutput env p (resolveInType env p) (resolveOutType env p) d).trace,
          (writeOutput env p (resolveInType env p) (resolveOutType env p) d).outcome⟩ := by
  unfold main_
  simp only [hi, ho, if_false]

theorem main_of_done (env : Env) (p : Params) (r : Run)
    (hi : resolveInType env p ≠ .UNKNOWN) (ho : resolveOutType env p ≠ .UNKNOWN)
    (h : readInput env p (resolveInType env p) (resolveOutType env p) = .done r) :
    main_ env p = ⟨preamble env p ++ r.trace, r.outcome⟩ := by
  rw [main_of_types env p hi ho, h]

theorem main_of_loaded (env : Env) (p : Params) (t : List Event) (d : Data)
    (hi : resolveInType env p ≠ .UNKNOWN) (ho : resolveOutType env p ≠ .UNKNOWN)
    (h : readInput env p (resolveInType env p) (resolveOutType env p) = .loaded t d) :
    main_ env p =
      ⟨preamble env p ++ t ++
          (writeOutput env p (resolveInType env p) (resolveOutType env p) d).trace,
        (writeOutput env p (resolveInType env p) (resolveOutType env p) d).outcome⟩ := by
  rw [main_of_types env p hi ho, h]

theorem inputTypeDebug_noWrite (env : Env) (p : Params) :
    ∀ e ∈ inputTypeDebug env p, e.isWrite = false := by
  intro e he
  unfold inputTypeDebug at he
  split_ifs at he <;> simp_all [Event.isWrite]

theorem preamble_noWrite (env : Env) (p : Params) :
    ∀ e ∈ preamble env p, e.isWrite = false := by
  intro e he
  unfold preamble at he
  rw [List.mem_append] at he
  rcases he with he | he
  · exact inputTypeDebug_noWrite env p e he
  · simp at he; rcases he with rfl | rfl <;> rfl

theorem extractCachedMetaLog_noWrite (s : String) :
    ∀ e ∈ extractCachedMetaLog s, e.isWrite = false := by
  intro e he
  unfold extractCachedMetaLog at he
  split_ifs at he <;> simp_all [Event.isWrite]

theorem lossyOptions_noWrite (env : Env) (p : Params) (h : Handle) :
    ∀ e ∈ lossyOptions env p h, e.isWrite = false := by
  intro e he
  unfold lossyOptions at he
  split_ifs at he
  · simp at he; rcases he with rfl | rfl | rfl | rfl <;> rfl
  · simp at he

theorem readConsensus_loaded (env : Env) (p : Params) (ot : FileType) (r : Reader)
    (loaded : ConsensusMap) :
    ∃ t d, readConsensus env p ot r loaded = .loaded t d ∧ ∀ e ∈ t, e.isWrite = false := by
  unfold readConsensus
  split_ifs
  · exact ⟨_, _, rfl, by intro e he; simp at he; rcases he with rfl | rfl <;> rfl⟩
  · exact ⟨_, _, rfl, by intro e he; simp at he; subst he; rfl⟩

theorem readFeatures_loaded (env : Env) (p : Params) (it ot : FileType) :
    ∃ t d, readFeatures env p it ot = .loaded t d ∧ ∀ e ∈ t, e.isWrite = false := by
  unfold readFeatures
  split_ifs
  · exact ⟨_, _, rfl, by intro e he; simp at he; rcases he with rfl | rfl <;> rfl⟩
  · exact ⟨_, _, rfl, by intro e he; simp at he; subst he; rfl⟩

/-- Whatever the cachedMzML branch does, it writes nothing; it never returns
success by itself. -/
theorem readCachedMzML_noWrite (env : Env) (p : Params) :
    (∀ r, readCachedMzML env p = .done r →
      r.outcome ≠ .returned .EXECUTION_OK ∧ ∀ e ∈ r.trace, e.isWrite = false) ∧
    (∀ t d, readCachedMzML env p = .loaded t d → ∀ e ∈ t, e.isWrite = false) := by
  have hlog := extractCachedMetaLog_noWrite p.in_
  have hloads : ∀ e ∈ extractCachedMetaLog p.in_ ++
      [Event.load .MzMLFile (extractCachedMetaFilename p.in_), .load .readMemdump p.in_],
      e.isWrite = false := by
    intro e he
    rw [List.mem_append] at he
    rcases he with he | he
    · exact hlog e he
    · simp at he; rcases he with rfl | rfl <;> rfl
  unfold readCachedMzML
  by_cases h1 : extractCachedMetaFilename p.in_ = ""
  · simp only [h1, if_true]
    refine ⟨?_, ?_⟩
    · intro r hr; cases hr; exact ⟨by simp, hlog⟩
    · intro t d hd; cases hd
  · simp only [h1, if_false]
    by_cases h2 : (env.loadMzML (extractCachedMetaFilename p.in_)).size ≠
        (env.readMemdump p.in_).size
    · simp only [h2, if_true, ne_eq, not_false_eq_true]
      refine ⟨?_, ?_⟩
      · intro r hr; cases hr
        refine ⟨by simp, ?_⟩
        intro e he
        rw [List.mem_append] at he
        rcases he with he | he
        · exact hloads e he
        · simp at he; subst he; rfl
      · intro t d hd; cases hd
    · simp only [h2, if_false]
      cases hm : mergeCachedMzML (env.loadMzML (extractCachedMetaFilename p.in_))
          (env.readMemdump p.in_) with
      | none =>
        refine ⟨?_, ?_⟩
        · intro r hr; cases hr; exact ⟨by simp, hloads⟩
        · intro t d hd; cases hd
      | some m =>
        refine ⟨?_, ?_⟩
        · intro r hr; cases hr
        · intro t d hd; cases hd; exact hloads

/-- The streaming branch ends the invocation; when it fails it has written
nothing. -/
theorem readLowMemory_noWrite (env : Env) (p : Params) (it ot : FileType) :
    (∀ r, readLowMemory env p it ot = .done r → r.outcome ≠ .returned .EXECUTION_OK →
      ∀ e ∈ r.trace, e.isWrite = false) ∧
    (∀ t d, readLowMemory env p it ot ≠ .loaded t d) := by
  have hlog := extractCachedMetaLog_noWrite p.out
  unfold readLowMemory
  by_cases h1 : p.change_im_format ≠ .NONE
  · rw [if_pos h1]
    exact ⟨by intro r hr _; cases hr; intro e he; simp at he; subst he; rfl,
      by intro t d hd; cases hd⟩
  rw [if_neg h1]
  by_cases h2 : (it = .MZXML ∨ it = .MZML) ∧ ot = .MZML
  · rw [if_pos h2]
    by_cases h3 : it = .MZML
    · rw [if_pos h3]
      exact ⟨by intro r hr hf; cases hr; simp at hf, by intro t d hd; cases hd⟩
    · rw [if_neg h3]
      have h4 : it = .MZXML := by
        rcases h2.1 with h | h
        · exact h
        · exact absurd h h3
      rw [if_pos h4]
      exact ⟨by intro r hr hf; cases hr; simp at hf, by intro t d hd; cases hd⟩
  rw [if_neg h2]
  by_cases h5 : it = .MZML ∧ ot = .CACHEDMZML
  · rw [if_pos h5]
    by_cases h6 : extractCachedMetaFilename p.out = ""
    · simp only [h6, if_true]
      exact ⟨by intro r hr _; cases hr; exact hlog, by intro t d hd; cases hd⟩
    · simp only [h6, if_false]
      exact ⟨by intro r hr hf; cases hr; simp at hf, by intro t d hd; cases hd⟩
  · rw [if_neg h5]
    exact ⟨by intro r hr _; cases hr; intro e he; simp at he, by intro t d hd; cases hd⟩

theorem readRaw_noWrite (env : Env) (p : Params) (ot : FileType) (hot : ot ≠ .MZML) :
    readRaw env p ot = .done ⟨[], .threw .IllegalArgument⟩ := by
  unfold readRaw
  rw [if_pos hot]

/-- The input section writes nothing unless it ends the invocation with
success (streaming) or hands the work to the external raw file converter. -/
theorem readInput_done_noWrite (env : Env) (p : Params) (it ot : FileType) (r : Run)
    (h : readInput env p it ot = .done r)
    (hfail : r.outcome ≠ .returned .EXECUTION_OK)
    (hraw : ¬ (it = .RAW ∧ ot = .MZML)) :
    ∀ e ∈ r.trace, e.isWrite = false := by
  unfold readInput at h
  split_ifs at h with h1 h2 h3 h4 h5 h6
  · obtain ⟨t, d, hd, _⟩ := readConsensus_loaded env p ot .ConsensusXMLFile
      (env.loadConsensusXML p.in_)
    rw [hd] at h; cases h
  · rw [readRaw_noWrite env p ot (fun ho => hraw ⟨h2, ho⟩)] at h
    cases h; intro e he; simp at he
  · obtain ⟨t, d, hd, _⟩ := readConsensus_loaded env p ot .EDTAFile (env.loadEDTA p.in_)
    rw [hd] at h; cases h
  · obtain ⟨t, d, hd, _⟩ := readFeatures_loaded env p it ot
    rw [hd] at h; cases h
  · exact ((readCachedMzML_noWrite env p).1 r h).2
  · exact (readLowMemory_noWrite env p it ot).1 r h hfail

theorem readInput_loaded_noWrite (env : Env) (p : Params) (it ot : FileType)
    (t : List Event) (d : Data) (h : readInput env p it ot = .loaded t d) :
    ∀ e ∈ t, e.isWrite = false := by
  unfold readInput at h
  split_ifs at h with h1 h2 h3 h4 h5 h6
  · obtain ⟨t', d', hd, hw⟩ := readConsensus_loaded env p ot .ConsensusXMLFile
      (env.loadConsensusXML p.in_)
    rw [hd] at h; cases h; exact hw
  · unfold readRaw at h; split_ifs at h
  · obtain ⟨t', d', hd, hw⟩ := readConsensus_loaded env p ot .EDTAFile (env.loadEDTA p.in_)
    rw [hd] at h; cases h; exact hw
  · obtain ⟨t', d', hd, hw⟩ := readFeatures_loaded env p it ot
    rw [hd] at h; cases h; exact hw
  · exact (readCachedMzML_noWrite env p).2 t d h
  · exact absurd h ((readLowMemory_noWrite env p it ot).2 t d)
  · cases h; intro e he; simp at he; subst he; rfl

theorem writeMzML_none (env : Env) (p : Params) (exp : MSExperiment)
    (h : changeIMFormat env p (markSRM p
      (addDataProcessingExp exp (env.getProcessingInfo .CONVERSION_MZML))) = none) :
    writeMzML env p exp =
      ⟨[.setOption .MzMLFile (.setWriteIndex (write_scan_index p)),
        .setOption .MzMLFile (.setForceTPPCompatability p.force_TPP_compatibility)]
        ++ lossyOptions env p .MzMLFile, .threw .IllegalArgument⟩ := by
  unfold writeMzML
  simp only [h]

theorem writeMzML_some (env : Env) (p : Params) (exp e : MSExperiment)
    (h : changeIMFormat env p (markSRM p
      (addDataProcessingExp exp (env.getProcessingInfo .CONVERSION_MZML))) = some e) :
    writeMzML env p exp =
      ⟨[.setOption .MzMLFile (.setWriteIndex (write_scan_index p)),
        .setOption .MzMLFile (.setForceTPPCompatability p.force_TPP_compatibility)]
        ++ lossyOptions env p .MzMLFile
        ++ [.store .MzMLFile p.out (.experiment
          (env.convertSpectraToChromatograms e true p.convert_to_chromatograms))],
        .returned .EXECUTION_OK⟩ := by
  unfold writeMzML
  simp only [h]

/-- When the output section does not return success, it has written nothing. -/
theorem writeBranch_fail_noWrite (env : Env) (p : Params) (it ot : FileType) (d : Data)
    (hfail : (writeBranch env p it ot d).outcome ≠ .returned .EXECUTION_OK) :
    ∀ e ∈ (writeBranch env p it ot d).trace, e.isWrite = false := by
  have hunknown : ∀ e ∈ [Event.log .unknownOutputFileType, Event.printUsage],
      e.isWrite = false := by
    intro e he; simp at he; rcases he with rfl | rfl <;> rfl
  cases ot
  case MZML =>
    change (writeMzML env p d.exp).outcome ≠ _ at hfail
    change ∀ e ∈ (writeMzML env p d.exp).trace, _
    have hopt := lossyOptions_noWrite env p .MzMLFile
    cases hc : changeIMFormat env p (markSRM p
      (addDataProcessingExp d.exp (env.getProcessingInfo .CONVERSION_MZML))) with
    | none =>
      rw [writeMzML_none env p d.exp hc]
      intro e he
      simp only [List.mem_append, List.mem_cons, List.mem_singleton,
        List.not_mem_nil, or_false] at he
      rcases he with (rfl | rfl) | he
      · rfl
      · rfl
      · exact hopt e he
    | some e0 =>
      rw [writeMzML_some env p d.exp e0 hc] at hfail
      exact absurd rfl hfail
  case DTA2D =>
    exfalso; apply hfail
    change (if p.TIC_DTA2D = true then _ else _ : Run).outcome = _
    split_ifs <;> rfl
  case EDTA =>
    change (writeEDTA p d).outcome ≠ _ at hfail
    change ∀ e ∈ (writeEDTA p d).trace, _
    unfold writeEDTA at hfail ⊢
    split_ifs at hfail ⊢
    · intro e he; simp at he; subst he; rfl
    all_goals exact absurd rfl hfail
  case CACHEDMZML =>
    change (writeCachedMzML p d.exp).outcome ≠ _ at hfail
    change ∀ e ∈ (writeCachedMzML p d.exp).trace, _
    unfold writeCachedMzML at hfail ⊢
    by_cases h : extractCachedMetaFilename p.out = ""
    · simp only [h, if_true]; exact extractCachedMetaLog_noWrite p.out
    · simp only [h, if_false] at hfail; exact absurd rfl hfail
  case CSV =>
    change (writeCSV p it d.cm).outcome ≠ _ at hfail
    change ∀ e ∈ (writeCSV p it d.cm).trace, _
    unfold writeCSV at hfail ⊢
    split_ifs at hfail ⊢
    · intro e he; simp at he; subst he; rfl
    · exact absurd rfl hfail
  case OMS =>
    change (writeOMS env p it d.fm).outcome ≠ _ at hfail
    change ∀ e ∈ (writeOMS env p it d.fm).trace, _
    unfold writeOMS at hfail ⊢
    split_ifs at hfail ⊢
    · intro e he; simp at he; subst he; rfl
    · exact absurd rfl hfail
  all_goals first
    | exact absurd rfl hfail
    | exact hunknown

theorem writeOutput_fail_noWrite (env : Env) (p : Params) (it ot : FileType) (d : Data)
    (hfail : (writeOutput env p it ot d).outcome ≠ .returned .EXECUTION_OK) :
    ∀ e ∈ (writeOutput env p it ot d).trace, e.isWrite = false := by
  intro e he
  unfold writeOutput at he hfail
  simp only [List.mem_cons] at he
  rcases he with rfl | he
  · rfl
  · exact writeBranch_fail_noWrite env p it ot d hfail e he

/-! ### The claims on the cachedMzML read path -/

theorem preamble_no_pairing_log (env : Env) (p : Params) (a b : String) :
    Event.log (.pairedInputFilesDoNotMatch a b) ∉ preamble env p := by
  unfold preamble inputTypeDebug
  split_ifs <;> simp

theorem extractCachedMetaLog_no_pairing_log (s a b : String) :
    Event.log (.pairedInputFilesDoNotMatch a b) ∉ extractCachedMetaLog s := by
  unfold extractCachedMetaLog
  split_ifs <;> simp

theorem lossyOptions_no_log (env : Env) (p : Params) (h : Handle) (l : LogLine) :
    Event.log l ∉ lossyOptions env p h := by
  unfold lossyOptions
  split_ifs <;> simp

theorem writeBranch_no_pairing_log (env : Env) (p : Params) (it ot : FileType) (d : Data)
    (a b : String) :
    Event.log (.pairedInputFilesDoNotMatch a b) ∉ (writeBranch env p it ot d).trace := by
  cases ot
  case MZML =>
    change _ ∉ (writeMzML env p d.exp).trace
    have hl := lossyOptions_no_log env p .MzMLFile (.pairedInputFilesDoNotMatch a b)
    cases hc : changeIMFormat env p (markSRM p
      (addDataProcessingExp d.exp (env.getProcessingInfo .CONVERSION_MZML))) with
    | none => rw [writeMzML_none env p d.exp hc]; simp [hl]
    | some e0 => rw [writeMzML_some env p d.exp e0 hc]; simp [hl]
  case DTA2D =>
    change _ ∉ (if p.TIC_DTA2D = true then _ else _ : Run).trace
    split_ifs <;> simp
  case FEATUREXML =>
    change _ ∉ (writeFeatureXML env p it d).trace
    unfold writeFeatureXML
    split_ifs <;> simp
  case EDTA =>
    change _ ∉ (writeEDTA p d).trace
    unfold writeEDTA
    split_ifs <;> simp
  case CACHEDMZML =>
    change _ ∉ (writeCachedMzML p d.exp).trace
    have hl := extractCachedMetaLog_no_pairing_log p.out a b
    unfold writeCachedMzML
    by_cases h : extractCachedMetaFilename p.out = ""
    · simp only [h, if_true]; exact hl
    · simp only [h, if_false]; simp [hl]
  case CSV =>
    change _ ∉ (writeCSV p it d.cm).trace
    unfold writeCSV
    split_ifs <;> simp
  case OMS =>
    change _ ∉ (writeOMS env p it d.fm).trace
    unfold writeOMS
    split_ifs <;> simp
  all_goals first
    | (change _ ∉ [Event.log .unknownOutputFileType, Event.printUsage]; simp)
    | (change _ ∉ [_]; simp)
    | (change _ ∉ [_, _, _]; simp)

theorem readInput_cached (env : Env) (p : Params) (ot : FileType) :
    readInput env p .CACHEDMZML ot = readCachedMzML env p := rfl

/-- C1: for a cachedMzML input (both file types determined) whose shell holds a
different number of spectra than the dump, `main_` returns ILLEGAL_PARAMETERS
and no store, sink creation or streaming write has happened; when the two
counts are equal the pairing-mismatch line is not logged and, the input path
following the naming convention, the input section goes on to the merge. -/
theorem cachedMzML_pairing_check (env : Env) (p : Params)
    (hin : resolveInType env p = .CACHEDMZML) (hout : resolveOutType env p ≠ .UNKNOWN) :
    ((env.loadMzML (extractCachedMetaFilename p.in_)).size ≠ (env.readMemdump p.in_).size →
      (main_ env p).outcome = .returned .ILLEGAL_PARAMETERS ∧
      (∀ e ∈ (main_ env p).trace, e.isWrite = false) ∧
      (extractCachedMetaFilename p.in_ ≠ "" →
        Event.log (.pairedInputFilesDoNotMatch (extractCachedMetaFilename p.in_) p.in_) ∈
          (main_ env p).trace)) ∧
    ((env.loadMzML (extractCachedMetaFilename p.in_)).size = (env.readMemdump p.in_).size →
      (∀ a b, Event.log (.pairedInputFilesDoNotMatch a b) ∉ (main_ env p).trace) ∧
      (extractCachedMetaFilename p.in_ ≠ "" →
        readInput env p .CACHEDMZML (resolveOutType env p) =
          match mergeCachedMzML (env.loadMzML (extractCachedMetaFilename p.in_))
              (env.readMemdump p.in_) with
          | none =>
            .done ⟨[.load .MzMLFile (extractCachedMetaFilename p.in_),
              .load .readMemdump p.in_], .undefinedBehaviour⟩
          | some exp =>
            .loaded [.load .MzMLFile (extractCachedMetaFilename p.in_),
              .load .readMemdump p.in_] ⟨exp, FeatureMap.empty, ConsensusMap.empty, 0⟩)) := by
  have hi : resolveInType env p ≠ .UNKNOWN := by rw [hin]; decide
  have hmain := main_of_types env p hi hout
  rw [hin, readInput_cached] at hmain
  refine ⟨?_, ?_⟩
  · intro hne
    have hread : ∃ t, readCachedMzML env p = .done ⟨t, .returned .ILLEGAL_PARAMETERS⟩ ∧
        (extractCachedMetaFilename p.in_ ≠ "" →
          Event.log (.pairedInputFilesDoNotMatch (extractCachedMetaFilename p.in_) p.in_) ∈ t) := by
      unfold readCachedMzML
      by_cases h1 : extractCachedMetaFilename p.in_ = ""
      · simp only [h1, if_true]; exact ⟨_, rfl, fun h => absurd rfl h⟩
      · simp only [h1, if_false, hne, ne_eq, not_false_eq_true, if_true]
        exact ⟨_, rfl, fun _ => by simp⟩
    obtain ⟨t, ht, hmem⟩ := hread
    rw [ht] at hmain
    rw [hmain]
    refine ⟨rfl, ?_, ?_⟩
    · intro e he
      simp only [List.mem_append] at he
      rcases he with he | he
      · exact preamble_noWrite env p e he
      · exact ((readCachedMzML_noWrite env p).1 _ ht).2 e he
    · intro h1
      exact List.mem_append_right _ (hmem h1)
  · intro heq
    have hlog := extractCachedMetaLog_eq p.in_
    refine ⟨?_, ?_⟩
    · intro a b
      have hpre := preamble_no_pairing_log env p a b
      have hl := extractCachedMetaLog_no_pairing_log p.in_ a b
      rw [hmain]
      unfold readCachedMzML
      by_cases h1 : extractCachedMetaFilename p.in_ = ""
      · simp only [h1, if_true]
        simp only [List.mem_append, not_or]
        exact ⟨hpre, by rw [h1] at hlog; exact hl⟩
      · simp only [h1, if_false, heq, ne_eq, not_true_eq_false]
        cases mergeCachedMzML (env.loadMzML (extractCachedMetaFilename p.in_))
            (env.readMemdump p.in_) with
        | none => simp [hpre, hl]
        | some m =>
          have hw := writeBranch_no_pairing_log env p .CACHEDMZML (resolveOutType env p)
            ⟨m, FeatureMap.empty, ConsensusMap.empty, 0⟩ a b
          simp [hpre, hl, writeOutput, hw]
    · intro h1
      rw [readInput_cached]
      unfold readCachedMzML
      rw [if_neg h1] at hlog
      simp only [h1, if_false, heq, ne_eq, not_true_eq_false, hlog, List.nil_append]

theorem cachedMzML_pairing_check_witness :
    (main_ mismatchedDumpEnv
      (sampleParams "run.cachedMzML" .CACHEDMZML "out.mzML" "mzML")).outcome =
        .returned .ILLEGAL_PARAMETERS ∧
    ∀ e ∈ (main_ mismatchedDumpEnv
      (sampleParams "run.cachedMzML" .CACHEDMZML "out.mzML" "mzML")).trace,
      e.isWrite = false :=
  (cachedMzML_pairing_check mismatchedDumpEnv
    (sampleParams "run.cachedMzML" .CACHEDMZML "out.mzML" "mzML")
    (by decide) (by decide)).1 (by decide) |>.imp_right And.left

/-- C2: with equal spectrum counts but fewer chromatograms in the dump than in
the shell, `main_` does not fail: it returns EXECUTION_OK and stores an
experiment whose second chromatogram is left without peaks; with more
chromatograms in the dump than in the shell, the merge indexes past the end of
the shell chromatograms (undefined behaviour) instead of failing. -/
theorem cachedMzML_chromatogram_mismatch_not_detected :
    (truncatedDumpEnv.loadMzML "run.mzML").size = (truncatedDumpEnv.readMemdump "run.cachedMzML").size ∧
    (truncatedDumpEnv.loadMzML "run.mzML").chromatograms.length = 2 ∧
    (truncatedDumpEnv.readMemdump "run.cachedMzML").chromatograms.length = 1 ∧
    main_ truncatedDumpEnv (sampleParams "run.cachedMzML" .CACHEDMZML "out.mzML" "mzML") =
      ⟨[.debug (.outputFileType .MZML), .debug .loadingInputFile,
        .load .MzMLFile "run.mzML", .load .readMemdump "run.cachedMzML",
        .debug .writingOutputFile,
        .setOption .MzMLFile (.setWriteIndex true),
        .setOption .MzMLFile (.setForceTPPCompatability false),
        .store .MzMLFile "out.mzML" (.experiment
          ⟨[sampleSpectrum], [sampleChromatogram, ⟨4, []⟩], [⟨.CONVERSION_MZML, 0⟩], 1⟩)],
       .returned .EXECUTION_OK⟩ ∧
    (extendedDumpEnv.loadMzML "run.mzML").size = (extendedDumpEnv.readMemdump "run.cachedMzML").size ∧
    (extendedDumpEnv.loadMzML "run.mzML").chromatograms.length = 2 ∧
    (extendedDumpEnv.readMemdump "run.cachedMzML").chromatograms.length = 3 ∧
    (main_ extendedDumpEnv
      (sampleParams "run.cachedMzML" .CACHEDMZML "out.mzML" "mzML")).outcome =
        .undefinedBehaviour := by
  decide

/-- C3: in the cachedMzML read path, for a shell and a dump with equal spectrum
counts and equal chromatogram counts, the input section yields a merged
experiment with as many spectra and chromatograms as the shell, in the same
order and with the same header data, in which the peak list of record `i` is
the shell record's peak list followed by the dump record's peak list; for a
shell record without peaks it is the dump record's peak list. -/
theorem cachedMzML_merge_appends (env : Env) (p : Params) (ot : FileType)
    (hname : extractCachedMetaFilename p.in_ ≠ "")
    (hs : (env.loadMzML (extractCachedMetaFilename p.in_)).spectra.length =
      (env.readMemdump p.in_).spectra.length)
    (hc : (env.loadMzML (extractCachedMetaFilename p.in_)).chromatograms.length =
      (env.readMemdump p.in_).chromatograms.length) :
    ∃ merged : MSExperiment,
      readInput env p .CACHEDMZML ot =
        .loaded [.load .MzMLFile (extractCachedMetaFilename p.in_), .load .readMemdump p.in_]
          ⟨merged, FeatureMap.empty, ConsensusMap.empty, 0⟩ ∧
      merged.spectra.length =
        (env.loadMzML (extractCachedMetaFilename p.in_)).spectra.length ∧
      merged.chromatograms.length =
        (env.loadMzML (extractCachedMetaFilename p.in_)).chromatograms.length ∧
      merged.dataProcessing = (env.loadMzML (extractCachedMetaFilename p.in_)).dataProcessing ∧
      merged.info = (env.loadMzML (extractCachedMetaFilename p.in_)).info ∧
      (∀ (i : Nat) (s d : MSSpectrum),
        (env.loadMzML (extractCachedMetaFilename p.in_)).spectra[i]? = some s →
        (env.readMemdump p.in_).spectra[i]? = some d →
        merged.spectra[i]? = some { s with peaks := s.peaks ++ d.peaks } ∧
        (s.peaks = [] → merged.spectra[i]? = some { s with peaks := d.peaks })) ∧
      (∀ (i : Nat) (c d : MSChromatogram),
        (env.loadMzML (extractCachedMetaFilename p.in_)).chromatograms[i]? = some c →
        (env.readMemdump p.in_).chromatograms[i]? = some d →
        merged.chromatograms[i]? = some { c with peaks := c.peaks ++ d.peaks } ∧
        (c.peaks = [] → merged.chromatograms[i]? = some { c with peaks := d.peaks })) := by
  have hlog := extractCachedMetaLog_eq p.in_
  rw [if_neg hname] at hlog
  have hsize : (env.loadMzML (extractCachedMetaFilename p.in_)).size =
      (env.readMemdump p.in_).size := hs
  refine ⟨{ env.loadMzML (extractCachedMetaFilename p.in_) with
      spectra := List.zipWith (fun s d => { s with peaks := s.peaks ++ d.peaks })
        (env.loadMzML (extractCachedMetaFilename p.in_)).spectra (env.readMemdump p.in_).spectra,
      chromatograms := List.zipWith (fun c d => { c with peaks := c.peaks ++ d.peaks })
        (env.loadMzML (extractCachedMetaFilename p.in_)).chromatograms
        (env.readMemdump p.in_).chromatograms }, ?_, ?_, ?_, rfl, rfl, ?_, ?_⟩
  · rw [readInput_cached]
    unfold readCachedMzML
    simp only [hname, if_false, hsize, ne_eq, not_true_eq_false, hlog, List.nil_append,
      mergeCachedMzML_eq _ _ hs hc]
  · simp [hs]
  · simp [hc]
  · intro i s d h1 h2
    have : (List.zipWith (fun (s d : MSSpectrum) => { s with peaks := s.peaks ++ d.peaks })
        (env.loadMzML (extractCachedMetaFilename p.in_)).spectra
        (env.readMemdump p.in_).spectra)[i]? = some { s with peaks := s.peaks ++ d.peaks } := by
      rw [List.getElem?_zipWith, h1, h2]
    refine ⟨this, ?_⟩
    intro hempty
    rw [this, hempty, List.nil_append]
  · intro i c d h1 h2
    have : (List.zipWith
        (fun (c d : MSChromatogram) => { c with peaks := c.peaks ++ d.peaks })
        (env.loadMzML (extractCachedMetaFilename p.in_)).chromatograms
        (env.readMemdump p.in_).chromatograms)[i]? =
          some { c with peaks := c.peaks ++ d.peaks } := by
      rw [List.getElem?_zipWith, h1, h2]
    refine ⟨this, ?_⟩
    intro hempty
    rw [this, hempty, List.nil_append]

theorem cachedMzML_merge_appends_witness :
    ∃ merged : MSExperiment,
      readInput sampleEnv (sampleParams "run.cachedMzML" .CACHEDMZML "out.mzML" "mzML")
        .CACHEDMZML .MZML =
        .loaded [.load .MzMLFile "run.mzML", .load .readMemdump "run.cachedMzML"]
          ⟨merged, FeatureMap.empty, ConsensusMap.empty, 0⟩ ∧
      merged.spectra.length = 1 ∧ merged.chromatograms.length = 2 :=
  let ⟨m, h1, h2, h3, _⟩ := cachedMzML_merge_appends sampleEnv
    (sampleParams "run.cachedMzML" .CACHEDMZML "out.mzML" "mzML") .MZML
    (by decide) (by decide) (by decide)
  ⟨m, h1, h2, h3⟩

/-- C4: round trip. When the cachedMzML output branch writes the experiment
`d.exp` (path following the naming convention), the shell is written to the
derived shell path and the dump to the output path, both from `d.exp`; and when
a later invocation reads that pair (the readers returning the shell and the
dump of `d.exp`), the pairing check passes and the merge yields `d.exp`
itself. -/
theorem cachedMzML_round_trip (env env2 : Env) (p p2 : Params) (it ot2 : FileType) (d : Data)
    (hname : extractCachedMetaFilename p.out ≠ "")
    (hin : p2.in_ = p.out)
    (hshell : env2.loadMzML (extractCachedMetaFilename p.out) = writeMetadata d.exp)
    (hdump : env2.readMemdump p.out = writeMemdump d.exp) :
    writeOutput env p it .CACHEDMZML d =
      ⟨[.debug .writingOutputFile,
        .store .CachedMzMLMetadata (extractCachedMetaFilename p.out) (.experiment d.exp),
        .store .CachedMzMLMemdump p.out (.experiment d.exp)], .returned .EXECUTION_OK⟩ ∧
    (writeMetadata d.exp).size = (writeMemdump d.exp).size ∧
    readInput env2 p2 .CACHEDMZML ot2 =
      .loaded [.load .MzMLFile (extractCachedMetaFilename p.out), .load .readMemdump p.out]
        ⟨d.exp, FeatureMap.empty, ConsensusMap.empty, 0⟩ := by
  have hlog := extractCachedMetaLog_eq p.out
  rw [if_neg hname] at hlog
  refine ⟨?_, ?_, ?_⟩
  · change (⟨.debug .writingOutputFile :: (writeCachedMzML p d.exp).trace,
      (writeCachedMzML p d.exp).outcome⟩ : Run) = _
    unfold writeCachedMzML
    simp only [hname, if_false, hlog, List.nil_append]
  · simp [MSExperiment.size, writeMetadata, writeMemdump]
  · rw [readInput_cached]
    unfold readCachedMzML
    have hsize : (writeMetadata d.exp).size = (writeMemdump d.exp).size := by
      simp [MSExperiment.size, writeMetadata, writeMemdump]
    simp only [hin, hname, if_false, hshell, hdump, hsize, ne_eq, not_true_eq_false, hlog,
      List.nil_append, mergeCachedMzML_split]

theorem cachedMzML_round_trip_witness :
    readInput sampleEnv (sampleParams "run.cachedMzML" .CACHEDMZML "out.mzML" "mzML")
      .CACHEDMZML .MZML =
      .loaded [.load .MzMLFile "run.mzML", .load .readMemdump "run.cachedMzML"]
        ⟨sampleExperiment, FeatureMap.empty, ConsensusMap.empty, 0⟩ :=
  (cachedMzML_round_trip sampleEnv sampleEnv
    (sampleParams "in.mzML" .MZML "run.cachedMzML" "cachedMzML")
    (sampleParams "run.cachedMzML" .CACHEDMZML "out.mzML" "mzML") .MZML .MZML
    ⟨sampleExperiment, FeatureMap.empty, ConsensusMap.empty, 0⟩
    (by decide) rfl rfl rfl).2.2

/-- C8: whenever `main_` ends otherwise than by returning EXECUTION_OK (with
PARSE_ERROR, ILLEGAL_PARAMETERS, INCOMPATIBLE_INPUT_DATA or INTERNAL_ERROR, or
with an exception thrown by `main_` itself), and the invocation is not the
delegation of raw input to the external converter, no store, no sink creation
and no streaming write has happened. -/
theorem failure_before_any_write (env : Env) (p : Params)
    (hfail : (main_ env p).outcome ≠ .returned .EXECUTION_OK)
    (hraw : ¬ (resolveInType env p = .RAW ∧ resolveOutType env p = .MZML)) :
    ∀ e ∈ (main_ env p).trace, e.isWrite = false := by
  have hdbg := inputTypeDebug_noWrite env p
  by_cases hi : resolveInType env p = .UNKNOWN
  · intro e he
    unfold main_ at he
    simp only [hi, if_true, List.mem_append, List.mem_singleton] at he
    rcases he with he | rfl
    · exact hdbg e he
    · rfl
  by_cases ho : resolveOutType env p = .UNKNOWN
  · intro e he
    unfold main_ at he
    simp only [hi, ho, if_true, if_false, List.mem_append, List.mem_singleton] at he
    rcases he with he | rfl
    · exact hdbg e he
    · rfl
  have hpre := preamble_noWrite env p
  cases hr : readInput env p (resolveInType env p) (resolveOutType env p) with
  | done r =>
    rw [main_of_done env p r hi ho hr] at hfail ⊢
    intro e he
    simp only [List.mem_append] at he
    rcases he with he | he
    · exact hpre e he
    · exact readInput_done_noWrite env p _ _ r hr hfail hraw e he
  | loaded t d =>
    rw [main_of_loaded env p t d hi ho hr] at hfail ⊢
    intro e he
    simp only [List.mem_append] at he
    rcases he with (he | he) | he
    · exact hpre e he
    · exact readInput_loaded_noWrite env p _ _ t d hr e he
    · exact writeOutput_fail_noWrite env p _ _ d hfail e he

theorem failure_before_any_write_witness :
    (main_ sampleEnv (sampleParams "a.edta" .EDTA "out.csv" "csv")).outcome =
      .returned .INCOMPATIBLE_INPUT_DATA ∧
    ∀ e ∈ (main_ sampleEnv (sampleParams "a.edta" .EDTA "out.csv" "csv")).trace,
      e.isWrite = false :=
  ⟨by decide,
   failure_before_any_write sampleEnv (sampleParams "a.edta" .EDTA "out.csv" "csv")
     (by decide) (by decide)⟩

/-! ### Lossy conversions and the csv export -/

theorem readConsensus_experiment (env : Env) (p : Params) (ot : FileType) (r : Reader)
    (loaded : ConsensusMap) (hot : isExperimentFormat ot = true) :
    readConsensus env p ot r loaded =
      .loaded [.load r p.in_, .log .warnConsensusToPeaks]
        ⟨env.set2DDataConsensus MSExperiment.empty (env.sortConsensusByPosition loaded),
          FeatureMap.empty, env.sortConsensusByPosition loaded, 0⟩ := by
  cases ot <;> first | rfl | exact absurd hot (by decide)

theorem readFeatures_experiment (env : Env) (p : Params) (it ot : FileType)
    (hot : isExperimentFormat ot = true) :
    readFeatures env p it ot =
      .loaded [.load (.loadFeatures it) p.in_, .log .warnFeaturesToPeaks]
        ⟨env.set2DDataFeatures MSExperiment.empty
            (env.sortFeaturesByPosition (env.loadFeatures p.in_ it)),
          env.sortFeaturesByPosition (env.loadFeatures p.in_ it), ConsensusMap.empty, 0⟩ := by
  cases ot <;> first | rfl | exact absurd hot (by decide)

theorem readConsensus_map (env : Env) (p : Params) (ot : FileType) (r : Reader)
    (loaded : ConsensusMap) (hot : ot = .FEATUREXML ∨ ot = .CONSENSUSXML) :
    readConsensus env p ot r loaded =
      .loaded [.load r p.in_]
        ⟨MSExperiment.empty, FeatureMap.empty, env.sortConsensusByPosition loaded, 0⟩ := by
  rcases hot with rfl | rfl <;> rfl

theorem readFeatures_map (env : Env) (p : Params) (it ot : FileType)
    (hot : ot = .FEATUREXML ∨ ot = .CONSENSUSXML) :
    readFeatures env p it ot =
      .loaded [.load (.loadFeatures it) p.in_]
        ⟨MSExperiment.empty, env.sortFeaturesByPosition (env.loadFeatures p.in_ it),
          ConsensusMap.empty, 0⟩ := by
  rcases hot with rfl | rfl <;> rfl

/-- The experiment that the input section builds from a consensus or feature
input when an experiment format is written. -/
theorem readInput_lossy (env : Env) (p : Params) (it ot : FileType)
    (hkind : isConsensusKind it = true ∨ isFeatureKind it = true)
    (hot : isExperimentFormat ot = true) :
    ∃ t d, readInput env p it ot = .loaded t d ∧
      (∃ e ∈ t, e.isLossWarning = true) ∧ (∀ e ∈ t, e.isWrite = false) ∧
      d.exp =
        (if it = .CONSENSUSXML then
          env.set2DDataConsensus MSExperiment.empty
            (env.sortConsensusByPosition (env.loadConsensusXML p.in_))
        else if it = .EDTA then
          env.set2DDataConsensus MSExperiment.empty
            (env.sortConsensusByPosition (env.loadEDTA p.in_))
        else
          env.set2DDataFeatures MSExperiment.empty
            (env.sortFeaturesByPosition (env.loadFeatures p.in_ it))) := by
  have hc := fun r loaded => readConsensus_experiment env p ot r loaded hot
  have hf := fun t => readFeatures_experiment env p t ot hot
  have hw1 : ∀ r : Reader, (∃ e ∈ [Event.load r p.in_, .log .warnConsensusToPeaks],
      e.isLossWarning = true) ∧
      ∀ e ∈ [Event.load r p.in_, .log .warnConsensusToPeaks], e.isWrite = false := by
    intro r
    exact ⟨⟨_, List.mem_cons_of_mem _ (List.mem_singleton.mpr rfl), rfl⟩,
      by intro e he; simp at he; rcases he with rfl | rfl <;> rfl⟩
  have hw2 : ∀ r : Reader, (∃ e ∈ [Event.load r p.in_, .log .warnFeaturesToPeaks],
      e.isLossWarning = true) ∧
      ∀ e ∈ [Event.load r p.in_, .log .warnFeaturesToPeaks], e.isWrite = false := by
    intro r
    exact ⟨⟨_, List.mem_cons_of_mem _ (List.mem_singleton.mpr rfl), rfl⟩,
      by intro e he; simp at he; rcases he with rfl | rfl <;> rfl⟩
  cases it
  case CONSENSUSXML =>
    exact ⟨_, _, hc .ConsensusXMLFile (env.loadConsensusXML p.in_), (hw1 _).1, (hw1 _).2, rfl⟩
  case EDTA =>
    exact ⟨_, _, hc .EDTAFile (env.loadEDTA p.in_), (hw1 _).1, (hw1 _).2, rfl⟩
  case FEATUREXML => exact ⟨_, _, hf .FEATUREXML, (hw2 _).1, (hw2 _).2, rfl⟩
  case TSV => exact ⟨_, _, hf .TSV, (hw2 _).1, (hw2 _).2, rfl⟩
  case PEPLIST => exact ⟨_, _, hf .PEPLIST, (hw2 _).1, (hw2 _).2, rfl⟩
  case KROENIK => exact ⟨_, _, hf .KROENIK, (hw2 _).1, (hw2 _).2, rfl⟩
  all_goals exact absurd hkind (by decide)

theorem writeCachedMzML_bad (p : Params) (exp : MSExperiment)
    (h : extractCachedMetaFilename p.out = "") :
    writeCachedMzML p exp = ⟨extractCachedMetaLog p.out, .returned .ILLEGAL_PARAMETERS⟩ := by
  unfold writeCachedMzML
  simp only [h, if_true]

theorem writeCachedMzML_ok (p : Params) (exp : MSExperiment)
    (h : extractCachedMetaFilename p.out ≠ "") :
    writeCachedMzML p exp =
      ⟨[.store .CachedMzMLMetadata (extractCachedMetaFilename p.out) (.experiment exp),
        .store .CachedMzMLMemdump p.out (.experiment exp)], .returned .EXECUTION_OK⟩ := by
  have hlog := extractCachedMetaLog_eq p.out
  rw [if_neg h] at hlog
  unfold writeCachedMzML
  simp only [h, if_false, hlog, List.nil_append]

/-- What the output section does for an experiment format: it stores the
experiment and returns EXECUTION_OK, unless the mzML branch rejects the
ion-mobility reshape or the cachedMzML output path violates the naming
convention. -/
theorem writeOutput_experiment (env : Env) (p : Params) (it ot : FileType) (d : Data)
    (hot : isExperimentFormat ot = true) :
    ((ot = .MZML → changeIMFormat env p (markSRM p
        (addDataProcessingExp d.exp (env.getProcessingInfo .CONVERSION_MZML))) ≠ none) →
      (ot = .CACHEDMZML → extractCachedMetaFilename p.out ≠ "") →
      (writeOutput env p it ot d).outcome = .returned .EXECUTION_OK ∧
      ∃ e ∈ (writeOutput env p it ot d).trace, e.isExperimentStore = true) ∧
    (ot = .MZML → changeIMFormat env p (markSRM p
        (addDataProcessingExp d.exp (env.getProcessingInfo .CONVERSION_MZML))) = none →
      (writeOutput env p it ot d).outcome = .threw .IllegalArgument) ∧
    (ot = .CACHEDMZML → extractCachedMetaFilename p.out = "" →
      (writeOutput env p it ot d).outcome = .returned .ILLEGAL_PARAMETERS) := by
  have hstore : ∀ (w : Writer) (s : String) (e : MSExperiment) (l : List Event),
      ∃ x ∈ Event.debug .writingOutputFile :: (l ++ [Event.store w s (.experiment e)]),
        x.isExperimentStore = true := by
    intro w s e l
    exact ⟨_, List.mem_cons_of_mem _ (List.mem_append_right _ (List.mem_singleton.mpr rfl)), rfl⟩
  cases ot
  case MZML =>
    change (_ → _ → (writeMzML env p d.exp).outcome = _ ∧
      ∃ e ∈ Event.debug .writingOutputFile :: (writeMzML env p d.exp).trace, _) ∧
      (_ → _ → (writeMzML env p d.exp).outcome = _) ∧
      (_ → _ → (writeMzML env p d.exp).outcome = _)
    refine ⟨?_, ?_, ?_⟩
    · intro h1 _
      cases hc : changeIMFormat env p (markSRM p
        (addDataProcessingExp d.exp (env.getProcessingInfo .CONVERSION_MZML))) with
      | none => exact absurd hc (h1 rfl)
      | some e0 =>
        rw [writeMzML_some env p d.exp e0 hc]
        exact ⟨rfl, hstore _ _ _ _⟩
    · intro _ hc
      rw [writeMzML_none env p d.exp hc]
    · intro h; cases h
  case CACHEDMZML =>
    change (_ → _ → (writeCachedMzML p d.exp).outcome = _ ∧
      ∃ e ∈ Event.debug .writingOutputFile :: (writeCachedMzML p d.exp).trace, _) ∧
      (_ → _ → (writeCachedMzML p d.exp).outcome = _) ∧
      (_ → _ → (writeCachedMzML p d.exp).outcome = _)
    refine ⟨?_, ?_, ?_⟩
    · intro _ h2
      rw [writeCachedMzML_ok p d.exp (h2 rfl)]
      exact ⟨rfl, _, List.mem_cons_of_mem _ (List.mem_cons_self _ _), rfl⟩
    · intro h; cases h
    · intro _ h2
      rw [writeCachedMzML_bad p d.exp h2]
  case DTA2D =>
    refine ⟨?_, ?_, ?_⟩
    rotate_left
    · intro h; cases h
    · intro h; cases h
    intro _ _
    change (if p.TIC_DTA2D = true then _ else _ : Run).outcome = _ ∧
      ∃ e ∈ Event.debug .writingOutputFile ::
        (if p.TIC_DTA2D = true then _ else _ : Run).trace, _
    split_ifs
    · exact ⟨rfl, hstore _ _ _ []⟩
    · exact ⟨rfl, hstore _ _ _ []⟩
  case MZXML =>
    refine ⟨?_, ?_, ?_⟩
    rotate_left
    · intro h; cases h
    · intro h; cases h
    intro _ _
    exact ⟨rfl, hstore _ _ _ [_, _]⟩
  case MZDATA =>
    refine ⟨?_, ?_, ?_⟩
    rotate_left
    · intro h; cases h
    · intro h; cases h
    intro _ _
    exact ⟨rfl, hstore _ _ _ []⟩
  case MGF =>
    refine ⟨?_, ?_, ?_⟩
    rotate_left
    · intro h; cases h
    · intro h; cases h
    intro _ _
    exact ⟨rfl, hstore _ _ _ []⟩
  case SQMASS =>
    refine ⟨?_, ?_, ?_⟩
    rotate_left
    · intro h; cases h
    · intro h; cases h
    intro _ _
    exact ⟨rfl, hstore _ _ _ []⟩
  all_goals exact absurd hot (by decide)

theorem preamble_noLoss (env : Env) (p : Params) :
    ∀ e ∈ preamble env p, e.isLossWarning = false := by
  intro e he
  unfold preamble inputTypeDebug at he
  split_ifs at he
  · simp at he; rcases he with rfl | rfl | rfl <;> rfl
  · simp at he; rcases he with rfl | rfl <;> rfl

theorem readInput_map_noLoss (env : Env) (p : Params) (it ot : FileType)
    (hkind : isConsensusKind it = true ∨ isFeatureKind it = true)
    (hot : ot = .FEATUREXML ∨ ot = .CONSENSUSXML) :
    ∃ t d, readInput env p it ot = .loaded t d ∧ ∀ e ∈ t, e.isLossWarning = false := by
  have hc := fun r loaded => readConsensus_map env p ot r loaded hot
  have hf := fun t => readFeatures_map env p t ot hot
  have hl : ∀ r : Reader, ∀ e ∈ [Event.load r p.in_], e.isLossWarning = false := by
    intro r e he; simp at he; subst he; rfl
  cases it
  case CONSENSUSXML => exact ⟨_, _, hc .ConsensusXMLFile (env.loadConsensusXML p.in_), hl _⟩
  case EDTA => exact ⟨_, _, hc .EDTAFile (env.loadEDTA p.in_), hl _⟩
  case FEATUREXML => exact ⟨_, _, hf .FEATUREXML, hl _⟩
  case TSV => exact ⟨_, _, hf .TSV, hl _⟩
  case PEPLIST => exact ⟨_, _, hf .PEPLIST, hl _⟩
  case KROENIK => exact ⟨_, _, hf .KROENIK, hl _⟩
  all_goals exact absurd hkind (by decide)

theorem writeOutput_map_noLoss (env : Env) (p : Params) (it ot : FileType) (d : Data)
    (hkind : isConsensusKind it = true ∨ isFeatureKind it = true)
    (hot : ot = .FEATUREXML ∨ ot = .CONSENSUSXML) :
    ∀ e ∈ (writeOutput env p it ot d).trace, e.isLossWarning = false := by
  have h2 : ∀ (a b : Event), a.isLossWarning = false → b.isLossWarning = false →
      ∀ e ∈ [a, b], e.isLossWarning = false := by
    intro a b ha hb e he; simp at he; rcases he with rfl | rfl <;> assumption
  rcases hot with rfl | rfl
  · cases it
    case CONSENSUSXML => exact h2 _ _ rfl rfl
    case EDTA => exact h2 _ _ rfl rfl
    case FEATUREXML => exact h2 _ _ rfl rfl
    case TSV => exact h2 _ _ rfl rfl
    case PEPLIST => exact h2 _ _ rfl rfl
    case KROENIK => exact h2 _ _ rfl rfl
    all_goals exact absurd hkind (by decide)
  · exact h2 _ _ rfl rfl

/-- C9 (amended): for a consensus-kind or feature-kind input and an experiment
output format, the input section logs the information-loss warning and fills
the experiment from the sorted loaded map, having written nothing; the output
section follows and stores the experiment (for dta2d with TIC_DTA2D, through
`storeTIC`) with EXECUTION_OK, unless the mzML branch rejects a requested
ion-mobility reshape (IllegalArgument is thrown) or the cachedMzML output path
violates the naming convention (ILLEGAL_PARAMETERS is returned). For featureXML
or consensusXML output no information-loss warning is logged. -/
theorem lossy_conversion_warns_then_stores (env : Env) (p : Params)
    (hkind : isConsensusKind (resolveInType env p) = true ∨
      isFeatureKind (resolveInType env p) = true) :
    (isExperimentFormat (resolveOutType env p) = true →
      ∃ t d, readInput env p (resolveInType env p) (resolveOutType env p) = .loaded t d ∧
        (∃ e ∈ t, e.isLossWarning = true) ∧
        (∀ e ∈ preamble env p ++ t, e.isWrite = false) ∧
        d.exp =
          (if resolveInType env p = .CONSENSUSXML then
            env.set2DDataConsensus MSExperiment.empty
              (env.sortConsensusByPosition (env.loadConsensusXML p.in_))
          else if resolveInType env p = .EDTA then
            env.set2DDataConsensus MSExperiment.empty
              (env.sortConsensusByPosition (env.loadEDTA p.in_))
          else
            env.set2DDataFeatures MSExperiment.empty
              (env.sortFeaturesByPosition (env.loadFeatures p.in_ (resolveInType env p)))) ∧
        (main_ env p).trace = preamble env p ++ t ++
          (writeOutput env p (resolveInType env p) (resolveOutType env p) d).trace ∧
        ((resolveOutType env p = .MZML → changeIMFormat env p (markSRM p
            (addDataProcessingExp d.exp (env.getProcessingInfo .CONVERSION_MZML))) ≠ none) →
          (resolveOutType env p = .CACHEDMZML → extractCachedMetaFilename p.out ≠ "") →
          (main_ env p).outcome = .returned .EXECUTION_OK ∧
          ∃ e ∈ (writeOutput env p (resolveInType env p) (resolveOutType env p) d).trace,
            e.isExperimentStore = true) ∧
        (resolveOutType env p = .MZML → changeIMFormat env p (markSRM p
            (addDataProcessingExp d.exp (env.getProcessingInfo .CONVERSION_MZML))) = none →
          (main_ env p).outcome = .threw .IllegalArgument) ∧
        (resolveOutType env p = .CACHEDMZML → extractCachedMetaFilename p.out = "" →
          (main_ env p).outcome = .returned .ILLEGAL_PARAMETERS)) ∧
    ((resolveOutType env p = .FEATUREXML ∨ resolveOutType env p = .CONSENSUSXML) →
      ∀ e ∈ (main_ env p).trace, e.isLossWarning = false) := by
  have hi : resolveInType env p ≠ .UNKNOWN := by
    intro h; rw [h] at hkind; exact absurd hkind (by decide)
  refine ⟨?_, ?_⟩
  · intro hot
    have ho : resolveOutType env p ≠ .UNKNOWN := by
      intro h; rw [h] at hot; exact absurd hot (by decide)
    obtain ⟨t, d, hr, hw, hnw, hexp⟩ := readInput_lossy env p _ _ hkind hot
    have hm := main_of_loaded env p t d hi ho hr
    have hwo := writeOutput_experiment env p (resolveInType env p) (resolveOutType env p) d hot
    refine ⟨t, d, hr, hw, ?_, hexp, by rw [hm], ?_, ?_, ?_⟩
    · intro e he
      rw [List.mem_append] at he
      rcases he with he | he
      · exact preamble_noWrite env p e he
      · exact hnw e he
    · intro h1 h2; rw [hm]; exact hwo.1 h1 h2
    · intro h1 h2; rw [hm]; exact hwo.2.1 h1 h2
    · intro h1 h2; rw [hm]; exact hwo.2.2 h1 h2
  · intro hot
    have ho : resolveOutType env p ≠ .UNKNOWN := by
      intro h; rw [h] at hot; rcases hot with h | h <;> cases h
    obtain ⟨t, d, hr, hnl⟩ := readInput_map_noLoss env p _ _ hkind hot
    rw [main_of_loaded env p t d hi ho hr]
    intro e he
    simp only [List.mem_append] at he
    rcases he with (he | he) | he
    · exact preamble_noLoss env p e he
    · exact hnl e he
    · exact writeOutput_map_noLoss env p _ _ d hkind hot e he

theorem lossy_conversion_warns_then_stores_witness :
    (main_ sampleEnv
      (sampleParams "a.consensusXML" .CONSENSUSXML "out.mzML" "mzML")).outcome =
      .returned .EXECUTION_OK :=
  let ⟨_, _, _, _, _, _, _, h, _⟩ :=
    (lossy_conversion_warns_then_stores sampleEnv
      (sampleParams "a.consensusXML" .CONSENSUSXML "out.mzML" "mzML")
      (Or.inl (by decide))).1 (by decide)
  (h (fun _ => by simp [changeIMFormat, sampleParams]) (fun h => absurd h (by decide))).1

/-- C9, counterexample: a consensusXML input converted to cachedMzML with an
output path that violates the naming convention returns ILLEGAL_PARAMETERS and
stores nothing; converted to mzML with a requested ion-mobility reshape on data
without ion mobility, `main_` throws IllegalArgument and stores nothing. -/
theorem lossy_conversion_can_fail :
    isConsensusKind (resolveInType sampleEnv
      (sampleParams "a.consensusXML" .CONSENSUSXML "out.tmp" "cachedMzML")) = true ∧
    isExperimentFormat (resolveOutType sampleEnv
      (sampleParams "a.consensusXML" .CONSENSUSXML "out.tmp" "cachedMzML")) = true ∧
    (main_ sampleEnv
      (sampleParams "a.consensusXML" .CONSENSUSXML "out.tmp" "cachedMzML")).outcome =
      .returned .ILLEGAL_PARAMETERS ∧
    (∀ e ∈ (main_ sampleEnv
      (sampleParams "a.consensusXML" .CONSENSUSXML "out.tmp" "cachedMzML")).trace,
      e.isWrite = false) ∧
    (main_ sampleEnv
      { sampleParams "a.consensusXML" .CONSENSUSXML "out.mzML" "mzML" with
        change_im_format := .CONCATENATED }).outcome = .threw .IllegalArgument ∧
    (∀ e ∈ (main_ sampleEnv
      { sampleParams "a.consensusXML" .CONSENSUSXML "out.mzML" "mzML" with
        change_im_format := .CONCATENATED }).trace, e.isWrite = false) := by
  decide

/-- The generic loader is used for every input type without a branch of its
own when low-memory processing is off. -/
theorem readInput_generic (env : Env) (p : Params) (it ot : FileType)
    (h1 : it ≠ .CONSENSUSXML) (h2 : it ≠ .RAW) (h3 : it ≠ .EDTA)
    (h4 : ¬ (it = .FEATUREXML ∨ it = .TSV ∨ it = .PEPLIST ∨ it = .KROENIK))
    (h5 : it ≠ .CACHEDMZML) (hlow : p.process_lowmemory = false) :
    readInput env p it ot =
      .loaded [.load (.loadExperiment it) p.in_]
        ⟨env.loadExperiment p.in_ it, FeatureMap.empty, ConsensusMap.empty, 0⟩ := by
  unfold readInput
  rw [if_neg h1, if_neg h2, if_neg h3, if_neg h4, if_neg h5, hlow]
  rfl

/-- C10 (amended): for an invocation with output type csv, a determined input
type other than raw, no low-memory processing, and (for cachedMzML input) an
input section that completes, `main_` returns INCOMPATIBLE_INPUT_DATA, having
stored nothing, if and only if the input type is not consensusXML; an edta
input, although loaded as a consensus map, is rejected; for consensusXML input
the sorted loaded consensus map is stored as ibspectra and EXECUTION_OK is
returned. -/
theorem csv_requires_consensusXML (env : Env) (p : Params)
    (ho : resolveOutType env p = .CSV)
    (hunk : resolveInType env p ≠ .UNKNOWN)
    (hraw : resolveInType env p ≠ .RAW)
    (hlow : p.process_lowmemory = false)
    (hcached : resolveInType env p = .CACHEDMZML →
      ∃ t d, readInput env p .CACHEDMZML .CSV = .loaded t d) :
    (((main_ env p).outcome = .returned .INCOMPATIBLE_INPUT_DATA ∧
        ∀ e ∈ (main_ env p).trace, e.isWrite = false) ↔
      resolveInType env p ≠ .CONSENSUSXML) ∧
    (resolveInType env p = .EDTA →
      (main_ env p).outcome = .returned .INCOMPATIBLE_INPUT_DATA) ∧
    (resolveInType env p = .CONSENSUSXML →
      (main_ env p).outcome = .returned .EXECUTION_OK ∧
      Event.store .IBSpectraFile p.out (.consensusMap
        (env.sortConsensusByPosition (env.loadConsensusXML p.in_))) ∈ (main_ env p).trace) := by
  have ho' : resolveOutType env p ≠ .UNKNOWN := by rw [ho]; decide
  have hloaded : ∃ t d, readInput env p (resolveInType env p) .CSV = .loaded t d ∧
      (resolveInType env p = .CONSENSUSXML →
        d.cm = env.sortConsensusByPosition (env.loadConsensusXML p.in_)) := by
    generalize resolveInType env p = it at hunk hraw hcached
    cases it
    case CACHEDMZML =>
      obtain ⟨t, d, h⟩ := hcached rfl
      exact ⟨t, d, h, by intro h; cases h⟩
    case UNKNOWN => exact absurd rfl hunk
    case RAW => exact absurd rfl hraw
    case CONSENSUSXML => exact ⟨_, _, rfl, fun _ => rfl⟩
    case EDTA => exact ⟨_, _, rfl, by intro h; cases h⟩
    case FEATUREXML => exact ⟨_, _, rfl, by intro h; cases h⟩
    case TSV => exact ⟨_, _, rfl, by intro h; cases h⟩
    case PEPLIST => exact ⟨_, _, rfl, by intro h; cases h⟩
    case KROENIK => exact ⟨_, _, rfl, by intro h; cases h⟩
    all_goals
      exact ⟨_, _, readInput_generic env p _ _ (by decide) (by decide) (by decide)
        (by decide) (by decide) hlow, by intro h; cases h⟩
  obtain ⟨t, d, hr, hcm⟩ := hloaded
  have hm := main_of_loaded env p t d hunk ho' (by rw [ho]; exact hr)
  rw [ho] at hm
  have hwo : writeOutput env p (resolveInType env p) .CSV d =
      ⟨.debug .writingOutputFile :: (writeCSV p (resolveInType env p) d.cm).trace,
        (writeCSV p (resolveInType env p) d.cm).outcome⟩ := rfl
  rw [hwo] at hm
  have hbad : resolveInType env p ≠ .CONSENSUSXML →
      (main_ env p).outcome = .returned .INCOMPATIBLE_INPUT_DATA := by
    intro hne
    rw [hm]
    unfold writeCSV
    rw [if_pos hne]
  have hgood : resolveInType env p = .CONSENSUSXML →
      (main_ env p).outcome = .returned .EXECUTION_OK ∧
      Event.store .IBSpectraFile p.out (.consensusMap
        (env.sortConsensusByPosition (env.loadConsensusXML p.in_))) ∈ (main_ env p).trace := by
    intro he
    rw [hm]
    unfold writeCSV
    rw [if_neg (fun h => h he), hcm he]
    exact ⟨rfl, by simp⟩
  refine ⟨⟨?_, ?_⟩, ?_, hgood⟩
  · intro h he
    rw [(hgood he).1] at h
    exact absurd h.1 (by decide)
  · intro hne
    refine ⟨hbad hne, ?_⟩
    rw [hm]
    unfold writeCSV
    rw [if_pos hne]
    intro e he
    simp only [List.mem_append, List.mem_cons, List.mem_singleton, List.not_mem_nil,
      or_false] at he
    rcases he with (he | he) | rfl | rfl
    · exact preamble_noWrite env p e he
    · exact readInput_loaded_noWrite env p _ _ t d hr e he
    · rfl
    · rfl
  · intro he
    exact hbad (by rw [he]; decide)

theorem csv_requires_consensusXML_witness :
    (main_ sampleEnv (sampleParams "a.consensusXML" .CONSENSUSXML "out.csv" "csv")).outcome =
      .returned .EXECUTION_OK :=
  ((csv_requires_consensusXML sampleEnv
    (sampleParams "a.consensusXML" .CONSENSUSXML "out.csv" "csv")
    (by decide) (by decide) (by decide) rfl (fun h => absurd h (by decide))).2.2
    (by decide)).1

/-- C10, counterexample: an edta input is loaded as a consensus map, yet the
conversion to csv returns INCOMPATIBLE_INPUT_DATA and stores nothing. -/
theorem csv_rejects_edta :
    isConsensusKind
      (resolveInType sampleEnv (sampleParams "a.edta" .EDTA "out.csv" "csv")) = true ∧
    (sampleParams "a.edta" .EDTA "out.csv" "csv").process_lowmemory = false ∧
    resolveOutType sampleEnv (sampleParams "a.edta" .EDTA "out.csv" "csv") = .CSV ∧
    readInput sampleEnv (sampleParams "a.edta" .EDTA "out.csv" "csv") .EDTA .CSV =
      .loaded [.load .EDTAFile "a.edta", .log .warnConsensusToPeaks]
        ⟨sampleEnv.set2DDataConsensus MSExperiment.empty sampleConsensusMap,
          FeatureMap.empty, sampleConsensusMap, 0⟩ ∧
    (main_ sampleEnv (sampleParams "a.edta" .EDTA "out.csv" "csv")).outcome =
      .returned .INCOMPATIBLE_INPUT_DATA ∧
    ∀ e ∈ (main_ sampleEnv (sampleParams "a.edta" .EDTA "out.csv" "csv")).trace,
      e.isWrite = false := by
  decide

end OpenMS

namespace OpenMS

/-! ### Identifier post-processing -/

theorem readInput_featureKind (env : Env) (p : Params) (it ot : FileType)
    (hkind : isFeatureKind it = true) :
    readInput env p it ot = readFeatures env p it ot := by
  cases it <;> first | rfl | exact absurd hkind (by decide)

theorem readInput_consensusKind (env : Env) (p : Params) (it ot : FileType)
    (hkind : isConsensusKind it = true) :
    readInput env p it ot =
      readConsensus env p ot (if it = .CONSENSUSXML then .ConsensusXMLFile else .EDTAFile)
        (if it = .CONSENSUSXML then env.loadConsensusXML p.in_ else env.loadEDTA p.in_) := by
  cases it <;> first | rfl | exact absurd hkind (by decide)

theorem isFeatureKind_iff (it : FileType) :
    isFeatureKind it = true ↔
      (it = .FEATUREXML ∨ it = .TSV ∨ it = .PEPLIST ∨ it = .KROENIK) := by
  cases it <;> simp [isFeatureKind]

theorem isConsensusKind_iff (it : FileType) :
    isConsensusKind it = true ↔ (it = .CONSENSUSXML ∨ it = .EDTA) := by
  cases it <;> simp [isConsensusKind]

theorem applyToFeatures_length (f : Nat → Nat → Nat × Nat) (l : List Feature) :
    ∀ n, (applyToFeatures f l n).1.length = l.length := by
  induction l with
  | nil => intro n; rfl
  | cons x xs ih => intro n; simp [applyToFeatures, ih]

/-- Entry `i` of the processed list is entry `i` of the input with its
identifier replaced by the result of the update at some state of the
generator. -/
theorem applyToFeatures_getElem (f : Nat → Nat → Nat × Nat) (l : List Feature) :
    ∀ (n i : Nat) (x : Feature), l[i]? = some x →
      ∃ k, (applyToFeatures f l n).1[i]? = some { x with uniqueId := (f x.uniqueId k).1 } := by
  induction l with
  | nil => intro n i x h; simp at h
  | cons y ys ih =>
    intro n i x h
    cases i with
    | zero =>
      simp only [List.getElem?_cons_zero, Option.some.injEq] at h
      subst h
      exact ⟨n, by simp [applyToFeatures]⟩
    | succ j =>
      simp only [List.getElem?_cons_succ] at h
      obtain ⟨k, hk⟩ := ih (f y.uniqueId n).2 j x h
      exact ⟨k, by simpa [applyToFeatures] using hk⟩

/-- Under `setUniqueId` entry `i` receives the value the generator hands out at
draw `n + i`. -/
theorem applyToFeatures_setUniqueId (env : Env) (l : List Feature) :
    ∀ (n i : Nat) (x : Feature), l[i]? = some x →
      (applyToFeatures (setUniqueId env) l n).1[i]? =
        some { x with uniqueId := env.uniqueId (n + i) } := by
  induction l with
  | nil => intro n i x h; simp at h
  | cons y ys ih =>
    intro n i x h
    cases i with
    | zero =>
      simp only [List.getElem?_cons_zero, Option.some.injEq] at h
      subst h
      simp [applyToFeatures, setUniqueId]
    | succ j =>
      simp only [List.getElem?_cons_succ] at h
      have := ih (n + 1) j x h
      simp only [applyToFeatures, setUniqueId, List.getElem?_cons_succ]
      rw [this, Nat.add_assoc, Nat.add_comm 1 j]

theorem ensureUniqueId_valid (env : Env) (u k : Nat) (h : isValidUniqueId u = true) :
    (ensureUniqueId env u k).1 = u := by
  unfold ensureUniqueId
  rw [if_pos h]

theorem ensureUniqueId_isValid (env : Env) (u k : Nat)
    (hgen : ∀ n, isValidUniqueId (env.uniqueId n) = true) :
    isValidUniqueId (ensureUniqueId env u k).1 = true := by
  unfold ensureUniqueId
  split_ifs with h
  · exact h
  · exact hgen k

theorem uidPostprocess_ensure (env : Env) (p : Params) (fm : FeatureMap) (n : Nat)
    (h : p.UID_postprocessing = "ensure") :
    uidPostprocess env p fm n = applyMemberFunction (ensureUniqueId env) fm n := by
  unfold uidPostprocess
  rw [if_pos h]

theorem uidPostprocess_reassign (env : Env) (p : Params) (fm : FeatureMap) (n : Nat)
    (h : p.UID_postprocessing = "reassign") :
    uidPostprocess env p fm n = applyMemberFunction (setUniqueId env) fm n := by
  unfold uidPostprocess
  rw [if_neg (by rw [h]; decide), if_pos h]

theorem uidPostprocess_none (env : Env) (p : Params) (fm : FeatureMap) (n : Nat)
    (h : p.UID_postprocessing = "none") :
    uidPostprocess env p fm n = (fm, n) := by
  unfold uidPostprocess
  rw [if_neg (by rw [h]; decide), if_neg (by rw [h]; decide)]

theorem uidPostprocess_length (env : Env) (p : Params) (fm : FeatureMap) (n : Nat) :
    (uidPostprocess env p fm n).1.features.length = fm.features.length := by
  unfold uidPostprocess applyMemberFunction
  split_ifs <;> simp [applyToFeatures_length]

theorem writeOutput_FEATUREXML (env : Env) (p : Params) (it : FileType) (d : Data) :
    writeOutput env p it .FEATUREXML d =
      ⟨.debug .writingOutputFile :: (writeFeatureXML env p it d).trace,
        (writeFeatureXML env p it d).outcome⟩ := rfl

theorem writeOutput_CONSENSUSXML (env : Env) (p : Params) (it : FileType) (d : Data) :
    writeOutput env p it .CONSENSUSXML d =
      ⟨.debug .writingOutputFile :: (writeConsensusXML env p it d).trace,
        (writeConsensusXML env p it d).outcome⟩ := rfl

theorem writeFeatureXML_featureKind (env : Env) (p : Params) (it : FileType) (d : Data)
    (hkind : isFeatureKind it = true) :
    writeFeatureXML env p it d =
      ⟨[.store .FeatureXMLFile p.out (.featureMap (addDataProcessingFM
          (uidPostprocess env p d.fm d.idsDrawn).1
          (env.getProcessingInfo .FORMAT_CONVERSION)))], .returned .EXECUTION_OK⟩ := by
  unfold writeFeatureXML
  rw [if_pos ((isFeatureKind_iff it).mp hkind)]
  rfl

/-- A feature-kind input written as featureXML: the sorted loaded map goes
through the identifier post-processing, receives the provenance entry and is
stored. -/
theorem main_features_to_featureXML (env : Env) (p : Params)
    (hin : isFeatureKind (resolveInType env p) = true)
    (hout : resolveOutType env p = .FEATUREXML) :
    main_ env p =
      ⟨preamble env p ++
        [.load (.loadFeatures (resolveInType env p)) p.in_, .debug .writingOutputFile,
         .store .FeatureXMLFile p.out (.featureMap (addDataProcessingFM
            (uidPostprocess env p (env.sortFeaturesByPosition
              (env.loadFeatures p.in_ (resolveInType env p))) 0).1
            (env.getProcessingInfo .FORMAT_CONVERSION)))],
       .returned .EXECUTION_OK⟩ := by
  have hi : resolveInType env p ≠ .UNKNOWN := by
    intro h; rw [h] at hin; exact absurd hin (by decide)
  have ho : resolveOutType env p ≠ .UNKNOWN := by rw [hout]; decide
  have hr := readInput_featureKind env p (resolveInType env p) (resolveOutType env p) hin
  rw [readFeatures_map env p _ _ (Or.inl hout)] at hr
  rw [main_of_loaded env p _ _ hi ho hr, hout, writeOutput_FEATUREXML,
    writeFeatureXML_featureKind env p _ _ hin]
  simp

theorem applyToFeatures_ensure_valid (env : Env)
    (hgen : ∀ n, isValidUniqueId (env.uniqueId n) = true) (l : List Feature) :
    ∀ n, ∀ g ∈ (applyToFeatures (ensureUniqueId env) l n).1,
      isValidUniqueId g.uniqueId = true := by
  induction l with
  | nil => intro n g hg; simp [applyToFeatures] at hg
  | cons x xs ih =>
    intro n g hg
    simp only [applyToFeatures, List.mem_cons] at hg
    rcases hg with rfl | hg
    · exact ensureUniqueId_isValid env _ _ hgen
    · exact ih _ g hg

theorem applyToFeatures_mem (f : Nat → Nat → Nat × Nat) (l : List Feature) (n : Nat)
    (x : Feature) (hx : x ∈ l) :
    ∃ k, { x with uniqueId := (f x.uniqueId k).1 } ∈ (applyToFeatures f l n).1 := by
  obtain ⟨i, hi⟩ := List.mem_iff_getElem?.mp hx
  obtain ⟨k, hk⟩ := applyToFeatures_getElem f l n i x hi
  exact ⟨k, List.mem_iff_getElem?.mpr ⟨i, hk⟩⟩

/-- The positional sort of the specification only rearranges the entries. -/
theorem sortByPosition_perm (fm : FeatureMap) :
    (sortByPosition fm).features.Perm fm.features :=
  List.perm_insertionSort _ _

/-- C11: for a feature-kind input written as featureXML, with a positional
sort that only rearranges the entries and a generator that hands out valid
identifiers, `main_` stores a map with as many entries as the loaded map, in
the order of the loaded map after the positional sort. Under `ensure` entry
`i` of the stored map is entry `i` of the sorted map apart from the identifier,
unchanged if its identifier was valid and with a valid identifier otherwise;
so every loaded entry with a valid identifier is among the stored entries as it
was loaded, every loaded entry with an invalid identifier is among them with a
valid identifier, and no stored entry has an invalid identifier. Under `none`
the stored entries are the sorted entries, a rearrangement of the loaded
entries with every identifier as loaded. -/
theorem featureXML_uid_ensure_and_none (env : Env) (p : Params) (loaded sorted : FeatureMap)
    (hin : isFeatureKind (resolveInType env p) = true)
    (hout : resolveOutType env p = .FEATUREXML)
    (hload : env.loadFeatures p.in_ (resolveInType env p) = loaded)
    (hsorted : env.sortFeaturesByPosition loaded = sorted)
    (hperm : sorted.features.Perm loaded.features)
    (hgen : ∀ n, isValidUniqueId (env.uniqueId n) = true) :
    ∃ stored : FeatureMap,
      main_ env p =
        ⟨preamble env p ++
          [.load (.loadFeatures (resolveInType env p)) p.in_, .debug .writingOutputFile,
           .store .FeatureXMLFile p.out (.featureMap stored)],
         .returned .EXECUTION_OK⟩ ∧
      stored.features.length = loaded.features.length ∧
      (p.UID_postprocessing = "ensure" →
        (∀ (i : Nat) (f : Feature), sorted.features[i]? = some f →
          ∃ g : Feature, stored.features[i]? = some g ∧
            g = { f with uniqueId := g.uniqueId } ∧
            (isValidUniqueId f.uniqueId = true → g = f) ∧
            isValidUniqueId g.uniqueId = true) ∧
        (∀ f ∈ loaded.features, isValidUniqueId f.uniqueId = true → f ∈ stored.features) ∧
        (∀ f ∈ loaded.features, isValidUniqueId f.uniqueId = false →
          ∃ g ∈ stored.features, g = { f with uniqueId := g.uniqueId } ∧
            isValidUniqueId g.uniqueId = true) ∧
        (∀ g ∈ stored.features, isValidUniqueId g.uniqueId = true)) ∧
      (p.UID_postprocessing = "none" →
        stored.features = sorted.features ∧ stored.features.Perm loaded.features) := by
  subst hload hsorted
  refine ⟨_, main_features_to_featureXML env p hin hout, ?_, ?_, ?_⟩
  · simp [addDataProcessingFM, uidPostprocess_length, hperm.length_eq]
  · intro hens
    rw [uidPostprocess_ensure env p _ _ hens]
    refine ⟨?_, ?_, ?_, ?_⟩
    · intro i f hf
      obtain ⟨k, hk⟩ := applyToFeatures_getElem (ensureUniqueId env) _
        (ensureUniqueId env (env.sortFeaturesByPosition
          (env.loadFeatures p.in_ (resolveInType env p))).uniqueId 0).2 i f hf
      refine ⟨_, hk, rfl, ?_, ensureUniqueId_isValid env _ _ hgen⟩
      intro hv
      rw [ensureUniqueId_valid env _ _ hv]
    · intro f hf hv
      obtain ⟨k, hk⟩ := applyToFeatures_mem (ensureUniqueId env) _
        (ensureUniqueId env (env.sortFeaturesByPosition
          (env.loadFeatures p.in_ (resolveInType env p))).uniqueId 0).2 f (hperm.mem_iff.mpr hf)
      rw [ensureUniqueId_valid env _ _ hv] at hk
      exact hk
    · intro f hf _
      obtain ⟨k, hk⟩ := applyToFeatures_mem (ensureUniqueId env) _
        (ensureUniqueId env (env.sortFeaturesByPosition
          (env.loadFeatures p.in_ (resolveInType env p))).uniqueId 0).2 f (hperm.mem_iff.mpr hf)
      exact ⟨_, hk, rfl, ensureUniqueId_isValid env _ _ hgen⟩
    · exact applyToFeatures_ensure_valid env hgen _ _
  · intro hnone
    rw [uidPostprocess_none env p _ _ hnone]
    exact ⟨rfl, hperm⟩

theorem featureXML_uid_ensure_and_none_witness :
    ∃ stored : FeatureMap,
      main_ sortingEnv (sampleParams "a.featureXML" .FEATUREXML "b.featureXML" "featureXML") =
        ⟨[.debug (.outputFileType .FEATUREXML), .debug .loadingInputFile,
          .load (.loadFeatures .FEATUREXML) "a.featureXML", .debug .writingOutputFile,
          .store .FeatureXMLFile "b.featureXML" (.featureMap stored)],
         .returned .EXECUTION_OK⟩ ∧
      stored.features.length = 2 ∧
      (⟨20, 200, 6, 0, 0, 0, 43, 0⟩ : Feature) ∈ stored.features ∧
      (∃ g ∈ stored.features, g = { (⟨10, 100, 5, 0, 0, 0, 0, 0⟩ : Feature) with
          uniqueId := g.uniqueId } ∧ isValidUniqueId g.uniqueId = true) ∧
      (∀ g ∈ stored.features, isValidUniqueId g.uniqueId = true) :=
  let ⟨s, h1, h2, h3, _⟩ := featureXML_uid_ensure_and_none sortingEnv
    (sampleParams "a.featureXML" .FEATUREXML "b.featureXML" "featureXML")
    unsortedFeatureMap (sortByPosition unsortedFeatureMap)
    (by decide) (by decide) rfl rfl (by decide)
    (fun n => by simp [sortingEnv, sampleEnv, isValidUniqueId])
  ⟨s, h1, h2, (h3 rfl).2.1 _ (by decide) (by decide),
    (h3 rfl).2.2.1 _ (by decide) (by decide), (h3 rfl).2.2.2⟩

/-- C11: a featureXML file whose two entries are not in positional order is
stored, under `ensure` and under `none`, with its entries in the other order:
the positional sort that follows the load changes the order of the entries. -/
theorem featureXML_entry_order_changed_by_sort :
    (sortingEnv.loadFeatures "a.featureXML" .FEATUREXML).features =
      [⟨20, 200, 6, 0, 0, 0, 43, 0⟩, ⟨10, 100, 5, 0, 0, 0, 0, 0⟩] ∧
    main_ sortingEnv (sampleParams "a.featureXML" .FEATUREXML "b.featureXML" "featureXML") =
      ⟨[.debug (.outputFileType .FEATUREXML), .debug .loadingInputFile,
        .load (.loadFeatures .FEATUREXML) "a.featureXML", .debug .writingOutputFile,
        .store .FeatureXMLFile "b.featureXML" (.featureMap
          ⟨[⟨10, 100, 5, 0, 0, 0, 1, 0⟩, ⟨20, 200, 6, 0, 0, 0, 43, 0⟩], 8,
            [⟨.FORMAT_CONVERSION, 0⟩], 0, 0⟩)],
       .returned .EXECUTION_OK⟩ ∧
    main_ sortingEnv
        { sampleParams "a.featureXML" .FEATUREXML "b.featureXML" "featureXML" with
          UID_postprocessing := "none" } =
      ⟨[.debug (.outputFileType .FEATUREXML), .debug .loadingInputFile,
        .load (.loadFeatures .FEATUREXML) "a.featureXML", .debug .writingOutputFile,
        .store .FeatureXMLFile "b.featureXML" (.featureMap
          ⟨[⟨10, 100, 5, 0, 0, 0, 0, 0⟩, ⟨20, 200, 6, 0, 0, 0, 43, 0⟩], 8,
            [⟨.FORMAT_CONVERSION, 0⟩], 0, 0⟩)],
       .returned .EXECUTION_OK⟩ := by
  decide

/-- The invocation does not depend on the identifier post-processing mode
unless a feature-kind input is written as featureXML or consensusXML. -/
theorem main_uid_mode_irrelevant (env : Env) (p : Params) (m : String)
    (h : ¬ (isFeatureKind (resolveInType env p) = true ∧
      (resolveOutType env p = .FEATUREXML ∨ resolveOutType env p = .CONSENSUSXML))) :
    main_ env { p with UID_postprocessing := m } = main_ env p := by
  have h1 : resolveInType env { p with UID_postprocessing := m } = resolveInType env p := rfl
  have h2 : resolveOutType env { p with UID_postprocessing := m } = resolveOutType env p := rfl
  have h3 : inputTypeDebug env { p with UID_postprocessing := m } = inputTypeDebug env p := rfl
  have h4 : preamble env { p with UID_postprocessing := m } = preamble env p := rfl
  have h5 : ∀ it ot, readInput env { p with UID_postprocessing := m } it ot =
      readInput env p it ot := fun _ _ => rfl
  have h6 : ∀ d, writeOutput env { p with UID_postprocessing := m } (resolveInType env p)
      (resolveOutType env p) d =
      writeOutput env p (resolveInType env p) (resolveOutType env p) d := by
    intro d
    generalize resolveInType env p = it at h
    generalize resolveOutType env p = ot at h
    cases ot
    case FEATUREXML =>
      cases it <;> first | rfl | exact absurd ⟨rfl, Or.inl rfl⟩ h
    case CONSENSUSXML =>
      cases it <;> first | rfl | exact absurd ⟨rfl, Or.inr rfl⟩ h
    all_goals rfl
  unfold main_
  simp only [h1, h2, h3, h4, h5]
  split_ifs
  · rfl
  · rfl
  · cases readInput env p (resolveInType env p) (resolveOutType env p) with
    | done r => rfl
    | loaded t d => simp only [h6]

end OpenMS

namespace OpenMS

theorem writeConsensusXML_featureKind (env : Env) (p : Params) (it : FileType) (d : Data)
    (hkind : isFeatureKind it = true) :
    writeConsensusXML env p it d =
      ⟨[.store .ConsensusXMLFile p.out (.consensusMap (addDataProcessingCM
          (setMapIndexZero (env.convertFeaturesToConsensus 0
            (uidPostprocess env p d.fm d.idsDrawn).1 d.cm))
          (env.getProcessingInfo .FORMAT_CONVERSION)))], .returned .EXECUTION_OK⟩ := by
  unfold writeConsensusXML
  rw [if_pos ((isFeatureKind_iff it).mp hkind)]

theorem writeConsensusXML_consensusKind (env : Env) (p : Params) (it : FileType) (d : Data)
    (hkind : isConsensusKind it = true) :
    writeConsensusXML env p it d =
      ⟨[.store .ConsensusXMLFile p.out (.consensusMap (addDataProcessingCM
          (setMapIndexZero d.cm) (env.getProcessingInfo .FORMAT_CONVERSION)))],
        .returned .EXECUTION_OK⟩ := by
  cases it <;> first | rfl | exact absurd hkind (by decide)

/-- A feature-kind input written as consensusXML: the sorted loaded map goes
through the identifier post-processing and is then converted. -/
theorem main_features_to_consensusXML (env : Env) (p : Params)
    (hin : isFeatureKind (resolveInType env p) = true)
    (hout : resolveOutType env p = .CONSENSUSXML) :
    main_ env p =
      ⟨preamble env p ++
        [.load (.loadFeatures (resolveInType env p)) p.in_, .debug .writingOutputFile,
         .store .ConsensusXMLFile p.out (.consensusMap (addDataProcessingCM
            (setMapIndexZero (env.convertFeaturesToConsensus 0
              (uidPostprocess env p (env.sortFeaturesByPosition
                (env.loadFeatures p.in_ (resolveInType env p))) 0).1 ConsensusMap.empty))
            (env.getProcessingInfo .FORMAT_CONVERSION)))],
       .returned .EXECUTION_OK⟩ := by
  have hi : resolveInType env p ≠ .UNKNOWN := by
    intro h; rw [h] at hin; exact absurd hin (by decide)
  have ho : resolveOutType env p ≠ .UNKNOWN := by rw [hout]; decide
  have hr := readInput_featureKind env p (resolveInType env p) (resolveOutType env p) hin
  rw [readFeatures_map env p _ _ (Or.inr hout)] at hr
  rw [main_of_loaded env p _ _ hi ho hr, hout, writeOutput_CONSENSUSXML,
    writeConsensusXML_featureKind env p _ _ hin]
  simp

/-- A consensus-kind input written as consensusXML: the sorted loaded map is
stored with the map index of its unassigned peptide identifications set to 0
and the provenance entry appended; its entries are not touched. -/
theorem main_consensus_to_consensusXML (env : Env) (p : Params)
    (hin : isConsensusKind (resolveInType env p) = true)
    (hout : resolveOutType env p = .CONSENSUSXML) :
    main_ env p =
      ⟨preamble env p ++
        [.load (if resolveInType env p = .CONSENSUSXML then .ConsensusXMLFile else .EDTAFile)
           p.in_, .debug .writingOutputFile,
         .store .ConsensusXMLFile p.out (.consensusMap (addDataProcessingCM
            (setMapIndexZero (env.sortConsensusByPosition
              (if resolveInType env p = .CONSENSUSXML then env.loadConsensusXML p.in_
               else env.loadEDTA p.in_)))
            (env.getProcessingInfo .FORMAT_CONVERSION)))],
       .returned .EXECUTION_OK⟩ := by
  have hi : resolveInType env p ≠ .UNKNOWN := by
    intro h; rw [h] at hin; exact absurd hin (by decide)
  have ho : resolveOutType env p ≠ .UNKNOWN := by rw [hout]; decide
  have hr := readInput_consensusKind env p (resolveInType env p) (resolveOutType env p) hin
  rw [readConsensus_map env p _ _ _ (Or.inr hout)] at hr
  rw [main_of_loaded env p _ _ hi ho hr, hout, writeOutput_CONSENSUSXML,
    writeConsensusXML_consensusKind env p _ _ hin]
  simp

/-- C12 (amended): the identifier post-processing mode is applied only when a
feature-kind input is written as featureXML or consensusXML: then every entry
of the sorted loaded feature map is processed before the store (featureXML) or
before the conversion to a consensus map (consensusXML); under `ensure` no
processed entry has an invalid identifier (the generator handing out valid
ones) and under `reassign` entry `i` carries the value drawn at position
`i + 1`. For every other conversion the invocation is the same whatever the
mode; a consensus-kind input written as consensusXML is stored with the
identifiers of its entries as loaded. -/
theorem uid_mode_applied_to_feature_input (env : Env) (p : Params) :
    (isFeatureKind (resolveInType env p) = true →
      (resolveOutType env p = .FEATUREXML →
        main_ env p =
          ⟨preamble env p ++
            [.load (.loadFeatures (resolveInType env p)) p.in_, .debug .writingOutputFile,
             .store .FeatureXMLFile p.out (.featureMap (addDataProcessingFM
                (uidPostprocess env p (env.sortFeaturesByPosition
                  (env.loadFeatures p.in_ (resolveInType env p))) 0).1
                (env.getProcessingInfo .FORMAT_CONVERSION)))],
           .returned .EXECUTION_OK⟩) ∧
      (resolveOutType env p = .CONSENSUSXML →
        main_ env p =
          ⟨preamble env p ++
            [.load (.loadFeatures (resolveInType env p)) p.in_, .debug .writingOutputFile,
             .store .ConsensusXMLFile p.out (.consensusMap (addDataProcessingCM
                (setMapIndexZero (env.convertFeaturesToConsensus 0
                  (uidPostprocess env p (env.sortFeaturesByPosition
                    (env.loadFeatures p.in_ (resolveInType env p))) 0).1 ConsensusMap.empty))
                (env.getProcessingInfo .FORMAT_CONVERSION)))],
           .returned .EXECUTION_OK⟩) ∧
      (p.UID_postprocessing = "ensure" → (∀ n, isValidUniqueId (env.uniqueId n) = true) →
        ∀ g ∈ (uidPostprocess env p (env.sortFeaturesByPosition
            (env.loadFeatures p.in_ (resolveInType env p))) 0).1.features,
          isValidUniqueId g.uniqueId = true) ∧
      (p.UID_postprocessing = "reassign" →
        ∀ (i : Nat) (f : Feature),
          (env.sortFeaturesByPosition
            (env.loadFeatures p.in_ (resolveInType env p))).features[i]? = some f →
          (uidPostprocess env p (env.sortFeaturesByPosition
            (env.loadFeatures p.in_ (resolveInType env p))) 0).1.features[i]? =
            some { f with uniqueId := env.uniqueId (i + 1) })) ∧
    (¬ (isFeatureKind (resolveInType env p) = true ∧
        (resolveOutType env p = .FEATUREXML ∨ resolveOutType env p = .CONSENSUSXML)) →
      ∀ m : String, main_ env { p with UID_postprocessing := m } = main_ env p) ∧
    (isConsensusKind (resolveInType env p) = true → resolveOutType env p = .CONSENSUSXML →
      main_ env p =
        ⟨preamble env p ++
          [.load (if resolveInType env p = .CONSENSUSXML then .ConsensusXMLFile
              else .EDTAFile) p.in_, .debug .writingOutputFile,
           .store .ConsensusXMLFile p.out (.consensusMap (addDataProcessingCM
              (setMapIndexZero (env.sortConsensusByPosition
                (if resolveInType env p = .CONSENSUSXML then env.loadConsensusXML p.in_
                 else env.loadEDTA p.in_)))
              (env.getProcessingInfo .FORMAT_CONVERSION)))],
         .returned .EXECUTION_OK⟩) := by
  refine ⟨?_, ?_, ?_⟩
  · intro hin
    refine ⟨main_features_to_featureXML env p hin, main_features_to_consensusXML env p hin,
      ?_, ?_⟩
    · intro hens hgen g hg
      rw [uidPostprocess_ensure env p _ _ hens] at hg
      exact applyToFeatures_ensure_valid env hgen _ _ g hg
    · intro hre i f hf
      rw [uidPostprocess_reassign env p _ _ hre]
      have := applyToFeatures_setUniqueId env _ 1 i f hf
      rw [Nat.add_comm 1 i] at this
      exact this
  · intro h m
    exact main_uid_mode_irrelevant env p m h
  · intro hin hout
    exact main_consensus_to_consensusXML env p hin hout

theorem uid_mode_applied_to_feature_input_witness :
    main_ invalidIdEnv
      (sampleParams "a.featureXML" .FEATUREXML "b.featureXML" "featureXML") =
      ⟨[.debug (.outputFileType .FEATUREXML), .debug .loadingInputFile,
        .load (.loadFeatures .FEATUREXML) "a.featureXML", .debug .writingOutputFile,
        .store .FeatureXMLFile "b.featureXML" (.featureMap
          ⟨[⟨10, 100, 5, 0, 0, 0, 1, 0⟩, ⟨20, 200, 6, 0, 0, 0, 43, 0⟩], 8,
            [⟨.FORMAT_CONVERSION, 0⟩], 0, 0⟩)],
       .returned .EXECUTION_OK⟩ :=
  ((uid_mode_applied_to_feature_input invalidIdEnv
    (sampleParams "a.featureXML" .FEATUREXML "b.featureXML" "featureXML")).1
    (by decide)).1 (by decide)

/-- C12, counterexample: a consensusXML input whose entry has an invalid
identifier is written to consensusXML with that identifier still invalid under
`ensure` and not regenerated under `reassign`; a featureXML input written to
edta under `ensure` keeps the invalid identifier of its first entry. -/
theorem uid_mode_not_applied_to_consensus_input :
    (sampleParams "a.consensusXML" .CONSENSUSXML "b.consensusXML"
      "consensusXML").UID_postprocessing = "ensure" ∧
    isValidUniqueId 0 = false ∧
    main_ invalidIdEnv
      (sampleParams "a.consensusXML" .CONSENSUSXML "b.consensusXML" "consensusXML") =
      ⟨[.debug (.outputFileType .CONSENSUSXML), .debug .loadingInputFile,
        .load .ConsensusXMLFile "a.consensusXML", .debug .writingOutputFile,
        .store .ConsensusXMLFile "b.consensusXML" (.consensusMap
          ⟨[⟨10, 100, 5, 0, 0⟩], 9, [], [⟨.FORMAT_CONVERSION, 0⟩], 0⟩)],
       .returned .EXECUTION_OK⟩ ∧
    main_ invalidIdEnv
      { sampleParams "a.consensusXML" .CONSENSUSXML "b.consensusXML" "consensusXML" with
        UID_postprocessing := "reassign" } =
      ⟨[.debug (.outputFileType .CONSENSUSXML), .debug .loadingInputFile,
        .load .ConsensusXMLFile "a.consensusXML", .debug .writingOutputFile,
        .store .ConsensusXMLFile "b.consensusXML" (.consensusMap
          ⟨[⟨10, 100, 5, 0, 0⟩], 9, [], [⟨.FORMAT_CONVERSION, 0⟩], 0⟩)],
       .returned .EXECUTION_OK⟩ ∧
    main_ invalidIdEnv (sampleParams "a.featureXML" .FEATUREXML "b.edta" "edta") =
      ⟨[.debug (.outputFileType .EDTA), .debug .loadingInputFile,
        .load (.loadFeatures .FEATUREXML) "a.featureXML", .log .warnFeaturesToPeaks,
        .debug .writingOutputFile,
        .store .EDTAFile "b.edta" (.featureMap mixedIdFeatureMap)],
       .returned .EXECUTION_OK⟩ := by
  decide

end OpenMS

namespace OpenMS

/-! ### Peaks to features -/

theorem peakLoop_eq (env : Env) (f : Feature) (n : Nat) (acc : List Feature) (pk : Peak1D)
    (hf : Feature.defaulted env f) :
    peakLoop env (f, n, acc) pk =
      (featureOfPeak env f.rt pk (env.uniqueId n), n + 1,
        acc ++ [featureOfPeak env f.rt pk (env.uniqueId n)]) := by
  obtain ⟨h0, h1, h2, h3⟩ := hf
  cases f
  simp only at h0 h1 h2 h3
  subst h0 h1 h2 h3
  rfl

theorem featureOfPeak_defaulted (env : Env) (rt : Rat) (pk : Peak1D) (uid : Nat) :
    Feature.defaulted env (featureOfPeak env rt pk uid) ∧
      (featureOfPeak env rt pk uid).rt = rt :=
  ⟨⟨rfl, rfl, rfl, rfl⟩, rfl⟩

theorem peakLoop_foldl (env : Env) (peaks : List Peak1D) :
    ∀ (f : Feature) (n : Nat) (acc : List Feature), Feature.defaulted env f →
      ∃ f', peaks.foldl (peakLoop env) (f, n, acc) =
          (f', n + peaks.length,
            acc ++ (List.enumFrom n (peaks.map (fun pk => (f.rt, pk)))).map
              (fun x => featureOfPeak env x.2.1 x.2.2 (env.uniqueId x.1))) ∧
        Feature.defaulted env f' := by
  induction peaks with
  | nil => intro f n acc hf; exact ⟨f, by simp, hf⟩
  | cons pk pks ih =>
    intro f n acc hf
    obtain ⟨hd, hrt⟩ := featureOfPeak_defaulted env f.rt pk (env.uniqueId n)
    obtain ⟨f', h1, h2⟩ := ih _ (n + 1) (acc ++ [featureOfPeak env f.rt pk (env.uniqueId n)]) hd
    refine ⟨f', ?_, h2⟩
    rw [List.foldl_cons, peakLoop_eq env f n acc pk hf, h1, hrt]
    simp [List.enumFrom_cons, Nat.add_assoc, Nat.add_comm 1]

theorem spectrumLoop_foldl (env : Env) (spectra : List MSSpectrum) :
    ∀ (f : Feature) (n : Nat) (acc : List Feature), Feature.defaulted env f →
      ∃ f', spectra.foldl (spectrumLoop env) (f, n, acc) =
          (f', n + (peakSequence spectra).length,
            acc ++ featuresOfPeaks env spectra n) ∧
        Feature.defaulted env f' := by
  induction spectra with
  | nil => intro f n acc hf; exact ⟨f, by simp [peakSequence, featuresOfPeaks], hf⟩
  | cons s ss ih =>
    intro f n acc hf
    have hf1 : Feature.defaulted env { f with rt := s.rt } := hf
    obtain ⟨f1, h1, hd1⟩ := peakLoop_foldl env s.peaks { f with rt := s.rt } n acc hf1
    have h1' : spectrumLoop env (f, n, acc) s =
        (f1, n + s.peaks.length,
          acc ++ (List.enumFrom n (s.peaks.map (fun pk => (s.rt, pk)))).map
            (fun x => featureOfPeak env x.2.1 x.2.2 (env.uniqueId x.1))) := h1
    obtain ⟨f', h2, hd2⟩ := ih f1 (n + s.peaks.length)
      (acc ++ (List.enumFrom n (s.peaks.map (fun pk => (s.rt, pk)))).map
        (fun x => featureOfPeak env x.2.1 x.2.2 (env.uniqueId x.1))) hd1
    refine ⟨f', ?_, hd2⟩
    rw [List.foldl_cons, h1', h2]
    simp [peakSequence, featuresOfPeaks, List.enumFrom_append, Nat.add_assoc]

theorem peaksToFeatures_features (env : Env) (exp : MSExperiment) (n : Nat) :
    (peaksToFeatures env exp n).1 =
      updateRanges env { FeatureMap.empty with
        features := featuresOfPeaks env exp.spectra n } := by
  obtain ⟨f', h, _⟩ := spectrumLoop_foldl env exp.spectra
    { env.newFeature with quality0 := 1, quality1 := 1, overallQuality := 1 } n []
    ⟨rfl, rfl, rfl, rfl⟩
  unfold peaksToFeatures
  simp only [h, List.nil_append]

theorem peakSequence_length (spectra : List MSSpectrum) :
    (peakSequence spectra).length = (spectra.map (fun s => s.peaks.length)).sum := by
  induction spectra with
  | nil => rfl
  | cons s ss ih =>
    have : peakSequence (s :: ss) = s.peaks.map (fun pk => (s.rt, pk)) ++ peakSequence ss := rfl
    rw [this, List.length_append, ih]
    simp

/-- Position of peak `j` of spectrum `i` in the peak sequence. -/
theorem peakSequence_getElem (spectra : List MSSpectrum) :
    ∀ (i j : Nat) (s : MSSpectrum) (pk : Peak1D),
      spectra[i]? = some s → s.peaks[j]? = some pk →
      (peakSequence spectra)[((spectra.take i).map (fun s => s.peaks.length)).sum + j]? =
        some (s.rt, pk) := by
  induction spectra with
  | nil => intro i j s pk h; simp at h
  | cons s0 ss ih =>
    intro i j s pk hi hj
    have hseq : peakSequence (s0 :: ss) =
        s0.peaks.map (fun pk => (s0.rt, pk)) ++ peakSequence ss := rfl
    rw [hseq]
    cases i with
    | zero =>
      simp only [List.getElem?_cons_zero, Option.some.injEq] at hi
      subst hi
      have hlt : j < (s0.peaks.map (fun pk => (s0.rt, pk))).length := by
        rw [List.length_map]
        by_contra hge
        rw [List.getElem?_eq_none (by omega)] at hj
        cases hj
      simp only [List.take_zero, List.map_nil, List.sum_nil, Nat.zero_add]
      rw [List.getElem?_append_left hlt, List.getElem?_map, hj]
      rfl
    | succ k =>
      simp only [List.getElem?_cons_succ] at hi
      have := ih k j s pk hi hj
      simp only [List.take_succ_cons, List.map_cons, List.sum_cons]
      rw [List.getElem?_append_right (by rw [List.length_map]; omega)]
      rw [List.length_map]
      have he : s0.peaks.length + ((ss.take k).map (fun s => s.peaks.length)).sum + j -
          s0.peaks.length = ((ss.take k).map (fun s => s.peaks.length)).sum + j := by omega
      rw [he]
      exact this

theorem featuresOfPeaks_getElem (env : Env) (spectra : List MSSpectrum) (n k : Nat)
    (rt : Rat) (pk : Peak1D) (h : (peakSequence spectra)[k]? = some (rt, pk)) :
    (featuresOfPeaks env spectra n)[k]? =
      some (featureOfPeak env rt pk (env.uniqueId (n + k))) := by
  unfold featuresOfPeaks
  rw [List.getElem?_map, List.getElem?_enumFrom, h]
  rfl

end OpenMS

namespace OpenMS

theorem featuresOfPeaks_length (env : Env) (spectra : List MSSpectrum) (n : Nat) :
    (featuresOfPeaks env spectra n).length = (spectra.map (fun s => s.peaks.length)).sum := by
  unfold featuresOfPeaks
  rw [List.length_map, List.enumFrom_length, peakSequence_length]

theorem featuresOfPeaks_erase_ids (env : Env) (spectra : List MSSpectrum) (n : Nat) :
    (featuresOfPeaks env spectra n).map (fun g => { g with uniqueId := 0 }) =
      (peakSequence spectra).map (fun x => featureOfPeak env x.1 x.2 0) := by
  unfold featuresOfPeaks
  generalize peakSequence spectra = l
  induction l generalizing n with
  | nil => rfl
  | cons x xs ih =>
    simp only [List.enumFrom_cons, List.map_cons]
    rw [ih (n + 1)]
    rfl

theorem writeFeatureXML_peaks (env : Env) (p : Params) (it : FileType) (d : Data)
    (hf : isFeatureKind it = false) (hc : isConsensusKind it = false) (homs : it ≠ .OMS) :
    writeFeatureXML env p it d =
      ⟨[.log .warnPeaksToFeatures,
        .store .FeatureXMLFile p.out (.featureMap (addDataProcessingFM
          (updateRanges env { FeatureMap.empty with
            features := featuresOfPeaks env d.exp.spectra d.idsDrawn })
          (env.getProcessingInfo .FORMAT_CONVERSION)))], .returned .EXECUTION_OK⟩ := by
  have h1 : ¬ (it = .FEATUREXML ∨ it = .TSV ∨ it = .PEPLIST ∨ it = .KROENIK) := by
    rw [← isFeatureKind_iff, hf]; decide
  have h2 : ¬ (it = .CONSENSUSXML ∨ it = .EDTA) := by
    rw [← isConsensusKind_iff, hc]; decide
  unfold writeFeatureXML
  rw [if_neg h1, if_neg h2, if_neg homs, peaksToFeatures_features]
  rfl

/-- C13: when an input that is read as an experiment (not feature-kind,
consensus-kind or oms) is written as featureXML, `main_` warns and stores a
feature map built from scratch with exactly one feature per peak: as many
features as there are peaks, the feature for peak `j` of spectrum `i` at the
position of that peak in spectrum order then peak order, with the retention
time of the spectrum, the m/z and intensity of the peak and the three quality
fields equal to 1; with the identifiers erased the feature list is a function of
the peak sequence alone. -/
theorem peaks_to_features (env : Env) (p : Params) (t : List Event) (d : Data)
    (hf : isFeatureKind (resolveInType env p) = false)
    (hc : isConsensusKind (resolveInType env p) = false)
    (homs : resolveInType env p ≠ .OMS)
    (hi : resolveInType env p ≠ .UNKNOWN)
    (hout : resolveOutType env p = .FEATUREXML)
    (hread : readInput env p (resolveInType env p) .FEATUREXML = .loaded t d) :
    main_ env p =
      ⟨preamble env p ++ t ++
        [.debug .writingOutputFile, .log .warnPeaksToFeatures,
         .store .FeatureXMLFile p.out (.featureMap (addDataProcessingFM
            (updateRanges env { FeatureMap.empty with
              features := featuresOfPeaks env d.exp.spectra d.idsDrawn })
            (env.getProcessingInfo .FORMAT_CONVERSION)))],
       .returned .EXECUTION_OK⟩ ∧
    (featuresOfPeaks env d.exp.spectra d.idsDrawn).length =
      (d.exp.spectra.map (fun s => s.peaks.length)).sum ∧
    (∀ (i j : Nat) (s : MSSpectrum) (pk : Peak1D),
      d.exp.spectra[i]? = some s → s.peaks[j]? = some pk →
      ∃ g : Feature,
        (featuresOfPeaks env d.exp.spectra d.idsDrawn)[
          ((d.exp.spectra.take i).map (fun s => s.peaks.length)).sum + j]? = some g ∧
        g.rt = s.rt ∧ g.mz = pk.mz ∧ g.intensity = pk.intensity ∧
        g.quality0 = 1 ∧ g.quality1 = 1 ∧ g.overallQuality = 1) ∧
    (featuresOfPeaks env d.exp.spectra d.idsDrawn).map (fun g => { g with uniqueId := 0 }) =
      (peakSequence d.exp.spectra).map (fun x => featureOfPeak env x.1 x.2 0) := by
  have ho : resolveOutType env p ≠ .UNKNOWN := by rw [hout]; decide
  refine ⟨?_, featuresOfPeaks_length env _ _, ?_, featuresOfPeaks_erase_ids env _ _⟩
  · rw [main_of_loaded env p t d hi ho (by rw [hout]; exact hread), hout,
      writeOutput_FEATUREXML, writeFeatureXML_peaks env p _ d hf hc homs]
  · intro i j s pk hs hpk
    have hk := peakSequence_getElem d.exp.spectra i j s pk hs hpk
    exact ⟨_, featuresOfPeaks_getElem env _ d.idsDrawn _ _ _ hk, rfl, rfl, rfl, rfl, rfl, rfl⟩

theorem peaks_to_features_witness :
    main_ sampleEnv (sampleParams "a.mzML" .MZML "out.featureXML" "featureXML") =
      ⟨[.debug (.outputFileType .FEATUREXML), .debug .loadingInputFile,
        .load (.loadExperiment .MZML) "a.mzML",
        .debug .writingOutputFile, .log .warnPeaksToFeatures,
        .store .FeatureXMLFile "out.featureXML" (.featureMap
          ⟨[⟨10, 100, 5, 1, 1, 1, 1, 0⟩, ⟨10, 200, 6, 1, 1, 1, 2, 0⟩], 0,
            [⟨.FORMAT_CONVERSION, 0⟩], 2, 0⟩)],
       .returned .EXECUTION_OK⟩ :=
  (peaks_to_features sampleEnv (sampleParams "a.mzML" .MZML "out.featureXML" "featureXML")
    [.load (.loadExperiment .MZML) "a.mzML"]
    ⟨sampleExperiment, FeatureMap.empty, ConsensusMap.empty, 0⟩
    (by decide) (by decide) (by decide) (by decide) (by decide) (by decide)).1

end OpenMS

namespace OpenMS

/-! ### Ion-mobility reshaping -/

theorem writeOutput_MZML (env : Env) (p : Params) (it : FileType) (d : Data) :
    writeOutput env p it .MZML d =
      ⟨.debug .writingOutputFile :: (writeMzML env p d.exp).trace,
        (writeMzML env p d.exp).outcome⟩ := rfl

theorem changeIMFormat_none_iff_error (env : Env) (p : Params) (exp : MSExperiment) :
    changeIMFormat env p exp = none ↔ changeIMFormatError env p exp ≠ none := by
  unfold changeIMFormat changeIMFormatError
  by_cases h1 : p.change_im_format ≠ .NONE
  · rw [if_pos h1, if_pos h1]
    by_cases h2 : env.determineIMFormat exp = .NONE
    · simp [h2]
    · by_cases h3 : p.change_im_format = env.determineIMFormat exp ∧
          env.determineIMFormat exp = .MULTIPLE_SPECTRA
      · simp [h2, h3]
      · by_cases h4 : p.change_im_format = env.determineIMFormat exp ∧
            env.determineIMFormat exp = .CONCATENATED
        · simp only [h2, h3, h4, if_false, if_true]; simp
        · simp only [h2, h3, h4, if_false]
          split_ifs <;> simp
  · rw [if_neg h1, if_neg h1]; simp

theorem writeMzML_threw_iff (env : Env) (p : Params) (exp : MSExperiment) :
    (writeMzML env p exp).outcome = .threw .IllegalArgument ↔
      changeIMFormat env p (mzMLPrepared env p exp) = none := by
  cases hc : changeIMFormat env p (mzMLPrepared env p exp) with
  | none => rw [writeMzML_none env p exp hc]; simp
  | some e => rw [writeMzML_some env p exp e hc]; simp

theorem writeMzML_of_some (env : Env) (p : Params) (exp e : MSExperiment)
    (h : changeIMFormat env p (mzMLPrepared env p exp) = some e) :
    writeMzML env p exp =
      ⟨mzMLOptions env p ++ [.store .MzMLFile p.out (.experiment
          (env.convertSpectraToChromatograms e true p.convert_to_chromatograms))],
        .returned .EXECUTION_OK⟩ :=
  writeMzML_some env p exp e h

theorem writeMzML_of_none (env : Env) (p : Params) (exp : MSExperiment)
    (h : changeIMFormat env p (mzMLPrepared env p exp) = none) :
    writeMzML env p exp = ⟨mzMLOptions env p, .threw .IllegalArgument⟩ :=
  writeMzML_none env p exp h

theorem mzMLOptions_noWrite (env : Env) (p : Params) :
    ∀ e ∈ mzMLOptions env p, e.isWrite = false := by
  intro e he
  unfold mzMLOptions at he
  simp only [List.mem_append, List.mem_cons, List.mem_singleton, List.not_mem_nil,
    or_false] at he
  rcases he with (rfl | rfl) | he
  · rfl
  · rfl
  · exact lossyOptions_noWrite env p .MzMLFile e he

/-- C14: in the mzML output branch, with a requested format `r` among
multiple_spectra and concatenated and a detected format among none,
multiple_spectra and concatenated, `main_` throws IllegalArgument, having
written nothing, if and only if the detected format is none or equals `r`; the
test for none comes first (its rejection is the one thrown when no ion mobility
data is present). Otherwise exactly one reshape is applied to the experiment
before the store: `splitByIonMobility` for multiple_spectra requested on
concatenated data, `collapseFramesToSingle` for concatenated requested on
multiple_spectra data. With no format requested the experiment is stored
without reshape, whatever the detection would answer. -/
theorem im_reshape_decision (env : Env) (p : Params) (t : List Event) (d : Data)
    (hi : resolveInType env p ≠ .UNKNOWN)
    (hout : resolveOutType env p = .MZML)
    (hread : readInput env p (resolveInType env p) .MZML = .loaded t d) :
    (main_ env p).trace =
      preamble env p ++ t ++ .debug .writingOutputFile :: (writeMzML env p d.exp).trace ∧
    (main_ env p).outcome = (writeMzML env p d.exp).outcome ∧
    ((p.change_im_format = .MULTIPLE_SPECTRA ∨ p.change_im_format = .CONCATENATED) →
      (env.determineIMFormat (mzMLPrepared env p d.exp) = .NONE ∨
        env.determineIMFormat (mzMLPrepared env p d.exp) = .MULTIPLE_SPECTRA ∨
        env.determineIMFormat (mzMLPrepared env p d.exp) = .CONCATENATED) →
      ((main_ env p).outcome = .threw .IllegalArgument ↔
        (env.determineIMFormat (mzMLPrepared env p d.exp) = .NONE ∨
          env.determineIMFormat (mzMLPrepared env p d.exp) = p.change_im_format)) ∧
      ((main_ env p).outcome = .threw .IllegalArgument →
        ∀ e ∈ (main_ env p).trace, e.isWrite = false) ∧
      (env.determineIMFormat (mzMLPrepared env p d.exp) = .NONE →
        changeIMFormatError env p (mzMLPrepared env p d.exp) = some .noIonMobilityData) ∧
      (env.determineIMFormat (mzMLPrepared env p d.exp) = p.change_im_format →
        changeIMFormatError env p (mzMLPrepared env p d.exp) =
          some (if p.change_im_format = .MULTIPLE_SPECTRA then .alreadyMultipleSpectra
            else .alreadyConcatenated)) ∧
      (p.change_im_format = .MULTIPLE_SPECTRA →
        env.determineIMFormat (mzMLPrepared env p d.exp) = .CONCATENATED →
        writeMzML env p d.exp =
          ⟨mzMLOptions env p ++ [.store .MzMLFile p.out (.experiment
            (env.convertSpectraToChromatograms
              (env.splitByIonMobility (mzMLPrepared env p d.exp))
              true p.convert_to_chromatograms))], .returned .EXECUTION_OK⟩) ∧
      (p.change_im_format = .CONCATENATED →
        env.determineIMFormat (mzMLPrepared env p d.exp) = .MULTIPLE_SPECTRA →
        writeMzML env p d.exp =
          ⟨mzMLOptions env p ++ [.store .MzMLFile p.out (.experiment
            (env.convertSpectraToChromatograms
              (env.collapseFramesToSingle (mzMLPrepared env p d.exp))
              true p.convert_to_chromatograms))], .returned .EXECUTION_OK⟩)) ∧
    (p.change_im_format = .NONE →
      ∀ detect : MSExperiment → IMFormat,
        writeMzML { env with determineIMFormat := detect } p d.exp =
          ⟨mzMLOptions env p ++ [.store .MzMLFile p.out (.experiment
            (env.convertSpectraToChromatograms (mzMLPrepared env p d.exp)
              true p.convert_to_chromatograms))], .returned .EXECUTION_OK⟩) := by
  have ho : resolveOutType env p ≠ .UNKNOWN := by rw [hout]; decide
  have hm := main_of_loaded env p t d hi ho (by rw [hout]; exact hread)
  rw [hout, writeOutput_MZML] at hm
  have houtcome : (main_ env p).outcome = (writeMzML env p d.exp).outcome := by rw [hm]
  have htrace : (main_ env p).trace =
      preamble env p ++ t ++ .debug .writingOutputFile :: (writeMzML env p d.exp).trace := by
    rw [hm]
  refine ⟨htrace, houtcome, ?_, ?_⟩
  · intro hr hd
    refine ⟨?_, ?_, ?_, ?_, ?_, ?_⟩
    · rw [houtcome, writeMzML_threw_iff]
      unfold changeIMFormat
      rcases hr with hr | hr <;> rcases hd with hd | hd | hd <;> simp [hr, hd]
    · intro hthrew e he
      rw [houtcome, writeMzML_threw_iff] at hthrew
      rw [htrace, writeMzML_of_none env p d.exp hthrew] at he
      simp only [List.mem_append, List.mem_cons] at he
      rcases he with (he | he) | rfl | he
      · exact preamble_noWrite env p e he
      · exact readInput_loaded_noWrite env p _ _ t d hread e he
      · rfl
      · exact mzMLOptions_noWrite env p e he
    · intro hd
      unfold changeIMFormatError
      rcases hr with hr | hr <;> simp [hr, hd]
    · intro hd
      unfold changeIMFormatError
      rcases hr with hr | hr <;> simp [hr, hd]
    · intro hr' hd'
      apply writeMzML_of_some
      unfold changeIMFormat
      simp [hr', hd']
    · intro hr' hd'
      apply writeMzML_of_some
      unfold changeIMFormat
      simp [hr', hd']
  · intro hnone detect
    have h : changeIMFormat { env with determineIMFormat := detect } p
        (mzMLPrepared { env with determineIMFormat := detect } p d.exp) =
        some (mzMLPrepared env p d.exp) := by
      unfold changeIMFormat
      rw [if_neg (by rw [hnone]; decide)]
      rfl
    exact writeMzML_of_some { env with determineIMFormat := detect } p d.exp _ h

theorem im_reshape_decision_witness :
    main_ concatenatedEnv
      { sampleParams "a.mzML" .MZML "out.mzML" "mzML" with
        change_im_format := .MULTIPLE_SPECTRA } =
      ⟨[.debug (.outputFileType .MZML), .debug .loadingInputFile,
        .load (.loadExperiment .MZML) "a.mzML", .debug .writingOutputFile,
        .setOption .MzMLFile (.setWriteIndex true),
        .setOption .MzMLFile (.setForceTPPCompatability false),
        .store .MzMLFile "out.mzML" (.experiment
          { sampleExperiment with dataProcessing := [⟨.CONVERSION_MZML, 0⟩], info := 101 })],
       .returned .EXECUTION_OK⟩ ∧
    ((main_ concatenatedEnv
      { sampleParams "a.mzML" .MZML "out.mzML" "mzML" with
        change_im_format := .CONCATENATED }).outcome = .threw .IllegalArgument ↔
      (concatenatedEnv.determineIMFormat (mzMLPrepared concatenatedEnv
          { sampleParams "a.mzML" .MZML "out.mzML" "mzML" with
            change_im_format := .CONCATENATED } sampleExperiment) = .NONE ∨
        concatenatedEnv.determineIMFormat (mzMLPrepared concatenatedEnv
          { sampleParams "a.mzML" .MZML "out.mzML" "mzML" with
            change_im_format := .CONCATENATED } sampleExperiment) = .CONCATENATED)) :=
  ⟨by decide,
   ((im_reshape_decision concatenatedEnv
      { sampleParams "a.mzML" .MZML "out.mzML" "mzML" with change_im_format := .CONCATENATED }
      [.load (.loadExperiment .MZML) "a.mzML"]
      ⟨sampleExperiment, FeatureMap.empty, ConsensusMap.empty, 0⟩
      (by decide) (by decide) (by decide)).2.2.1 (Or.inr rfl) (Or.inr (Or.inr rfl))).1⟩

end OpenMS

namespace OpenMS

theorem readInput_im_irrelevant (env : Env) (p : Params) (r : IMFormat) (it ot : FileType)
    (hlow : p.process_lowmemory = false) :
    readInput env { p with change_im_format := r } it ot = readInput env p it ot := by
  have h : ({ p with change_im_format := r } : Params).process_lowmemory = false := hlow
  unfold readInput
  simp only [h, hlow, Bool.false_eq_true, if_false]
  rfl

theorem writeOutput_im_irrelevant (env : Env) (p : Params) (r : IMFormat) (it ot : FileType)
    (d : Data) (hot : ot ≠ .MZML) :
    writeOutput env { p with change_im_format := r } it ot d = writeOutput env p it ot d := by
  cases ot <;> first | rfl | exact absurd rfl hot

/-- Outside the mzML output branch and the streaming branch the requested
ion-mobility format plays no part. -/
theorem main_im_irrelevant (env : Env) (p : Params) (r : IMFormat)
    (hot : resolveOutType env p ≠ .MZML) (hlow : p.process_lowmemory = false) :
    main_ env { p with change_im_format := r } = main_ env p := by
  have h1 : resolveInType env { p with change_im_format := r } = resolveInType env p := rfl
  have h2 : resolveOutType env { p with change_im_format := r } = resolveOutType env p := rfl
  have h3 : inputTypeDebug env { p with change_im_format := r } = inputTypeDebug env p := rfl
  have h4 : preamble env { p with change_im_format := r } = preamble env p := rfl
  have h5 := fun it ot => readInput_im_irrelevant env p r it ot hlow
  have h6 := fun d => writeOutput_im_irrelevant env p r (resolveInType env p)
    (resolveOutType env p) d hot
  unfold main_
  simp only [h1, h2, h3, h4, h5]
  split_ifs
  · rfl
  · rfl
  · cases readInput env p (resolveInType env p) (resolveOutType env p) with
    | done r => rfl
    | loaded t d => simp only [h6]

/-- C15 (amended): in the in-memory path, a requested ion-mobility reshape on
data without ion mobility fails with the no-ion-mobility-data rejection
(IllegalArgument, nothing written) when the output format is mzML; for every
other output format the request is ignored: the invocation is the same as with
any other value of change_im_format, in particular `none`. -/
theorem im_reshape_checked_for_mzML_only (env : Env) (p : Params) :
    (∀ (t : List Event) (d : Data),
      resolveInType env p ≠ .UNKNOWN → resolveOutType env p = .MZML →
      readInput env p (resolveInType env p) .MZML = .loaded t d →
      p.change_im_format ≠ .NONE →
      env.determineIMFormat (mzMLPrepared env p d.exp) = .NONE →
        (main_ env p).outcome = .threw .IllegalArgument ∧
        changeIMFormatError env p (mzMLPrepared env p d.exp) = some .noIonMobilityData ∧
        ∀ e ∈ (main_ env p).trace, e.isWrite = false) ∧
    (resolveOutType env p ≠ .MZML → p.process_lowmemory = false →
      ∀ r : IMFormat, main_ env { p with change_im_format := r } = main_ env p) := by
  refine ⟨?_, ?_⟩
  · intro t d hi hout hread hr hd
    have ho : resolveOutType env p ≠ .UNKNOWN := by rw [hout]; decide
    have hm := main_of_loaded env p t d hi ho (by rw [hout]; exact hread)
    rw [hout, writeOutput_MZML] at hm
    have hnone : changeIMFormat env p (mzMLPrepared env p d.exp) = none := by
      unfold changeIMFormat
      rw [if_pos hr]
      simp [hd]
    rw [writeMzML_of_none env p d.exp hnone] at hm
    refine ⟨by rw [hm], ?_, ?_⟩
    · unfold changeIMFormatError
      rw [if_pos hr]
      simp [hd]
    · intro e he
      rw [hm] at he
      simp only [List.mem_append, List.mem_cons] at he
      rcases he with (he | he) | rfl | he
      · exact preamble_noWrite env p e he
      · exact readInput_loaded_noWrite env p _ _ t d hread e he
      · rfl
      · exact mzMLOptions_noWrite env p e he
  · intro hot hlow r
    exact main_im_irrelevant env p r hot hlow

theorem im_reshape_checked_for_mzML_only_witness :
    (main_ sampleEnv
      { sampleParams "a.mzML" .MZML "out.mzML" "mzML" with
        change_im_format := .CONCATENATED }).outcome = .threw .IllegalArgument :=
  ((im_reshape_checked_for_mzML_only sampleEnv
      { sampleParams "a.mzML" .MZML "out.mzML" "mzML" with
        change_im_format := .CONCATENATED }).1
    [.load (.loadExperiment .MZML) "a.mzML"]
    ⟨sampleExperiment, FeatureMap.empty, ConsensusMap.empty, 0⟩
    (by decide) (by decide) (by decide) (by decide) (by decide)).1

/-- C15, counterexample: an mzML input without ion mobility data is converted
to mzXML with a reshape to concatenated requested: `main_` returns
EXECUTION_OK and stores the experiment, the request being ignored. -/
theorem im_reshape_ignored_for_mzXML :
    sampleEnv.determineIMFormat sampleExperiment = .NONE ∧
    main_ sampleEnv
      { sampleParams "a.mzML" .MZML "out.mzXML" "mzXML" with
        change_im_format := .CONCATENATED } =
      ⟨[.debug (.outputFileType .MZXML), .debug .loadingInputFile,
        .load (.loadExperiment .MZML) "a.mzML", .debug .writingOutputFile,
        .setOption .MzXMLFile (.setForceMQCompatability false),
        .setOption .MzXMLFile (.setWriteIndex true),
        .store .MzXMLFile "out.mzXML" (.experiment
          { sampleExperiment with dataProcessing := [⟨.CONVERSION_MZXML, 0⟩] })],
       .returned .EXECUTION_OK⟩ := by
  decide

end OpenMS

namespace OpenMS

/-! ### The streaming branch -/

theorem readInput_lowMemory (env : Env) (p : Params) (it ot : FileType)
    (hown : hasOwnInputBranch it = false) (hlow : p.process_lowmemory = true) :
    readInput env p it ot = readLowMemory env p it ot := by
  unfold readInput
  cases it <;> first
    | exact absurd hown (by decide)
    | simp [hlow]

theorem readLowMemory_notImplemented (env : Env) (p : Params) (it ot : FileType)
    (h : p.change_im_format ≠ .NONE) :
    readLowMemory env p it ot =
      .done ⟨[.log .imLowMemoryNotImplemented], .threw .NotImplemented⟩ := by
  unfold readLowMemory
  rw [if_pos h]

theorem readLowMemory_mzML (env : Env) (p : Params) (it : FileType)
    (h : p.change_im_format = .NONE) (hit : it = .MZML ∨ it = .MZXML) :
    readLowMemory env p it .MZML =
      .done ⟨consumerSetup env p ++ [.transform it p.in_ .PlainMSDataWritingConsumer],
        .returned .EXECUTION_OK⟩ := by
  unfold readLowMemory
  rw [if_neg (by rw [h]; decide)]
  rcases hit with rfl | rfl <;> rfl

theorem readLowMemory_cached (env : Env) (p : Params)
    (h : p.change_im_format = .NONE) :
    readLowMemory env p .MZML .CACHEDMZML =
      if extractCachedMetaFilename p.out = "" then
        .done ⟨[.log (.cannotDeduceBasePath p.out)], .returned .ILLEGAL_PARAMETERS⟩
      else
        .done ⟨[.sinkCreated .MSDataCachedConsumer p.out,
            .transform .MZML p.in_ .MSDataCachedConsumer,
            .store .CachedMzMLMetadata (extractCachedMetaFilename p.out)
              (.experiment (env.transformMeta p.in_))], .returned .EXECUTION_OK⟩ := by
  have hlog := extractCachedMetaLog_eq p.out
  unfold readLowMemory
  rw [if_neg (by rw [h]; decide)]
  by_cases hn : extractCachedMetaFilename p.out = ""
  · rw [if_pos hn] at hlog
    simp [hn, hlog]
  · rw [if_neg hn] at hlog
    simp [hn, hlog]

theorem readLowMemory_other (env : Env) (p : Params) (it ot : FileType)
    (h : p.change_im_format = .NONE)
    (h1 : ¬ ((it = .MZML ∨ it = .MZXML) ∧ ot = .MZML))
    (h2 : ¬ (it = .MZML ∧ ot = .CACHEDMZML)) :
    readLowMemory env p it ot = .done ⟨[], .threw .IllegalArgument⟩ := by
  unfold readLowMemory
  rw [if_neg (by rw [h]; decide),
    if_neg (fun hc => h1 ⟨hc.1.symm, hc.2⟩), if_neg h2]

end OpenMS

namespace OpenMS

theorem consumerSetup_noLoad (env : Env) (p : Params) :
    ∀ e ∈ consumerSetup env p, e.isLoad = false ∧ e ≠ .debug .writingOutputFile := by
  intro e he
  unfold consumerSetup lossyOptions at he
  split_ifs at he <;> simp at he <;>
    (rcases he with rfl | rfl | rfl | rfl | rfl | rfl | rfl) <;> exact ⟨rfl, by simp⟩

theorem preamble_noLoad (env : Env) (p : Params) :
    ∀ e ∈ preamble env p, e.isLoad = false ∧ e ≠ .debug .writingOutputFile := by
  intro e he
  unfold preamble inputTypeDebug at he
  split_ifs at he <;> simp at he
  · rcases he with rfl | rfl | rfl <;> exact ⟨rfl, by simp⟩
  · rcases he with rfl | rfl <;> exact ⟨rfl, by simp⟩

/-- The streaming branch ends the invocation without a load and without
entering the output section. -/
theorem readLowMemory_done (env : Env) (p : Params) (it ot : FileType) :
    ∃ r, readLowMemory env p it ot = .done r ∧
      ∀ e ∈ r.trace, e.isLoad = false ∧ e ≠ .debug .writingOutputFile := by
  by_cases h : p.change_im_format = .NONE
  · by_cases h1 : (it = .MZML ∨ it = .MZXML) ∧ ot = .MZML
    · obtain ⟨hit, rfl⟩ := h1
      refine ⟨_, readLowMemory_mzML env p it h hit, ?_⟩
      intro e he
      simp only [List.mem_append, List.mem_singleton] at he
      rcases he with he | rfl
      · exact consumerSetup_noLoad env p e he
      · exact ⟨rfl, by simp⟩
    · by_cases h2 : it = .MZML ∧ ot = .CACHEDMZML
      · obtain ⟨rfl, rfl⟩ := h2
        have hc := readLowMemory_cached env p h
        by_cases hn : extractCachedMetaFilename p.out = ""
        · rw [if_pos hn] at hc
          refine ⟨_, hc, ?_⟩
          intro e he; simp at he; subst he; exact ⟨rfl, by simp⟩
        · rw [if_neg hn] at hc
          refine ⟨_, hc, ?_⟩
          intro e he; simp at he
          rcases he with rfl | rfl | rfl <;> exact ⟨rfl, by simp⟩
      · exact ⟨_, readLowMemory_other env p it ot h h1 h2, by intro e he; simp at he⟩
  · refine ⟨_, readLowMemory_notImplemented env p it ot h, ?_⟩
    intro e he; simp at he; subst he; exact ⟨rfl, by simp⟩

/-- C16: decision table of the streaming branch. With process_lowmemory set,
both file types determined and an input type without a branch of its own:
a requested ion-mobility format makes `main_` throw NotImplemented before any
sink is created; otherwise `main_` streams and returns EXECUTION_OK for mzML or
mzXML input with mzML output and for mzML input with cachedMzML output and a
conforming output path, returns ILLEGAL_PARAMETERS for mzML input with
cachedMzML output and a non-conforming path, and throws IllegalArgument for
every other pair. EXECUTION_OK is returned in exactly the two streaming cases,
and in no case is a container loaded or the output section entered. -/
theorem streaming_decision_table (env : Env) (p : Params)
    (hlow : p.process_lowmemory = true)
    (hi : resolveInType env p ≠ .UNKNOWN) (ho : resolveOutType env p ≠ .UNKNOWN)
    (hown : hasOwnInputBranch (resolveInType env p) = false) :
    (p.change_im_format ≠ .NONE →
      main_ env p =
        ⟨preamble env p ++ [.log .imLowMemoryNotImplemented], .threw .NotImplemented⟩) ∧
    (p.change_im_format = .NONE →
      ((resolveInType env p = .MZML ∨ resolveInType env p = .MZXML) →
        resolveOutType env p = .MZML →
        main_ env p =
          ⟨preamble env p ++ (consumerSetup env p ++
            [.transform (resolveInType env p) p.in_ .PlainMSDataWritingConsumer]),
           .returned .EXECUTION_OK⟩) ∧
      (resolveInType env p = .MZML → resolveOutType env p = .CACHEDMZML →
        extractCachedMetaFilename p.out ≠ "" →
        main_ env p =
          ⟨preamble env p ++
            [.sinkCreated .MSDataCachedConsumer p.out,
             .transform .MZML p.in_ .MSDataCachedConsumer,
             .store .CachedMzMLMetadata (extractCachedMetaFilename p.out)
               (.experiment (env.transformMeta p.in_))],
           .returned .EXECUTION_OK⟩) ∧
      (resolveInType env p = .MZML → resolveOutType env p = .CACHEDMZML →
        extractCachedMetaFilename p.out = "" →
        main_ env p =
          ⟨preamble env p ++ [.log (.cannotDeduceBasePath p.out)],
           .returned .ILLEGAL_PARAMETERS⟩) ∧
      (¬ ((resolveInType env p = .MZML ∨ resolveInType env p = .MZXML) ∧
          resolveOutType env p = .MZML) →
        ¬ (resolveInType env p = .MZML ∧ resolveOutType env p = .CACHEDMZML) →
        main_ env p = ⟨preamble env p ++ [], .threw .IllegalArgument⟩)) ∧
    ((main_ env p).outcome = .returned .EXECUTION_OK ↔
      p.change_im_format = .NONE ∧
      (((resolveInType env p = .MZML ∨ resolveInType env p = .MZXML) ∧
          resolveOutType env p = .MZML) ∨
        (resolveInType env p = .MZML ∧ resolveOutType env p = .CACHEDMZML ∧
          extractCachedMetaFilename p.out ≠ ""))) ∧
    (∀ e ∈ (main_ env p).trace, e.isLoad = false ∧ e ≠ .debug .writingOutputFile) := by
  have hrd := readInput_lowMemory env p (resolveInType env p) (resolveOutType env p) hown hlow
  have hmain : ∀ r, readLowMemory env p (resolveInType env p) (resolveOutType env p) = .done r →
      main_ env p = ⟨preamble env p ++ r.trace, r.outcome⟩ := by
    intro r hr
    exact main_of_done env p r hi ho (by rw [hrd, hr])
  have hA : p.change_im_format ≠ .NONE →
      main_ env p =
        ⟨preamble env p ++ [.log .imLowMemoryNotImplemented], .threw .NotImplemented⟩ :=
    fun h => hmain _ (readLowMemory_notImplemented env p _ _ h)
  have hB : p.change_im_format = .NONE →
      (resolveInType env p = .MZML ∨ resolveInType env p = .MZXML) →
      resolveOutType env p = .MZML →
      main_ env p =
        ⟨preamble env p ++ (consumerSetup env p ++
          [.transform (resolveInType env p) p.in_ .PlainMSDataWritingConsumer]),
         .returned .EXECUTION_OK⟩ := by
    intro h hit hot
    exact hmain _ (by rw [hot]; exact readLowMemory_mzML env p _ h hit)
  have hC : p.change_im_format = .NONE →
      resolveInType env p = .MZML → resolveOutType env p = .CACHEDMZML →
      extractCachedMetaFilename p.out ≠ "" →
      main_ env p =
        ⟨preamble env p ++
          [.sinkCreated .MSDataCachedConsumer p.out,
           .transform .MZML p.in_ .MSDataCachedConsumer,
           .store .CachedMzMLMetadata (extractCachedMetaFilename p.out)
             (.experiment (env.transformMeta p.in_))],
         .returned .EXECUTION_OK⟩ := by
    intro h hit hot hn
    have := readLowMemory_cached env p h
    rw [if_neg hn] at this
    exact hmain _ (by rw [hit, hot]; exact this)
  have hD : p.change_im_format = .NONE →
      resolveInType env p = .MZML → resolveOutType env p = .CACHEDMZML →
      extractCachedMetaFilename p.out = "" →
      main_ env p =
        ⟨preamble env p ++ [.log (.cannotDeduceBasePath p.out)],
         .returned .ILLEGAL_PARAMETERS⟩ := by
    intro h hit hot hn
    have := readLowMemory_cached env p h
    rw [if_pos hn] at this
    exact hmain _ (by rw [hit, hot]; exact this)
  have hE : p.change_im_format = .NONE →
      ¬ ((resolveInType env p = .MZML ∨ resolveInType env p = .MZXML) ∧
          resolveOutType env p = .MZML) →
      ¬ (resolveInType env p = .MZML ∧ resolveOutType env p = .CACHEDMZML) →
      main_ env p = ⟨preamble env p ++ [], .threw .IllegalArgument⟩ :=
    fun h h1 h2 => hmain _ (readLowMemory_other env p _ _ h h1 h2)
  refine ⟨hA, fun h => ⟨hB h, hC h, hD h, hE h⟩, ?_, ?_⟩
  · constructor
    · intro hok
      by_cases h : p.change_im_format = .NONE
      · refine ⟨h, ?_⟩
        by_cases h1 : (resolveInType env p = .MZML ∨ resolveInType env p = .MZXML) ∧
            resolveOutType env p = .MZML
        · exact Or.inl h1
        · by_cases h2 : resolveInType env p = .MZML ∧ resolveOutType env p = .CACHEDMZML
          · by_cases hn : extractCachedMetaFilename p.out = ""
            · rw [hD h h2.1 h2.2 hn] at hok; simp at hok
            · exact Or.inr ⟨h2.1, h2.2, hn⟩
          · rw [hE h h1 h2] at hok; simp at hok
      · rw [hA h] at hok; simp at hok
    · rintro ⟨h, h1 | ⟨h2, h3, h4⟩⟩
      · rw [hB h h1.1 h1.2]
      · rw [hC h h2 h3 h4]
  · obtain ⟨r, hr, hnl⟩ := readLowMemory_done env p (resolveInType env p) (resolveOutType env p)
    rw [hmain r hr]
    intro e he
    rw [List.mem_append] at he
    rcases he with he | he
    · exact preamble_noLoad env p e he
    · exact hnl e he

theorem streaming_decision_table_witness :
    main_ sampleEnv
      { sampleParams "a.mzML" .MZML "out.mzML" "mzML" with process_lowmemory := true } =
      ⟨[.debug (.outputFileType .MZML), .debug .loadingInputFile,
        .sinkCreated .PlainMSDataWritingConsumer "out.mzML",
        .setOption .consumer (.setWriteIndex true),
        .sinkAddDataProcessing ⟨.CONVERSION_MZML, 0⟩,
        .transform .MZML "a.mzML" .PlainMSDataWritingConsumer],
       .returned .EXECUTION_OK⟩ :=
  ((streaming_decision_table sampleEnv
      { sampleParams "a.mzML" .MZML "out.mzML" "mzML" with process_lowmemory := true }
      rfl (by decide) (by decide) (by decide)).2.1 rfl).1 (Or.inl (by decide)) (by decide)

end OpenMS

namespace OpenMS

/-- C17 (amended): with the streaming flag set, both file types determined
and an input type that reaches the streaming branch, a request to convert
spectra to chromatograms is dropped (the invocation is the same with and
without it, the data being streamed unconverted), and no container is loaded
into memory, whether the invocation succeeds or not. -/
theorem streaming_drops_chromatogram_request (env : Env) (p : Params)
    (hlow : p.process_lowmemory = true)
    (hi : resolveInType env p ≠ .UNKNOWN) (ho : resolveOutType env p ≠ .UNKNOWN)
    (hown : hasOwnInputBranch (resolveInType env p) = false) :
    (∀ b : Bool, main_ env { p with convert_to_chromatograms := b } = main_ env p) ∧
    (∀ e ∈ (main_ env p).trace, e.isLoad = false) := by
  obtain ⟨r, hr, hnl⟩ := readLowMemory_done env p (resolveInType env p) (resolveOutType env p)
  have hrd := readInput_lowMemory env p (resolveInType env p) (resolveOutType env p) hown hlow
  have hm : main_ env p = ⟨preamble env p ++ r.trace, r.outcome⟩ :=
    main_of_done env p r hi ho (by rw [hrd, hr])
  refine ⟨?_, ?_⟩
  · intro b
    have hrd' := readInput_lowMemory env { p with convert_to_chromatograms := b }
      (resolveInType env p) (resolveOutType env p) hown hlow
    have hsame : readLowMemory env { p with convert_to_chromatograms := b }
        (resolveInType env p) (resolveOutType env p) =
        readLowMemory env p (resolveInType env p) (resolveOutType env p) := rfl
    have hm' : main_ env { p with convert_to_chromatograms := b } =
        ⟨preamble env { p with convert_to_chromatograms := b } ++ r.trace, r.outcome⟩ :=
      main_of_done env { p with convert_to_chromatograms := b } r hi ho
        (by rw [← hr, ← hsame]; exact hrd')
    rw [hm, hm']
    rfl
  · intro e he
    rw [hm, List.mem_append] at he
    rcases he with he | he
    · exact (preamble_noLoad env p e he).1
    · exact (hnl e he).1

theorem streaming_drops_chromatogram_request_witness :
    main_ sampleEnv
      { sampleParams "a.mzML" .MZML "out.mzML" "mzML" with
        process_lowmemory := true, convert_to_chromatograms := true } =
    main_ sampleEnv
      { sampleParams "a.mzML" .MZML "out.mzML" "mzML" with process_lowmemory := true } :=
  (streaming_drops_chromatogram_request sampleEnv
    { sampleParams "a.mzML" .MZML "out.mzML" "mzML" with process_lowmemory := true }
    rfl (by decide) (by decide) (by decide)).1 true

/-- C17, counterexample: with the streaming flag set, an mzML to mzML
conversion with convert_to_chromatograms requested succeeds and streams the
data as it is; and a consensusXML input is loaded whole and converted with
success. -/
theorem streaming_requests_not_rejected :
    main_ sampleEnv
      { sampleParams "a.mzML" .MZML "out.mzML" "mzML" with
        process_lowmemory := true, convert_to_chromatograms := true } =
      ⟨[.debug (.outputFileType .MZML), .debug .loadingInputFile,
        .sinkCreated .PlainMSDataWritingConsumer "out.mzML",
        .setOption .consumer (.setWriteIndex true),
        .sinkAddDataProcessing ⟨.CONVERSION_MZML, 0⟩,
        .transform .MZML "a.mzML" .PlainMSDataWritingConsumer],
       .returned .EXECUTION_OK⟩ ∧
    main_ sampleEnv
      { sampleParams "a.consensusXML" .CONSENSUSXML "b.consensusXML" "consensusXML" with
        process_lowmemory := true } =
      ⟨[.debug (.outputFileType .CONSENSUSXML), .debug .loadingInputFile,
        .load .ConsensusXMLFile "a.consensusXML", .debug .writingOutputFile,
        .store .ConsensusXMLFile "b.consensusXML" (.consensusMap
          { sampleConsensusMap with dataProcessing := [⟨.FORMAT_CONVERSION, 0⟩] })],
       .returned .EXECUTION_OK⟩ := by
  decide

/-! ### Configuration of the streaming sink -/

theorem countP_eq_zero_of_forall (P : Event → Bool) (l : List Event)
    (h : ∀ e ∈ l, P e = false) : l.countP P = 0 := by
  rw [List.countP_eq_zero]
  intro e he
  rw [h e he]
  decide

theorem preamble_sink_free (env : Env) (p : Params) :
    ∀ e ∈ preamble env p,
      e.isSinkProvenance = false ∧ e.isTransform = false ∧ e.isSinkConfiguration = false := by
  intro e he
  unfold preamble inputTypeDebug at he
  split_ifs at he <;> simp at he
  · rcases he with rfl | rfl | rfl <;> exact ⟨rfl, rfl, rfl⟩
  · rcases he with rfl | rfl <;> exact ⟨rfl, rfl, rfl⟩

theorem lossyOptions_sink_free (env : Env) (p : Params) (h : Handle) :
    ∀ e ∈ lossyOptions env p h, e.isSinkProvenance = false ∧ e.isTransform = false := by
  intro e he
  unfold lossyOptions at he
  split_ifs at he <;> simp at he
  rcases he with rfl | rfl | rfl | rfl <;> exact ⟨rfl, rfl⟩

theorem consumerSetup_provenance_once (env : Env) (p : Params) :
    (consumerSetup env p).countP Event.isSinkProvenance = 1 ∧
    ∀ e ∈ consumerSetup env p, e.isTransform = false := by
  have h0 := countP_eq_zero_of_forall Event.isSinkProvenance _
    (fun e he => (lossyOptions_sink_free env p .consumer e he).1)
  refine ⟨?_, ?_⟩
  · unfold consumerSetup
    rw [List.countP_append, List.countP_append, h0]
    rfl
  · intro e he
    unfold consumerSetup at he
    simp only [List.mem_append, List.mem_cons, List.mem_singleton, List.not_mem_nil,
      or_false] at he
    rcases he with ((rfl | rfl) | he) | rfl
    · rfl
    · rfl
    · exact (lossyOptions_sink_free env p .consumer e he).2
    · rfl

/-- C18 (amended): in the streaming conversion to mzML the sink is created,
the index option and, under lossy_compression, the four compression settings
(linear with the supplied accuracy for the mass axis, slof for intensities and
for float data arrays, compression on) are set and the provenance entry is
attached exactly once, all before `transform`, which is the last effect. In the
streaming conversion of mzML to cachedMzML the dump sink receives no provenance
entry and no configuration at all: it is created, the records flow, and the
shell is written. -/
theorem streaming_sink_configuration (env : Env) (p : Params)
    (hlow : p.process_lowmemory = true)
    (hnone : p.change_im_format = .NONE)
    (ho : resolveOutType env p ≠ .UNKNOWN) :
    ((resolveInType env p = .MZML ∨ resolveInType env p = .MZXML) →
      resolveOutType env p = .MZML →
      main_ env p =
        ⟨preamble env p ++
          ([.sinkCreated .PlainMSDataWritingConsumer p.out,
            .setOption .consumer (.setWriteIndex (write_scan_index p))]
           ++ lossyOptions env p .consumer
           ++ [.sinkAddDataProcessing (env.getProcessingInfo .CONVERSION_MZML)]
           ++ [.transform (resolveInType env p) p.in_ .PlainMSDataWritingConsumer]),
         .returned .EXECUTION_OK⟩ ∧
      (main_ env p).trace.countP Event.isSinkProvenance = 1 ∧
      (∃ pre, (main_ env p).trace =
          pre ++ [.transform (resolveInType env p) p.in_ .PlainMSDataWritingConsumer] ∧
        ∀ e ∈ pre, e.isTransform = false) ∧
      (p.lossy_compression = true →
        lossyOptions env p .consumer =
          [.setOption .consumer (.setNumpressConfigurationMassTime (npconfig_mz env p)),
           .setOption .consumer (.setNumpressConfigurationIntensity (npconfig_int env)),
           .setOption .consumer (.setNumpressConfigurationFloatDataArray (npconfig_fda env)),
           .setOption .consumer (.setCompression true)] ∧
        (npconfig_mz env p).np_compression = .LINEAR ∧
        (npconfig_mz env p).linear_fp_mass_acc = p.lossy_mass_accuracy ∧
        (npconfig_int env).np_compression = .SLOF ∧
        (npconfig_fda env).np_compression = .SLOF) ∧
      (p.lossy_compression = false → lossyOptions env p .consumer = [])) ∧
    (resolveInType env p = .MZML → resolveOutType env p = .CACHEDMZML →
      extractCachedMetaFilename p.out ≠ "" →
      main_ env p =
        ⟨preamble env p ++
          [.sinkCreated .MSDataCachedConsumer p.out,
           .transform .MZML p.in_ .MSDataCachedConsumer,
           .store .CachedMzMLMetadata (extractCachedMetaFilename p.out)
             (.experiment (env.transformMeta p.in_))],
         .returned .EXECUTION_OK⟩ ∧
      ∀ e ∈ (main_ env p).trace, e.isSinkConfiguration = false) := by
  refine ⟨?_, ?_⟩
  · intro hit hot
    have hi : resolveInType env p ≠ .UNKNOWN := by
      rcases hit with h | h <;> rw [h] <;> decide
    have hown : hasOwnInputBranch (resolveInType env p) = false := by
      rcases hit with h | h <;> rw [h] <;> decide
    have hrd := readInput_lowMemory env p (resolveInType env p) (resolveOutType env p)
      hown hlow
    rw [hot, readLowMemory_mzML env p _ hnone hit] at hrd
    have hm := main_of_done env p _ hi ho (by rw [hot]; exact hrd)
    have hm' : main_ env p =
        ⟨preamble env p ++ (consumerSetup env p ++
          [.transform (resolveInType env p) p.in_ .PlainMSDataWritingConsumer]),
         .returned .EXECUTION_OK⟩ := hm
    obtain ⟨hc1, hc2⟩ := consumerSetup_provenance_once env p
    refine ⟨hm', ?_, ?_, ?_, ?_⟩
    · rw [hm']
      simp only [List.countP_append, hc1]
      rw [countP_eq_zero_of_forall _ _ (fun e he => (preamble_sink_free env p e he).1)]
      rfl
    · refine ⟨preamble env p ++ consumerSetup env p, ?_, ?_⟩
      · rw [hm']; simp
      · intro e he
        rw [List.mem_append] at he
        rcases he with he | he
        · exact (preamble_sink_free env p e he).2.1
        · exact hc2 e he
    · intro hl
      refine ⟨?_, rfl, rfl, rfl, rfl⟩
      unfold lossyOptions
      rw [if_pos hl]
    · intro hl
      unfold lossyOptions
      rw [hl]
      rfl
  · intro hit hot hn
    have hi : resolveInType env p ≠ .UNKNOWN := by rw [hit]; decide
    have hown : hasOwnInputBranch (resolveInType env p) = false := by rw [hit]; decide
    have hrd := readInput_lowMemory env p (resolveInType env p) (resolveOutType env p)
      hown hlow
    have hc := readLowMemory_cached env p hnone
    rw [if_neg hn] at hc
    rw [hit, hot, hc] at hrd
    have hm := main_of_done env p _ hi ho (by rw [hit, hot]; exact hrd)
    refine ⟨hm, ?_⟩
    rw [hm]
    intro e he
    simp only [List.mem_append, List.mem_cons, List.mem_singleton, List.not_mem_nil,
      or_false] at he
    rcases he with he | rfl | rfl | rfl
    · exact (preamble_sink_free env p e he).2.2
    · rfl
    · rfl
    · rfl

theorem streaming_sink_configuration_witness :
    main_ sampleEnv
      { sampleParams "a.mzML" .MZML "out.mzML" "mzML" with
        process_lowmemory := true, lossy_compression := true } =
      ⟨[.debug (.outputFileType .MZML), .debug .loadingInputFile,
        .sinkCreated .PlainMSDataWritingConsumer "out.mzML",
        .setOption .consumer (.setWriteIndex true),
        .setOption .consumer (.setNumpressConfigurationMassTime ⟨true, -1, .LINEAR, -1, 0⟩),
        .setOption .consumer (.setNumpressConfigurationIntensity ⟨true, -1, .SLOF, -1, 0⟩),
        .setOption .consumer
          (.setNumpressConfigurationFloatDataArray ⟨true, -1, .SLOF, -1, 0⟩),
        .setOption .consumer (.setCompression true),
        .sinkAddDataProcessing ⟨.CONVERSION_MZML, 0⟩,
        .transform .MZML "a.mzML" .PlainMSDataWritingConsumer],
       .returned .EXECUTION_OK⟩ :=
  ((streaming_sink_configuration sampleEnv
      { sampleParams "a.mzML" .MZML "out.mzML" "mzML" with
        process_lowmemory := true, lossy_compression := true }
      rfl rfl (by decide)).1 (Or.inl (by decide)) (by decide)).1

/-- C18, counterexample: in the streaming conversion of mzML to cachedMzML with
lossy_compression set, no provenance entry is attached to the dump sink and no
compression setting is made on it. -/
theorem streaming_cached_sink_unconfigured :
    main_ sampleEnv
      { sampleParams "a.mzML" .MZML "out.cachedMzML" "cachedMzML" with
        process_lowmemory := true, lossy_compression := true } =
      ⟨[.debug (.outputFileType .CACHEDMZML), .debug .loadingInputFile,
        .sinkCreated .MSDataCachedConsumer "out.cachedMzML",
        .transform .MZML "a.mzML" .MSDataCachedConsumer,
        .store .CachedMzMLMetadata "out.mzML" (.experiment (writeMetadata sampleExperiment))],
       .returned .EXECUTION_OK⟩ ∧
    (main_ sampleEnv
      { sampleParams "a.mzML" .MZML "out.cachedMzML" "cachedMzML" with
        process_lowmemory := true, lossy_compression := true }).trace.countP
      Event.isSinkProvenance = 0 := by
  decide

end OpenMS

namespace OpenMS

/-! ### Same-format conversions -/

end OpenMS

namespace OpenMS.MapRTTransformer

/-! ### MapRTTransformer: the parameter check -/

theorem main_outputRequired (env : Env) (p : Params) (h : p.out = "" ∧ p.trafo_out = "") :
    main_ env p = ⟨[.log .outputRequired], .ILLEGAL_PARAMETERS⟩ := by
  unfold main_
  rw [if_pos h]

theorem main_inputOutputTogether (env : Env) (p : Params)
    (h1 : ¬ (p.out = "" ∧ p.trafo_out = ""))
    (h2 : decide (p.in_ = "") ≠ decide (p.out = "")) :
    main_ env p = ⟨[.log .inputOutputTogether], .ILLEGAL_PARAMETERS⟩ := by
  unfold main_
  rw [if_neg h1, if_pos h2]

theorem main_proceeds (env : Env) (p : Params)
    (h1 : ¬ (p.out = "" ∧ p.trafo_out = ""))
    (h2 : ¬ decide (p.in_ = "") ≠ decide (p.out = "")) :
    main_ env p =
      ⟨[.load .TransformationXMLFile p.trafo_in] ++
        (if p.trafo_out ≠ "" then
          [.store .TransformationXMLFile p.trafo_out (.transformation (prepareTrafo env p))]
         else []) ++
        (if p.in_ ≠ "" then transformInput env p (prepareTrafo env p) else []),
       .EXECUTION_OK⟩ := by
  unfold main_
  rw [if_neg h1, if_neg h2]

theorem exactly_one_empty_iff (a b : String) :
    decide (a = "") ≠ decide (b = "") ↔ (a = "" ∧ b ≠ "") ∨ (a ≠ "" ∧ b = "") := by
  by_cases ha : a = "" <;> by_cases hb : b = "" <;> simp [ha, hb]

/-- C20: `main_` of MapRTTransformer returns ILLEGAL_PARAMETERS if and only if
both `out` and `trafo_out` are empty or exactly one of `in` and `out` is empty,
and then no file has been read or written; in every other case it proceeds: the
transformation is loaded first and EXECUTION_OK is returned. In particular
`out` and `trafo_out` can be given together (the transformation is then stored
to `trafo_out`), and `trafo_out` can be given alone without `in` (the
transformation is loaded, prepared and stored, nothing else). -/
theorem mapRTTransformer_parameter_check (env : Env) (p : Params) :
    ((main_ env p).exitCode = .ILLEGAL_PARAMETERS ↔
      (p.out = "" ∧ p.trafo_out = "") ∨
        ((p.in_ = "" ∧ p.out ≠ "") ∨ (p.in_ ≠ "" ∧ p.out = ""))) ∧
    ((main_ env p).exitCode = .ILLEGAL_PARAMETERS →
      ∀ e ∈ (main_ env p).trace, e.isFileAccess = false) ∧
    ((main_ env p).exitCode ≠ .ILLEGAL_PARAMETERS →
      (main_ env p).exitCode = .EXECUTION_OK ∧
      ∃ rest, (main_ env p).trace = .load .TransformationXMLFile p.trafo_in :: rest) ∧
    (p.in_ ≠ "" → p.out ≠ "" → p.trafo_out ≠ "" →
      (main_ env p).exitCode = .EXECUTION_OK ∧
      Event.store .TransformationXMLFile p.trafo_out (.transformation (prepareTrafo env p)) ∈
        (main_ env p).trace) ∧
    (p.in_ = "" → p.out = "" → p.trafo_out ≠ "" →
      main_ env p =
        ⟨[.load .TransformationXMLFile p.trafo_in,
          .store .TransformationXMLFile p.trafo_out (.transformation (prepareTrafo env p))],
         .EXECUTION_OK⟩) := by
  have hcases : (main_ env p).exitCode = .ILLEGAL_PARAMETERS ∨
      (¬ (p.out = "" ∧ p.trafo_out = "") ∧ ¬ decide (p.in_ = "") ≠ decide (p.out = "")) := by
    by_cases h1 : p.out = "" ∧ p.trafo_out = ""
    · left; rw [main_outputRequired env p h1]
    · by_cases h2 : decide (p.in_ = "") ≠ decide (p.out = "")
      · left; rw [main_inputOutputTogether env p h1 h2]
      · right; exact ⟨h1, h2⟩
  have hiff : (main_ env p).exitCode = .ILLEGAL_PARAMETERS ↔
      (p.out = "" ∧ p.trafo_out = "") ∨
        ((p.in_ = "" ∧ p.out ≠ "") ∨ (p.in_ ≠ "" ∧ p.out = "")) := by
    rw [← exactly_one_empty_iff]
    constructor
    · intro h
      by_cases h1 : p.out = "" ∧ p.trafo_out = ""
      · exact Or.inl h1
      · by_cases h2 : decide (p.in_ = "") ≠ decide (p.out = "")
        · exact Or.inr h2
        · rw [main_proceeds env p h1 h2] at h; cases h
    · rintro (h1 | h2)
      · rw [main_outputRequired env p h1]
      · by_cases h1 : p.out = "" ∧ p.trafo_out = ""
        · rw [main_outputRequired env p h1]
        · rw [main_inputOutputTogether env p h1 h2]
  refine ⟨hiff, ?_, ?_, ?_, ?_⟩
  · intro hill
    by_cases h1 : p.out = "" ∧ p.trafo_out = ""
    · rw [main_outputRequired env p h1]
      intro e he; simp at he; subst he; rfl
    · by_cases h2 : decide (p.in_ = "") ≠ decide (p.out = "")
      · rw [main_inputOutputTogether env p h1 h2]
        intro e he; simp at he; subst he; rfl
      · rw [main_proceeds env p h1 h2] at hill; cases hill
  · intro hne
    rcases hcases with h | ⟨h1, h2⟩
    · exact absurd h hne
    · rw [main_proceeds env p h1 h2]
      exact ⟨rfl, _, rfl⟩
  · intro hin hout htr
    have h1 : ¬ (p.out = "" ∧ p.trafo_out = "") := fun h => hout h.1
    have h2 : ¬ decide (p.in_ = "") ≠ decide (p.out = "") := by simp [hin, hout]
    rw [main_proceeds env p h1 h2, if_pos htr]
    exact ⟨rfl, by simp⟩
  · intro hin hout htr
    have h1 : ¬ (p.out = "" ∧ p.trafo_out = "") := fun h => htr h.2
    have h2 : ¬ decide (p.in_ = "") ≠ decide (p.out = "") := by simp [hin, hout]
    rw [main_proceeds env p h1 h2, if_pos htr, if_neg (by simp [hin])]
    rfl

theorem mapRTTransformer_parameter_check_witness :
    main_ sampleEnv (sampleParams "" "" "t.trafoXML" "t2.trafoXML") =
      ⟨[.load .TransformationXMLFile "t.trafoXML",
        .store .TransformationXMLFile "t2.trafoXML" (.transformation ⟨1⟩)],
       .EXECUTION_OK⟩ :=
  (mapRTTransformer_parameter_check sampleEnv
    (sampleParams "" "" "t.trafoXML" "t2.trafoXML")).2.2.2.2 rfl rfl (by decide)

end OpenMS.MapRTTransformer

namespace OpenMS.MapRTTransformer

/-! ### One output file per input file -/

theorem transformInput_handled (env : Env) (p : Params) (trafo : TransformationDescription)
    (h : env.getType p.in_ = .MZML ∨ env.getType p.in_ = .FEATUREXML ∨
      env.getType p.in_ = .CONSENSUSXML ∨ env.getType p.in_ = .IDXML) :
    ∃ f c, transformInput env p trafo = [.load f p.in_, .store f p.out c] ∧
      f ≠ .TransformationXMLFile := by
  unfold transformInput applyTransformation_
  rcases h with h | h | h | h <;> simp [h]

theorem transformInput_unhandled (env : Env) (p : Params) (trafo : TransformationDescription)
    (h1 : env.getType p.in_ ≠ .MZML) (h2 : env.getType p.in_ ≠ .FEATUREXML)
    (h3 : env.getType p.in_ ≠ .CONSENSUSXML) (h4 : env.getType p.in_ ≠ .IDXML) :
    transformInput env p trafo = [] := by
  unfold transformInput
  simp [h1, h2, h3, h4]

/-- C21: with 'in' = "in.dat", a file for which no type is detected, and 'out'
= "out.mzML", `main_` of MapRTTransformer returns EXECUTION_OK after loading
the transformation only: nothing is loaded from 'in' and nothing is stored to
'out'. With 'in' = "in.mzML" the same invocation stores the transformed data to
'out' exactly once. -/
theorem undetected_input_type_gives_no_output :
    sampleEnv.getType "in.dat" = .UNKNOWN ∧
    main_ sampleEnv (sampleParams "in.dat" "out.mzML" "t.trafoXML" "") =
      ⟨[.load .TransformationXMLFile "t.trafoXML"], .EXECUTION_OK⟩ ∧
    ((main_ sampleEnv (sampleParams "in.dat" "out.mzML" "t.trafoXML" "")).trace.filter
      (Event.isStoreTo "out.mzML")).length = 0 ∧
    (main_ sampleEnv (sampleParams "in.mzML" "out.mzML" "t.trafoXML" "")).exitCode =
      .EXECUTION_OK ∧
    ((main_ sampleEnv (sampleParams "in.mzML" "out.mzML" "t.trafoXML" "")).trace.filter
      (Event.isStoreTo "out.mzML")).length = 1 := by
  decide

end OpenMS.MapRTTransformer

namespace OpenMS

/-! ### Success without an output -/

theorem writeEDTA_nothing (p : Params) (d : Data)
    (hf : d.fm.features = []) (hc : d.cm.features = []) :
    writeEDTA p d = ⟨[], .returned .EXECUTION_OK⟩ := by
  unfold writeEDTA
  simp [hf, hc]

/-- In the output section, success is reported without a store to the output
path exactly in the edta branch with both maps empty. -/
theorem writeBranch_ok_stores (env : Env) (p : Params) (it ot : FileType) (d : Data)
    (hok : (writeBranch env p it ot d).outcome = .returned .EXECUTION_OK) :
    (∃ e ∈ (writeBranch env p it ot d).trace, e.isStoreAt p.out = true) ∨
      (ot = .EDTA ∧ d.fm.features = [] ∧ d.cm.features = []) := by
  have hs : ∀ (w : Writer) (c : Container), (Event.store w p.out c).isStoreAt p.out = true := by
    intro w c; simp [Event.isStoreAt]
  cases ot
  case MZML =>
    left
    change (writeMzML env p d.exp).outcome = _ at hok
    change ∃ e ∈ (writeMzML env p d.exp).trace, _
    cases hc : changeIMFormat env p (markSRM p
      (addDataProcessingExp d.exp (env.getProcessingInfo .CONVERSION_MZML))) with
    | none => rw [writeMzML_none env p d.exp hc] at hok; simp at hok
    | some e0 =>
      rw [writeMzML_some env p d.exp e0 hc]
      exact ⟨_, List.mem_append_right _ (List.mem_singleton_self _), hs _ _⟩
  case DTA2D =>
    left
    change ∃ e ∈ (if p.TIC_DTA2D = true then _ else _ : Run).trace, _
    split_ifs
    · exact ⟨_, List.mem_singleton_self _, hs _ _⟩
    · exact ⟨_, List.mem_singleton_self _, hs _ _⟩
  case FEATUREXML =>
    left
    change ∃ e ∈ (writeFeatureXML env p it d).trace, _
    unfold writeFeatureXML
    exact ⟨_, List.mem_append_right _ (List.mem_singleton_self _), hs _ _⟩
  case CONSENSUSXML =>
    left
    change ∃ e ∈ (writeConsensusXML env p it d).trace, _
    unfold writeConsensusXML
    exact ⟨_, List.mem_singleton_self _, hs _ _⟩
  case EDTA =>
    change (writeEDTA p d).outcome = _ at hok
    change (∃ e ∈ (writeEDTA p d).trace, _) ∨ _
    unfold writeEDTA at hok ⊢
    by_cases hf : d.fm.features = []
    · by_cases hc : d.cm.features = []
      · right; exact ⟨rfl, hf, hc⟩
      · left
        simp only [hf, hc, List.isEmpty_nil, List.isEmpty_eq_true, not_true_eq_false,
          false_and, if_false, not_false_eq_true, if_true]
        exact ⟨_, List.mem_singleton_self _, hs _ _⟩
    · by_cases hc : d.cm.features = []
      · left
        simp only [hf, hc, List.isEmpty_nil, List.isEmpty_eq_true, not_true_eq_false,
          and_false, if_false, not_false_eq_true, if_true]
        exact ⟨_, List.mem_singleton_self _, hs _ _⟩
      · simp [hf, hc] at hok
  case CACHEDMZML =>
    left
    change (writeCachedMzML p d.exp).outcome = _ at hok
    change ∃ e ∈ (writeCachedMzML p d.exp).trace, _
    unfold writeCachedMzML at hok ⊢
    by_cases h : extractCachedMetaFilename p.out = ""
    · simp [h] at hok
    · simp only [h, if_false]
      exact ⟨Event.store .CachedMzMLMemdump p.out (.experiment d.exp), by simp, hs _ _⟩
  case CSV =>
    left
    change (writeCSV p it d.cm).outcome = _ at hok
    change ∃ e ∈ (writeCSV p it d.cm).trace, _
    unfold writeCSV at hok ⊢
    by_cases h : it = .CONSENSUSXML
    · simp only [h, ne_eq, not_true_eq_false, if_false]
      exact ⟨_, List.mem_singleton_self _, hs _ _⟩
    · simp [h] at hok
  case OMS =>
    left
    change (writeOMS env p it d.fm).outcome = _ at hok
    change ∃ e ∈ (writeOMS env p it d.fm).trace, _
    unfold writeOMS at hok ⊢
    by_cases h : it = .FEATUREXML
    · simp only [h, ne_eq, not_true_eq_false, if_false]
      exact ⟨_, List.mem_singleton_self _, hs _ _⟩
    · simp [h] at hok
  case MZDATA => left; exact ⟨_, List.mem_singleton_self _, hs _ _⟩
  case MZXML =>
    left
    exact ⟨Event.store .MzXMLFile p.out (.experiment
      (addDataProcessingExp d.exp (env.getProcessingInfo .CONVERSION_MZXML))),
      by change _ ∈ [_, _, _]; simp, hs _ _⟩
  case MGF => left; exact ⟨_, List.mem_singleton_self _, hs _ _⟩
  case SQMASS => left; exact ⟨_, List.mem_singleton_self _, hs _ _⟩
  all_goals exact absurd hok (by change ¬ (Outcome.returned .ILLEGAL_PARAMETERS = _); decide)

/-- C22: with mzML input and edta output, and with a feature map without
entries as input and edta output, `main_` reaches the output section, performs
no store and creates no sink, and returns EXECUTION_OK: success is reported
without an output having been written. -/
theorem edta_success_without_output :
    main_ sampleEnv (sampleParams "in.mzML" .MZML "out.edta" "edta") =
      ⟨[.debug (.outputFileType .EDTA), .debug .loadingInputFile,
        .load (.loadExperiment .MZML) "in.mzML", .debug .writingOutputFile],
       .returned .EXECUTION_OK⟩ ∧
    (∀ e ∈ (main_ sampleEnv (sampleParams "in.mzML" .MZML "out.edta" "edta")).trace,
      e.isWrite = false) ∧
    (emptyFeatureMapEnv.loadFeatures "in.featureXML" .FEATUREXML).features = [] ∧
    main_ emptyFeatureMapEnv (sampleParams "in.featureXML" .FEATUREXML "out.edta" "edta") =
      ⟨[.debug (.outputFileType .EDTA), .debug .loadingInputFile,
        .load (.loadFeatures .FEATUREXML) "in.featureXML", .log .warnFeaturesToPeaks,
        .debug .writingOutputFile],
       .returned .EXECUTION_OK⟩ ∧
    (∀ e ∈ (main_ emptyFeatureMapEnv
        (sampleParams "in.featureXML" .FEATUREXML "out.edta" "edta")).trace,
      e.isWrite = false) := by
  decide

end OpenMS

namespace OpenMS

/-! ### Bounds of the indexed accesses of the cachedMzML merge -/

theorem appendLoop_none_iff {R D P : Type} (push : R → P → R) (payload : D → List P)
    (ds : List D) (tgt : List R) :
    appendLoop push payload 0 ds tgt = none ↔
      ∃ d ∈ ds.drop tgt.length, payload d ≠ [] := by
  have h := appendLoop_eq push payload ds [] tgt
  simp only [List.length_nil, List.nil_append] at h
  rw [h]
  split_ifs with hall
  · simp only [reduceCtorEq, false_iff, not_exists, not_and, not_not]
    intro d hd
    exact List.isEmpty_iff.mp (List.all_eq_true.mp hall d hd)
  · simp only [true_iff]
    simp only [List.all_eq_true, not_forall] at hall
    obtain ⟨d, hd, hne⟩ := hall
    exact ⟨d, hd, fun h0 => hne (by simp [h0])⟩

/-- With equal spectrum counts every access `exp[i]` of the spectrum loop is in
bounds. -/
theorem mergeSpectra_in_bounds (exp tmp_exp : MSExperiment) (h : exp.size = tmp_exp.size) :
    appendLoop MSSpectrum.push_back MSSpectrum.peaks 0 tmp_exp.spectra exp.spectra ≠ none := by
  rw [Ne, appendLoop_none_iff]
  unfold MSExperiment.size at h
  rw [h, List.drop_length]
  simp

/-- With equal spectrum counts the merge runs into an access past the end
exactly when a dump chromatogram beyond the shell's chromatograms holds a
peak. -/
theorem mergeCachedMzML_none_iff (exp tmp_exp : MSExperiment) (h : exp.size = tmp_exp.size) :
    mergeCachedMzML exp tmp_exp = none ↔
      ∃ c ∈ tmp_exp.chromatograms.drop exp.chromatograms.length, c.peaks ≠ [] := by
  have hs := mergeSpectra_in_bounds exp tmp_exp h
  unfold mergeCachedMzML
  cases h1 : appendLoop MSSpectrum.push_back MSSpectrum.peaks 0 tmp_exp.spectra exp.spectra with
  | none => exact absurd h1 hs
  | some l =>
    cases h2 : appendLoop MSChromatogram.push_back MSChromatogram.peaks 0
        tmp_exp.chromatograms exp.chromatograms with
    | none => simpa using (appendLoop_none_iff _ _ _ _).1 h2
    | some l2 =>
      simp only [false_iff, reduceCtorEq]
      intro hex
      rw [(appendLoop_none_iff _ _ _ _).2 hex] at h2
      cases h2

/-- C23: for the shell "run.mzML" with one spectrum and two chromatograms and
the dump "run.cachedMzML" with one spectrum and three chromatograms, the
pairing check passes (equal spectrum counts) and the spectrum loop stays in
bounds, but the chromatogram loop accesses `old_chromatograms[2]` for the third
dump chromatogram, which is no shell record: the input section ends in
undefined behaviour. -/
theorem cachedMzML_chromatogram_access_out_of_bounds :
    (extendedDumpEnv.loadMzML "run.mzML").size =
      (extendedDumpEnv.readMemdump "run.cachedMzML").size ∧
    (appendLoop MSSpectrum.push_back MSSpectrum.peaks 0
      (extendedDumpEnv.readMemdump "run.cachedMzML").spectra
      (extendedDumpEnv.loadMzML "run.mzML").spectra).isSome = true ∧
    (extendedDumpEnv.readMemdump "run.cachedMzML").chromatograms.length = 3 ∧
    (extendedDumpEnv.loadMzML "run.mzML").chromatograms[2]? = none ∧
    appendLoop MSChromatogram.push_back MSChromatogram.peaks 0
      (extendedDumpEnv.readMemdump "run.cachedMzML").chromatograms
      (extendedDumpEnv.loadMzML "run.mzML").chromatograms = none ∧
    readInput extendedDumpEnv (sampleParams "run.cachedMzML" .CACHEDMZML "out.mzML" "mzML")
        .CACHEDMZML .MZML =
      .done ⟨[.load .MzMLFile "run.mzML", .load .readMemdump "run.cachedMzML"],
        .undefinedBehaviour⟩ := by
  decide

end OpenMS

namespace OpenMS

/-! ### The container decision of the edta branch -/

/-- Every input branch that reaches the output section leaves the feature map
or the consensus map as default-constructed, and has not logged the container
error. -/
theorem readInput_loaded_one_map (env : Env) (p : Params) (it ot : FileType)
    (t : List Event) (d : Data) (h : readInput env p it ot = .loaded t d) :
    (d.fm = FeatureMap.empty ∨ d.cm = ConsensusMap.empty) ∧
    Event.log .cannotDecideOnContainer ∉ t := by
  have hl : ∀ s, Event.log .cannotDecideOnContainer ∉ extractCachedMetaLog s := by
    intro s; unfold extractCachedMetaLog; split_ifs <;> simp
  have hc : Event.log .cannotDecideOnContainer ∉ consumerSetup env p := by
    have := lossyOptions_no_log env p .consumer .cannotDecideOnContainer
    unfold consumerSetup
    simp [this]
  unfold readInput at h
  split_ifs at h with h1 h2 h3 h4 h5 h6
  · unfold readConsensus at h
    dsimp only at h
    split_ifs at h <;> (cases h; exact ⟨Or.inl rfl, by simp⟩)
  · unfold readRaw at h; dsimp only at h; split_ifs at h
  · unfold readConsensus at h
    dsimp only at h
    split_ifs at h <;> (cases h; exact ⟨Or.inl rfl, by simp⟩)
  · unfold readFeatures at h
    dsimp only at h
    split_ifs at h <;> (cases h; exact ⟨Or.inr rfl, by simp⟩)
  · unfold readCachedMzML at h
    dsimp only at h
    split_ifs at h
    split at h
    · cases h
    · cases h; exact ⟨Or.inl rfl, by simp [hl]⟩
  · unfold readLowMemory at h
    dsimp only at h
    split_ifs at h
    cases h; exact ⟨Or.inl rfl, hc⟩
  · cases h; exact ⟨Or.inl rfl, by simp⟩

theorem writeBranch_no_container_error (env : Env) (p : Params) (it ot : FileType) (d : Data)
    (h : d.fm.features = [] ∨ d.cm.features = []) :
    (writeBranch env p it ot d).outcome ≠ .returned .INTERNAL_ERROR ∧
    Event.log .cannotDecideOnContainer ∉ (writeBranch env p it ot d).trace := by
  cases ot
  case MZML =>
    change (writeMzML env p d.exp).outcome ≠ _ ∧ _ ∉ (writeMzML env p d.exp).trace
    have hl := lossyOptions_no_log env p .MzMLFile .cannotDecideOnContainer
    cases hc : changeIMFormat env p (markSRM p
      (addDataProcessingExp d.exp (env.getProcessingInfo .CONVERSION_MZML))) with
    | none => rw [writeMzML_none env p d.exp hc]; simp [hl]
    | some e0 => rw [writeMzML_some env p d.exp e0 hc]; simp [hl]
  case DTA2D =>
    change (if p.TIC_DTA2D = true then _ else _ : Run).outcome ≠ _ ∧
      _ ∉ (if p.TIC_DTA2D = true then _ else _ : Run).trace
    split_ifs <;> simp
  case FEATUREXML =>
    change (writeFeatureXML env p it d).outcome ≠ _ ∧ _ ∉ (writeFeatureXML env p it d).trace
    unfold writeFeatureXML
    split_ifs <;> simp
  case CONSENSUSXML =>
    change (writeConsensusXML env p it d).outcome ≠ _ ∧ _ ∉ (writeConsensusXML env p it d).trace
    unfold writeConsensusXML
    simp
  case EDTA =>
    change (writeEDTA p d).outcome ≠ _ ∧ _ ∉ (writeEDTA p d).trace
    unfold writeEDTA
    rcases h with h | h
    · rw [if_neg (by simp [h])]
      split_ifs <;> simp
    · rw [if_neg (by simp [h])]
      split_ifs <;> simp
  case CACHEDMZML =>
    change (writeCachedMzML p d.exp).outcome ≠ _ ∧ _ ∉ (writeCachedMzML p d.exp).trace
    have hl : Event.log .cannotDecideOnContainer ∉ extractCachedMetaLog p.out := by
      unfold extractCachedMetaLog; split_ifs <;> simp
    unfold writeCachedMzML
    by_cases h : extractCachedMetaFilename p.out = ""
    · simp only [h, if_true]; exact ⟨by simp, hl⟩
    · simp only [h, if_false]; simp [hl]
  case CSV =>
    change (writeCSV p it d.cm).outcome ≠ _ ∧ _ ∉ (writeCSV p it d.cm).trace
    unfold writeCSV
    split_ifs <;> simp
  case OMS =>
    change (writeOMS env p it d.fm).outcome ≠ _ ∧ _ ∉ (writeOMS env p it d.fm).trace
    unfold writeOMS
    split_ifs <;> simp
  all_goals first
    | (change (Outcome.returned .ILLEGAL_PARAMETERS ≠ _) ∧
        _ ∉ [Event.log .unknownOutputFileType, Event.printUsage]; simp)
    | (change (Outcome.returned .EXECUTION_OK ≠ _) ∧ _ ∉ [_]; simp)
    | (change (Outcome.returned .EXECUTION_OK ≠ _) ∧ _ ∉ [_, _, _]; simp)

theorem inputTypeDebug_no_log (env : Env) (p : Params) (l : LogLine) :
    Event.log l ∉ inputTypeDebug env p := by
  unfold inputTypeDebug
  split_ifs <;> simp

theorem preamble_no_log (env : Env) (p : Params) (l : LogLine) :
    Event.log l ∉ preamble env p := by
  have h := inputTypeDebug_no_log env p l
  unfold preamble
  simp [h]

/-- An input branch that ends the invocation never logs the container error,
and returns INTERNAL_ERROR only as the exit code of the external raw file
converter. -/
theorem readInput_done_no_container_error (env : Env) (p : Params) (it ot : FileType)
    (r : Run) (h : readInput env p it ot = .done r) :
    Event.log .cannotDecideOnContainer ∉ r.trace ∧
    (r.outcome = .returned .INTERNAL_ERROR → it = .RAW) := by
  have hl : ∀ s, Event.log .cannotDecideOnContainer ∉ extractCachedMetaLog s := by
    intro s; unfold extractCachedMetaLog; split_ifs <;> simp
  have hc : Event.log .cannotDecideOnContainer ∉ consumerSetup env p := by
    have := lossyOptions_no_log env p .consumer .cannotDecideOnContainer
    unfold consumerSetup
    simp [this]
  unfold readInput at h
  split_ifs at h with h1 h2 h3 h4 h5 h6
  · unfold readConsensus at h; dsimp only at h; split_ifs at h
  · unfold readRaw at h
    dsimp only at h
    split_ifs at h <;> (cases h; simp [h2])
  · unfold readConsensus at h; dsimp only at h; split_ifs at h
  · unfold readFeatures at h; dsimp only at h; split_ifs at h
  · unfold readCachedMzML at h
    dsimp only at h
    split_ifs at h
    · cases h; exact ⟨hl _, by simp⟩
    · cases h; simp [hl]
    · split at h
      · cases h; simp [hl]
      · cases h
  · unfold readLowMemory at h
    dsimp only at h
    split_ifs at h <;> (cases h; simp [hl, hc])

/-- C24: the INTERNAL_ERROR branch of the edta output path is never taken. On
every execution that reaches the output section at most one of the feature map
and the consensus map is non-empty, the output section neither returns
INTERNAL_ERROR nor logs the container error, and over the whole of `main_` the
container error is never logged and INTERNAL_ERROR can only be the exit code
handed back by the external raw file converter. -/
theorem edta_internal_error_unreachable (env : Env) (p : Params) :
    (∀ (it ot : FileType) (t : List Event) (d : Data),
      readInput env p it ot = .loaded t d →
        (d.fm.features = [] ∨ d.cm.features = []) ∧
        (writeOutput env p it ot d).outcome ≠ .returned .INTERNAL_ERROR ∧
        Event.log .cannotDecideOnContainer ∉ (writeOutput env p it ot d).trace) ∧
    Event.log .cannotDecideOnContainer ∉ (main_ env p).trace ∧
    ((main_ env p).outcome = .returned .INTERNAL_ERROR → resolveInType env p = .RAW) := by
  have hmaps : ∀ (it ot : FileType) (t : List Event) (d : Data),
      readInput env p it ot = .loaded t d → d.fm.features = [] ∨ d.cm.features = [] := by
    intro it ot t d h
    rcases (readInput_loaded_one_map env p it ot t d h).1 with h | h
    · left; rw [h]; rfl
    · right; rw [h]; rfl
  have hout : ∀ (it ot : FileType) (t : List Event) (d : Data),
      readInput env p it ot = .loaded t d →
        (writeOutput env p it ot d).outcome ≠ .returned .INTERNAL_ERROR ∧
        Event.log .cannotDecideOnContainer ∉ (writeOutput env p it ot d).trace := by
    intro it ot t d h
    have hb := writeBranch_no_container_error env p it ot d (hmaps it ot t d h)
    unfold writeOutput
    exact ⟨hb.1, by simp [hb.2]⟩
  refine ⟨fun it ot t d h => ⟨hmaps it ot t d h, hout it ot t d h⟩, ?_⟩
  have hdbg := inputTypeDebug_no_log env p .cannotDecideOnContainer
  have hpre := preamble_no_log env p .cannotDecideOnContainer
  by_cases hi : resolveInType env p = .UNKNOWN
  · have hm : main_ env p =
        ⟨inputTypeDebug env p ++ [.log .couldNotDetermineInputType], .returned .PARSE_ERROR⟩ := by
      unfold main_; simp only [hi, if_true]
    rw [hm]; simp [hdbg]
  · by_cases ho : resolveOutType env p = .UNKNOWN
    · have hm : main_ env p =
          ⟨inputTypeDebug env p ++ [.log .couldNotDetermineOutputType],
            .returned .PARSE_ERROR⟩ := by
        unfold main_; simp only [hi, ho, if_true, if_false]
      rw [hm]; simp [hdbg]
    · cases hr : readInput env p (resolveInType env p) (resolveOutType env p) with
      | done r =>
        rw [main_of_done env p r hi ho hr]
        have hd := readInput_done_no_container_error env p _ _ r hr
        exact ⟨by simp [hpre, hd.1], hd.2⟩
      | loaded t d =>
        rw [main_of_loaded env p t d hi ho hr]
        have hw := hout _ _ t d hr
        have ht := (readInput_loaded_one_map env p _ _ t d hr).2
        exact ⟨by simp [hpre, ht, hw.2], fun h => absurd h hw.1⟩

theorem edta_internal_error_unreachable_witness :
    readInput sampleEnv (sampleParams "in.featureXML" .FEATUREXML "out.edta" "edta")
        .FEATUREXML .EDTA =
      .loaded [.load (.loadFeatures .FEATUREXML) "in.featureXML", .log .warnFeaturesToPeaks]
        ⟨sampleEnv.set2DDataFeatures MSExperiment.empty sampleFeatureMap, sampleFeatureMap,
          ConsensusMap.empty, 0⟩ ∧
    ((sampleFeatureMap.features = [] ∨ ConsensusMap.empty.features = []) ∧
      (writeOutput sampleEnv (sampleParams "in.featureXML" .FEATUREXML "out.edta" "edta")
        .FEATUREXML .EDTA
        ⟨sampleEnv.set2DDataFeatures MSExperiment.empty sampleFeatureMap, sampleFeatureMap,
          ConsensusMap.empty, 0⟩).outcome ≠ .returned .INTERNAL_ERROR ∧
      Event.log .cannotDecideOnContainer ∉
        (writeOutput sampleEnv (sampleParams "in.featureXML" .FEATUREXML "out.edta" "edta")
          .FEATUREXML .EDTA
          ⟨sampleEnv.set2DDataFeatures MSExperiment.empty sampleFeatureMap, sampleFeatureMap,
            ConsensusMap.empty, 0⟩).trace) ∧
    main_ sampleEnv (sampleParams "in.featureXML" .FEATUREXML "out.edta" "edta") =
      ⟨[.debug (.outputFileType .EDTA), .debug .loadingInputFile,
        .load (.loadFeatures .FEATUREXML) "in.featureXML", .log .warnFeaturesToPeaks,
        .debug .writingOutputFile,
        .store .EDTAFile "out.edta" (.featureMap sampleFeatureMap)],
       .returned .EXECUTION_OK⟩ :=
  ⟨by decide,
   (edta_internal_error_unreachable sampleEnv
      (sampleParams "in.featureXML" .FEATUREXML "out.edta" "edta")).1 .FEATUREXML .EDTA
      [.load (.loadFeatures .FEATUREXML) "in.featureXML", .log .warnFeaturesToPeaks]
      ⟨sampleEnv.set2DDataFeatures MSExperiment.empty sampleFeatureMap, sampleFeatureMap,
        ConsensusMap.empty, 0⟩
      (by decide),
   by decide⟩

end OpenMS
